import Mathlib

/-!
# nvim/lua/executor.c: a shallow embedding

The Lua bridge of Neovim (src/nvim/lua/executor.c) embedded as pure Lean
functions over an explicit host state.

* Byte strings are lists of naturals; a C pointer into a buffer is the list of
  the bytes from there on, followed by the terminating NUL.
* C integers are mathematical integers, with an explicit cast where the source
  casts (`int_cast`, `uint64_cast`); the counter `in_fast_callback` is not
  wrapped at 2^31.
* A C function that Lua calls takes its arguments as a list and ends in an
  `Outcome`: it returns, raises a Lua error, ends the process, or runs into
  undefined behaviour.
* Guest code is a script (`Guest`): steps of its own, callbacks that luv runs
  through `nlua_luv_cfpcall`, and a final result or error.  `lua_pcall` runs it.
  Guest code that calls back into other operations of the bridge is not part of
  a script.
* The parts of the editor and of the Lua library outside executor.c are either
  fields of `Host` (converters, channels, host functions) or small definitions
  marked as modelled (macros and constants of headers that are not in src/).
* Everything the host can observe is appended to `State.log`, in order.
-/

namespace Executor

/-! ## Bytes and C strings -/

/-- A byte string: the bytes of a C buffer, without its terminating NUL. -/
abbrev Bytes := List Nat

/-- The ascii.h constant NUL. -/
def NUL : Nat := 0

/-- The ascii.h constant NL. -/
def NL : Nat := 10

/-- Modelled from the spec: the macro TOLOWER_LOC (nvim/macros.h) is not under
src/; the comparison is "case-insensitive", taken here in the C locale, where
only the letters A..Z have a distinct lower-case form. -/
def TOLOWER_LOC (c : Nat) : Nat :=
  if 65 ≤ c ∧ c ≤ 90 then c + 32 else c

/-- Modelled from the spec: the macro STRICMP (nvim/vim.h, expanding to
vim_stricmp) is not under src/.  It compares two NUL-terminated strings
ignoring case: it walks both strings, returns the difference of the first pair
of lower-cased bytes that differ, and stops with 0 at the terminator of the
first string.  A pointer is the list of the bytes from it to the end of the
buffer; the byte after the end of the buffer is the terminating NUL. -/
def STRICMP (s1 s2 : Bytes) : Int :=
  match s1 with
  | [] => (TOLOWER_LOC NUL : Int) - (TOLOWER_LOC (s2.headD NUL) : Int)
  | c1 :: r1 =>
    let i : Int := (TOLOWER_LOC c1 : Int) - (TOLOWER_LOC (s2.headD NUL) : Int)
    if i ≠ 0 then i
    else if c1 = NUL then 0
    else STRICMP r1 s2.tail

/-- The libc function memchr(s, c, len) over the whole buffer: the offset of the
first byte equal to c, if there is one. -/
def memchr : Bytes → Nat → Option Nat
  | [], _ => none
  | b :: rest, c => if b = c then some 0 else (memchr rest c).map (· + 1)

/-- The C truth value of a condition. -/
def c_bool (b : Bool) : Int := if b then 1 else 0

/-- The do-while loop of nlua_stricmp (executor.c:91-115).  Every iteration
that continues drops at least one byte of s1, so s1.length + 1 rounds of fuel
are never used up. -/
def nlua_stricmp_loop : Nat → Bytes → Bytes → Int
  | 0, _, _ => 0
  | fuel + 1, s1, s2 =>
    let nul1 := memchr s1 NUL
    let nul2 := memchr s2 NUL
    let ret := STRICMP s1 s2
    if ret = 0 then
      if nul1.isNone ≠ nul2.isNone then
        c_bool nul1.isSome - c_bool nul2.isSome
      else
        match nul1, nul2 with
        | some n1, some n2 => nlua_stricmp_loop fuel (s1.drop (n1 + 1)) (s2.drop (n2 + 1))
        | _, _ => ret
    else ret

/-- The function nlua_stricmp (executor.c:80-119) on its two string arguments:
the number it pushes. -/
def nlua_stricmp (s1 s2 : Bytes) : Int :=
  let ret := nlua_stricmp_loop (s1.length + 1) s1 s2
  c_bool (decide (ret > 0)) - c_bool (decide (ret < 0))

/-- Two byte strings are equal ignoring case. -/
def eq_ignoring_case (s t : Bytes) : Prop :=
  s.map TOLOWER_LOC = t.map TOLOWER_LOC

instance (s t : Bytes) : Decidable (eq_ignoring_case s t) := by
  unfold eq_ignoring_case; infer_instance

/-! ## Guest values and the host state -/

/-- The type tags of lua.h; TNONE is the type of an index past the top of the stack. -/
inductive LuaType where
  | TNONE | TNIL | TBOOLEAN | TLIGHTUSERDATA | TNUMBER | TSTRING | TTABLE | TFUNCTION
  | TUSERDATA | TTHREAD
  deriving DecidableEq, Repr

/-- A guest value as the C API shows it.  Numbers are integers (fractions are
outside the model); a table or userdata carries the type of the __call field of
its metatable, if it has one, which is all luaL_getmetafield is asked for. -/
inductive LuaValue where
  | nil
  | boolean (b : Bool)
  | number (n : Int)
  | string (s : Bytes)
  | table (id : Nat) (call : Option LuaType)
  | function (id : Nat)
  | userdata (id : Nat) (call : Option LuaType)
  deriving DecidableEq, Repr

/-- The API function lua_type on a value that is present. -/
def LuaValue.type : LuaValue → LuaType
  | .nil => .TNIL
  | .boolean _ => .TBOOLEAN
  | .number _ => .TNUMBER
  | .string _ => .TSTRING
  | .table _ _ => .TTABLE
  | .function _ => .TFUNCTION
  | .userdata _ _ => .TUSERDATA

/-- The API function lua_type(L, idx) on the arguments of a C function (idx from 1). -/
def lua_type (args : List LuaValue) (idx : Nat) : LuaType :=
  match args.get? (idx - 1) with
  | some v => v.type
  | none => .TNONE

/-- The value at index idx of the arguments of a C function; nil past the top. -/
def lua_index (args : List LuaValue) (idx : Nat) : LuaValue :=
  (args.get? (idx - 1)).getD .nil

/-- The API function lua_gettop on the arguments of a C function. -/
def lua_gettop (args : List LuaValue) : Int := args.length

/-- The API function lua_toboolean: everything but nil and false is true. -/
def lua_toboolean : LuaValue → Bool
  | .nil => false
  | .boolean b => b
  | _ => true

/-- The decimal text of a number, as lua_tolstring produces it for an integer. -/
def number2str (n : Int) : Bytes := (toString n).toList.map Char.toNat

/-- The API function lua_tolstring (and lua_tostring): strings and numbers have
a text, every other value gives NULL. -/
def lua_tolstring : LuaValue → Option Bytes
  | .string s => some s
  | .number n => some (number2str n)
  | _ => none

/-- The bytes of a buffer read as a C string: up to the first NUL. -/
def c_str (s : Bytes) : Bytes := s.takeWhile (fun c => c != NUL)

/-- The API function luaL_getmetafield(L, idx, "__call") followed by lua_type of
the field: the type of the __call metafield, if the value has one. -/
def luaL_getmetafield_call : LuaValue → Option LuaType
  | .table _ call => call
  | .userdata _ call => call
  | _ => none

/-- The statuses with which lua_pcall reports a failure (lua.h). -/
inductive PcallError where
  | ERRRUN | ERRMEM | ERRERR
  deriving DecidableEq, Repr

/-- The numeric value of a failure status in lua.h. -/
def PcallError.code : PcallError → Int
  | .ERRRUN => 2
  | .ERRMEM => 4
  | .ERRERR => 5

/-- The lua.h constant LUA_ERRMEM. -/
def LUA_ERRMEM : Int := 4

/-- The lua.h constant LUA_MULTRET. -/
def LUA_MULTRET : Int := -1

/-- The constant LUVF_CALLBACK_NOEXIT of the luv library (not under src/): bit 0
of the flags of a callback call. -/
def LUVF_CALLBACK_NOEXIT : Nat := 1

/-- The lauxlib.h constant LUA_REFNIL. -/
def LUA_REFNIL : Int := -1

/-- The lauxlib constant FREELIST_REF: the registry key that heads the free list. -/
def FREELIST_REF : Int := 0

/-- Modelled from the spec: the constant MAX_FUNC_ARGS (nvim/eval/typval.h) is
not under src/; the argument limit of a host function call. -/
def MAX_FUNC_ARGS : Int := 20

/-- Modelled from the spec: the message e_outofmem (nvim/globals.h) is not
under src/; the out-of-memory diagnostic. -/
def e_outofmem : String := "E41: Out of memory!"

/-- A host value produced by the converter from a guest value (an API Object);
only its identity matters here. -/
structure Object where
  id : Nat
  deriving DecidableEq, Repr

/-- A host typval_T produced by the converter; only its identity matters here. -/
structure Typval where
  id : Nat
  deriving DecidableEq, Repr

/-- What the guest code run by one protected call does, as far as executor.c
can tell: it ends with results or with an error, takes steps of its own, and
may make luv run a callback, which goes through nlua_luv_cfpcall. -/
inductive Guest where
  | ok (results : List LuaValue)
  | fail (status : PcallError) (err : LuaValue)
  | tick (k : Guest)
  | callback (f : LuaValue) (args : List LuaValue) (nresult : Int) (flags : Nat)
      (callee : Guest) (k : Guest)
  deriving DecidableEq, Repr

/-- How a protected call ended. -/
inductive PcallResult where
  | ok (results : List LuaValue)
  | err (status : PcallError) (v : LuaValue)
  deriving DecidableEq, Repr

/-- What the guest code returns to lua_pcall if nothing stops the process
before: the leaf at the end of its own steps. -/
def Guest.result : Guest → PcallResult
  | .ok results => .ok results
  | .fail status err => .err status err
  | .tick k => k.result
  | .callback _ _ _ _ _ k => k.result

/-- An event on the queue main_loop.events: the handler and its arguments. -/
inductive Task where
  | nlua_luv_error_event (error : Bytes)
  | nlua_schedule_event (cb : Int)
  | nlua_print_event (str : Bytes) (len : Nat)
  deriving DecidableEq, Repr

/-- What the host can observe, in the order it happens: calls into the rest of
the editor, and marks for the points the claims speak about. -/
inductive Effect where
  | msg (s : Bytes)
  | msg_ext_set_kind (kind : String)
  | emsgf_multiline (fmt : String) (text : Option Bytes)
  | emsg (text : String)
  | mch_errmsg (text : String)
  | preserve_exit
  | xfree (buf : Bytes)
  | guest_step (frames : Nat) (in_fast_callback : Int)
  | guest_call (f : LuaValue) (nargs : Nat)
  | luaL_newstate
  | luaL_ref (ref : Int)
  | luaL_unref (ref : Int)
  | time_watcher_start (timeout : Int) (repeat_ms : Int)
  | time_watcher_stop
  | time_watcher_close
  | vgetc
  | nlua_pop_typval (idx : Nat)
  | call_func (name : Bytes) (args : List Typval)
  | tv_clear (tv : Typval)
  | nlua_pop_Object (idx : Nat)
  | rpc_send_call (chan : Int) (name : Bytes) (args : List Object)
  | rpc_send_event (chan : Int) (name : Bytes) (args : List Object)
  | api_free_array (args : List Object)
  | api_free_object (obj : Object)
  deriving DecidableEq, Repr

/-- The integer-keyed part of the Lua registry table: the bindings that are
not nil.  Key FREELIST_REF heads the list of released references. -/
structure Registry where
  tbl : List (Int × LuaValue)
  deriving DecidableEq, Repr

/-- The state of the process that executor.c reads and writes. -/
structure State where
  /-- The static counter in_fast_callback (executor.c:45). -/
  in_fast_callback : Int
  /-- The host interrupt flag got_int. -/
  got_int : Bool
  /-- The part of the Lua stack above the arguments of the running C function; the head is the top. -/
  stack : List LuaValue
  /-- The Lua registry. -/
  registry : Registry
  /-- The queue main_loop.events, oldest first. -/
  events : List Task
  /-- Whether the static global_lstate of nlua_enter is set. -/
  global_lstate : Bool
  /-- The static last_p_rtp of nlua_enter: the address seen last, if any. -/
  last_p_rtp : Option Nat
  /-- The address held by the option variable p_rtp. -/
  p_rtp : Nat
  /-- Whether the first bootstrap script has run to its end. -/
  shared_loaded : Bool
  /-- Whether the second bootstrap script has run to its end. -/
  vim_loaded : Bool
  /-- The number of nlua_luv_cfpcall activations that luv has on the C stack (not a variable of the program). -/
  frames : Nat
  /-- The observable effects so far, oldest first. -/
  log : List Effect
  deriving DecidableEq, Repr

/-- An error raised into the guest by a C function (lua_error, luaL_error): the
argument error of luaL_check*, a fixed text, the text e_luv_api_disabled
("disabled in this context") filled in with the name of the operation, the
error value of a failed protected call raised again, the message of an API
error, "error converting argument k", and "Invalid channel: id". -/
inductive LuaErr where
  | arg (narg : Nat) (expected : LuaType)
  | text (msg : String)
  | luv_api_disabled (what : String)
  | guest (v : LuaValue)
  | api (msg : Bytes)
  | arg_conversion (k : Nat)
  | invalid_channel (chan : Int)
  deriving DecidableEq, Repr

/-- How a piece of C code ends: it returns, it raises a Lua error to the
enclosing protected call, the process exits (preserve_exit), or it runs into
undefined behaviour (a NULL pointer handed to strlen). -/
inductive Outcome (α : Type) where
  | ret (a : α) (st : State)
  | raise (err : LuaErr) (st : State)
  | exit (st : State)
  | undefined (st : State)
  deriving DecidableEq, Repr

/-- The state in which a piece of C code ended. -/
def Outcome.state {α : Type} : Outcome α → State
  | .ret _ st => st
  | .raise _ st => st
  | .exit st => st
  | .undefined st => st

/-- Sequencing: the rest of the C code runs only if the first part returned. -/
def Outcome.bind {α β : Type} (o : Outcome α) (f : α → State → Outcome β) : Outcome β :=
  match o with
  | .ret a st => f a st
  | .raise e st => .raise e st
  | .exit st => .exit st
  | .undefined st => .undefined st

/-- Append one effect to the log. -/
def State.emit (st : State) (e : Effect) : State :=
  { st with log := st.log ++ [e] }

/-- The API function lua_pop(L, 1). -/
def State.pop (st : State) : State :=
  { st with stack := st.stack.tail }

/-- The API function lua_push*: one more value on the stack. -/
def State.push (st : State) (v : LuaValue) : State :=
  { st with stack := v :: st.stack }

/-- The behaviour of the parts of the editor and of the Lua library that are
not in executor.c, as far as its functions depend on them. -/
structure Host where
  /-- Whether luaL_newstate returns an interpreter. -/
  luaL_newstate : Bool
  /-- The Lua library's reading of a string as a number (lua_tointeger on a string). -/
  str2number : Bytes → Option Int
  /-- The result of luaL_loadbuffer on shared_module: the error, or the chunk. -/
  shared_module : Except LuaValue Guest
  /-- The result of luaL_loadbuffer on vim_module: the error, or the chunk. -/
  vim_module : Except LuaValue Guest
  /-- What the guest routine vim._update_package_paths does. -/
  update_package_paths : Guest
  /-- The converter nlua_pop_typval: the typval, or failure. -/
  nlua_pop_typval : LuaValue → Option Typval
  /-- The converter nlua_push_typval. -/
  nlua_push_typval : Typval → LuaValue
  /-- The host functions call_func and try_end: the value returned, and the error if one was caught. -/
  call_func : Bytes → List Typval → Typval × Option Bytes
  /-- The converter nlua_pop_Object: the object returned, and the error message if it failed. -/
  nlua_pop_Object : LuaValue → Object × Option Bytes
  /-- The converter nlua_push_Object. -/
  nlua_push_Object : Object → LuaValue
  /-- The channel function rpc_send_call: the reply, and the error message if any. -/
  rpc_send_call : Int → Bytes → List Object → Object × Option Bytes
  /-- The channel function rpc_send_event: whether the channel took the event. -/
  rpc_send_event : Int → Bytes → List Object → Bool

/-- The API function lua_tointeger. -/
def lua_tointeger (h : Host) : LuaValue → Int
  | .number n => n
  | .string s => (h.str2number s).getD 0
  | _ => 0

/-- The auxiliary function luaL_checkinteger on argument idx: none stands for the argument error. -/
def luaL_checkinteger (h : Host) (args : List LuaValue) (idx : Nat) : Option Int :=
  match args.get? (idx - 1) with
  | some (.number n) => some n
  | some (.string s) => h.str2number s
  | _ => none

/-- The auxiliary function luaL_checklstring on argument idx: none stands for the argument error. -/
def luaL_checklstring (args : List LuaValue) (idx : Nat) : Option Bytes :=
  match args.get? (idx - 1) with
  | some v => lua_tolstring v
  | none => none

/-- A cast to the C type int (32 bits, two's complement). -/
def int_cast (n : Int) : Int := (n + 2147483648) % 4294967296 - 2147483648

/-- A cast to the C type uint64_t. -/
def uint64_cast (n : Int) : Int := n % 18446744073709551616

/-! ## The reference registry (executor.c:819-844) -/

/-- The API function lua_rawgeti on the registry. -/
def Registry.rawgeti (r : Registry) (n : Int) : LuaValue :=
  (r.tbl.lookup n).getD .nil

/-- The API function lua_rawseti on the registry; storing nil removes the binding. -/
def Registry.rawseti (r : Registry) (n : Int) (v : LuaValue) : Registry :=
  let rest := r.tbl.filter (fun kv => kv.1 != n)
  if v = .nil then ⟨rest⟩ else ⟨(n, v) :: rest⟩

/-- The search of lua_objlen: the first n at or after the start with nothing at n + 1. -/
def Registry.objlen_from (r : Registry) : Nat → Nat → Nat
  | 0, n => n
  | fuel + 1, n => if r.rawgeti ((n : Int) + 1) = .nil then n else r.objlen_from fuel (n + 1)

/-- The API function lua_objlen on the registry: a border of its integer keys. -/
def Registry.objlen (r : Registry) : Nat := r.objlen_from r.tbl.length 0

/-- The auxiliary function luaL_ref(L, LUA_REGISTRYINDEX) of the Lua library
on the value v: the reference and the new registry. -/
def luaL_ref (h : Host) (r : Registry) (v : LuaValue) : Int × Registry :=
  if v = .nil then (LUA_REFNIL, r)
  else
    let ref := int_cast (lua_tointeger h (r.rawgeti FREELIST_REF))
    if ref ≠ 0 then
      let r1 := r.rawseti FREELIST_REF (r.rawgeti ref)
      (ref, r1.rawseti ref v)
    else
      let ref : Int := (r.objlen : Int) + 1
      (ref, r.rawseti ref v)

/-- The auxiliary function luaL_unref(L, LUA_REGISTRYINDEX, ref) of the Lua library. -/
def luaL_unref (r : Registry) (ref : Int) : Registry :=
  if ref ≥ 0 then
    let r1 := r.rawseti ref (r.rawgeti FREELIST_REF)
    r1.rawseti FREELIST_REF (.number ref)
  else r

/-- The function nlua_ref (executor.c:820-824) on the value at the given index. -/
def nlua_ref (h : Host) (st : State) (v : LuaValue) : Int × State :=
  let res := luaL_ref h st.registry v
  (res.1, { st with registry := res.2, log := st.log ++ [.luaL_ref res.1] })

/-- The function nlua_unref (executor.c:827-832). -/
def nlua_unref (st : State) (ref : Int) : State :=
  if ref > 0 then
    { st with registry := luaL_unref st.registry ref, log := st.log ++ [.luaL_unref ref] }
  else st

/-- The function nlua_pushref (executor.c:841-844). -/
def nlua_pushref (st : State) (ref : Int) : State :=
  st.push (st.registry.rawgeti ref)

/-- Modelled from the spec: the function multiqueue_put (nvim/event/multiqueue.c)
is not under src/; it appends the task to the single event queue. -/
def multiqueue_put (st : State) (t : Task) : State :=
  { st with events := st.events ++ [t] }

/-! ## The execution-context counter and the callback wrapper -/

/-- The statement in_fast_callback++ (executor.c:196): the entry to an unsafe context. -/
def ctx_enter (st : State) : State :=
  { st with in_fast_callback := st.in_fast_callback + 1 }

/-- The statement in_fast_callback-- (executor.c:220): the exit from an unsafe context. -/
def ctx_leave (st : State) : State :=
  { st with in_fast_callback := st.in_fast_callback - 1 }

/-- The function nlua_is_deferred_safe (executor.c:1012-1015). -/
def nlua_is_deferred_safe (st : State) : Bool :=
  st.in_fast_callback == 0

/-- The function nlua_in_fast_event (executor.c:675-679): the value it pushes. -/
def nlua_in_fast_event (st : State) : LuaValue :=
  .boolean (decide (st.in_fast_callback > 0))

/-- The results of a call adjusted to the number asked for. -/
def adjust_results (results : List LuaValue) (nresults : Int) : List LuaValue :=
  if nresults = LUA_MULTRET then results
  else (results ++ List.replicate (nresults.toNat - results.length) LuaValue.nil).take
    nresults.toNat

/-- The API function lua_pcall(L, nargs, nresults, 0), given how the called
guest code runs: the function and its arguments leave the stack, and the
results, or the error value alone, take their place. -/
def lua_pcall_run (run : State → Outcome PcallResult) (st : State) (nargs : Nat)
    (nresults : Int) : Outcome Int :=
  let f := st.stack.getD nargs .nil
  let base := st.stack.drop (nargs + 1)
  (run { st with stack := base, log := st.log ++ [.guest_call f nargs] }).bind fun r st1 =>
    match r with
    | .ok results =>
      .ret 0 { st1 with stack := (adjust_results results nresults).reverse ++ base }
    | .err status v => .ret status.code { st1 with stack := v :: base }

/-- The function nlua_luv_cfpcall (executor.c:188-222), given how the called
guest code runs. -/
def nlua_luv_cfpcall_run (run : State → Outcome PcallResult) (st : State) (nargs : Nat)
    (nresult : Int) (flags : Nat) : Outcome Int :=
  let st := ctx_enter st
  let top : Int := st.stack.length
  (lua_pcall_run run st nargs nresult).bind fun status st =>
    if status ≠ 0 then
      if status = LUA_ERRMEM ∧ (flags &&& LUVF_CALLBACK_NOEXIT) = 0 then
        .exit (((st.emit (.mch_errmsg e_outofmem)).emit (.mch_errmsg "\n")).emit .preserve_exit)
      else
        match lua_tolstring (st.stack.headD .nil) with
        | none => .undefined st
        | some error =>
          let st := multiqueue_put st (.nlua_luv_error_event (c_str error))
          let st := st.pop
          let retval := -status
          .ret retval (ctx_leave st)
    else
      let nresult :=
        if nresult = LUA_MULTRET then (st.stack.length : Int) - top + (nargs : Int) + 1
        else nresult
      let retval := nresult
      .ret retval (ctx_leave st)

/-- The run of guest code.  A step of the guest is marked in the log with the
number of callback activations around it and the value of in_fast_callback at
that moment; a callback is pushed with its arguments and handed to
nlua_luv_cfpcall, after which the guest goes on. -/
def run_guest (st : State) : Guest → Outcome PcallResult
  | .ok results => .ret (.ok results) st
  | .fail status err => .ret (.err status err) st
  | .tick k => run_guest (st.emit (.guest_step st.frames st.in_fast_callback)) k
  | .callback f args nresult flags callee k =>
    let st1 := { st with stack := args.reverse ++ f :: st.stack, frames := st.frames + 1 }
    (nlua_luv_cfpcall_run (fun s => run_guest s callee) st1 args.length nresult flags).bind
      fun _ st2 => run_guest { st2 with frames := st.frames } k

/-- The API function lua_pcall(L, nargs, nresults, 0) on guest code. -/
def lua_pcall (st : State) (nargs : Nat) (nresults : Int) (callee : Guest) : Outcome Int :=
  lua_pcall_run (fun s => run_guest s callee) st nargs nresults

/-- The function nlua_luv_cfpcall (executor.c:188-222) on guest code. -/
def nlua_luv_cfpcall (st : State) (nargs : Nat) (nresult : Int) (flags : Nat)
    (callee : Guest) : Outcome Int :=
  nlua_luv_cfpcall_run (fun s => run_guest s callee) st nargs nresult flags

/-- The function nlua_error (executor.c:61-71) with message base msg. -/
def nlua_error (st : State) (msg : String) : State :=
  let str := lua_tolstring (st.stack.headD .nil)
  ((st.emit (.msg_ext_set_kind "lua_error")).emit (.emsgf_multiline msg str)).pop

/-- The function nlua_luv_error_event (executor.c:180-186). -/
def nlua_luv_error_event (st : State) (error : Bytes) : State :=
  ((st.emit (.msg_ext_set_kind "lua_error")).emit
    (.emsgf_multiline "Error executing luv callback:\n%s" (some error))).emit (.xfree error)

/-! ## The interpreter instance (executor.c:359-539) -/

/-- The userdata that nlua_state_init creates for vim.NIL (executor.c:440). -/
def nil_userdata : LuaValue := .userdata 0 none

/-- The table that nlua_state_init creates for vim._empty_dict_mt (executor.c:449). -/
def empty_dict_mt : LuaValue := .table 1 none

/-- The table that nlua_state_init creates for the global vim (executor.c:380). -/
def vim_table : LuaValue := .table 0 none

/-- The run of one bootstrap script (executor.c:463-479): luaL_loadbuffer, then
lua_pcall; the flag tells whether both went through, and a failure has been
reported through nlua_error. -/
def nlua_bootstrap (st : State) (chunk : Except LuaValue Guest) (id : Nat) (msg : String) :
    Outcome Bool :=
  match chunk with
  | .error e => .ret false (nlua_error (st.push e) msg)
  | .ok body =>
    (lua_pcall (st.push (.function id)) 0 0 body).bind fun status st =>
      if status ≠ 0 then .ret false (nlua_error st msg) else .ret true st

/-- The function nlua_state_init (executor.c:359-482): the two references it
takes and the two bootstrap scripts; the number is its return value. -/
def nlua_state_init (h : Host) (st : State) : Outcome Int :=
  let st := (nlua_ref h st nil_userdata).2
  let st := (nlua_ref h st empty_dict_mt).2
  (nlua_bootstrap st h.shared_module 0
      "E5106: Error while creating shared module: %.*s").bind fun ok st =>
    if !ok then .ret 1 st
    else
      (nlua_bootstrap { st with shared_loaded := true } h.vim_module 1
          "E5106: Error while creating vim module: %.*s").bind fun ok st =>
        if !ok then .ret 1 st else .ret 0 { st with vim_loaded := true }

/-- The function nlua_init (executor.c:490-501): a new interpreter has an empty
stack and an empty registry. -/
def nlua_init (h : Host) (st : State) : Outcome Unit :=
  if !h.luaL_newstate then
    .exit ((st.emit (.emsg "E970: Failed to initialize lua interpreter")).emit .preserve_exit)
  else
    let st := { st with stack := [], registry := ⟨[]⟩, log := st.log ++ [.luaL_newstate] }
    (nlua_state_init h st).bind fun _ st => .ret () st

/-- What calling the field vim._update_package_paths does: the routine is
defined by the second bootstrap script; without it the field is nil and the
call fails. -/
def update_package_paths (h : Host) (st : State) : Guest :=
  if st.vim_loaded then h.update_package_paths
  else .fail .ERRRUN (.string [])

/-- The second half of nlua_enter (executor.c:518-537): the check of the search
path against the one recorded by the last call, and the call of
vim._update_package_paths when they differ. -/
def nlua_enter_rtp (h : Host) (st : State) : Outcome Unit :=
  if st.last_p_rtp ≠ some st.p_rtp then
    let st := st.push vim_table
    let st := st.push (if st.vim_loaded then LuaValue.function 2 else LuaValue.nil)
    (lua_pcall st 0 0 (update_package_paths h st)).bind fun status st =>
      let st :=
        if status ≠ 0 then nlua_error st "E5117: Error while updating package paths: %.*s"
        else st
      let st := st.pop
      .ret () { st with last_p_rtp := some st.p_rtp }
  else .ret () st

/-- The function nlua_enter (executor.c:510-539). -/
def nlua_enter (h : Host) (st : State) : Outcome Unit :=
  (if st.global_lstate then .ret () st
   else (nlua_init h st).bind fun _ st => .ret () { st with global_lstate := true }).bind
    fun _ st => nlua_enter_rtp h st

/-- The function executor_free_luaref (executor.c:834-838). -/
def executor_free_luaref (h : Host) (st : State) (ref : Int) : Outcome Unit :=
  (nlua_enter h st).bind fun _ st => .ret () (nlua_unref st ref)

/-! ## The scheduler (executor.c:224-251) -/

/-- The function nlua_schedule_event (executor.c:224-233) for the reference cb,
the referenced callable behaving as callee. -/
def nlua_schedule_event (h : Host) (st : State) (cb : Int) (callee : Guest) : Outcome Unit :=
  (nlua_enter h st).bind fun _ st =>
    let st := nlua_pushref st cb
    let st := nlua_unref st cb
    (lua_pcall st 0 0 callee).bind fun status st =>
      if status ≠ 0 then
        .ret () (nlua_error st "Error executing vim.schedule lua callback: %.*s")
      else .ret () st

/-- The function nlua_schedule (executor.c:238-251). -/
def nlua_schedule (h : Host) (st : State) (args : List LuaValue) : Outcome (List LuaValue) :=
  if lua_type args 1 ≠ .TFUNCTION then
    .raise (.text "vim.schedule: expected function") st
  else
    let res := nlua_ref h st (lua_index args 1)
    let cb := res.1
    .ret [] (multiqueue_put res.2 (.nlua_schedule_event cb))

/-! ## The blocking wait (executor.c:272-354) -/

/-- The locals of nlua_wait that the loop condition writes, and the number of
evaluations of the condition so far (not a variable of the program). -/
structure WaitVars where
  pcall_status : Int
  callback_result : Bool
  evals : Nat
  deriving DecidableEq, Repr

/-- What one LOOP_PROCESS_EVENTS does, as far as nlua_wait can tell: the
milliseconds that passed, and whether an interrupt arrived and set got_int. -/
structure Pump where
  elapsed : Nat
  interrupt : Bool
  deriving DecidableEq, Repr

/-- The function nlua_wait_condition (executor.c:272-283); the flag is its
return value. -/
def nlua_wait_condition (st : State) (args : List LuaValue) (cond : Guest) (w : WaitVars) :
    Outcome (Bool × WaitVars) :=
  let st := st.push (lua_index args 2)
  (lua_pcall st 0 1 cond).bind fun status st =>
    let w := { w with pcall_status := status, evals := w.evals + 1 }
    if status ≠ 0 then .ret (true, w) st
    else
      let r := lua_toboolean (st.stack.headD .nil)
      .ret (r, { w with callback_result := r }) st.pop

/-- Modelled from the spec: the macro LOOP_PROCESS_EVENTS_UNTIL
(nvim/event/loop.h) is not under src/.  With the loop condition of nlua_wait
(executor.c:328-332): the condition is evaluated once immediately and once
after every pump of the event loop; the loop stops when the condition holds or
got_int is set, after one pump when the timeout is 0, and when the remaining
time is used up; a negative timeout never runs out.  The n-th evaluation runs
cond n and the n-th pump is pump n; none stands for a loop that has not
stopped within the given number of rounds. -/
def LOOP_PROCESS_EVENTS_UNTIL (args : List LuaValue) (cond : Nat → Guest) (pump : Nat → Pump) :
    Nat → State → Int → WaitVars → Option (Outcome WaitVars)
  | 0, _, _, _ => none
  | fuel + 1, st, remaining, w =>
    match nlua_wait_condition st args (cond w.evals) w with
    | .ret (stop, w1) st1 =>
      if stop || st1.got_int then some (.ret w1 st1)
      else
        let p := pump w.evals
        let st2 := { st1 with got_int := st1.got_int || p.interrupt }
        if remaining = 0 then some (.ret w1 st2)
        else if remaining > 0 then
          let remaining := remaining - int_cast p.elapsed
          if remaining ≤ 0 then some (.ret w1 st2)
          else LOOP_PROCESS_EVENTS_UNTIL args cond pump fuel st2 remaining w1
        else LOOP_PROCESS_EVENTS_UNTIL args cond pump fuel st2 remaining w1
    | .raise e s => some (.raise e s)
    | .exit s => some (.exit s)
    | .undefined s => some (.undefined s)

/-- The check of nlua_wait that the condition can be called (executor.c:294-301). -/
def nlua_wait_is_function (args : List LuaValue) : Bool :=
  let is_function := decide (lua_type args 2 = .TFUNCTION)
  if !is_function then
    match luaL_getmetafield_call (lua_index args 2) with
    | some t => decide (t = .TFUNCTION)
    | none => is_function
  else is_function

/-- The interval of nlua_wait (executor.c:308-314): 200 unless a third argument
is given; the inner none stands for the argument error of luaL_checkinteger. -/
def nlua_wait_interval (h : Host) (args : List LuaValue) : Option Int :=
  if lua_gettop args ≥ 3 then luaL_checkinteger h args 3 else some 200

/-- The end of nlua_wait (executor.c:334-353): the timer is stopped and closed,
then the result is chosen. -/
def nlua_wait_finish (st : State) (w : WaitVars) : Outcome (List LuaValue) :=
  let st := (st.emit .time_watcher_stop).emit .time_watcher_close
  if w.pcall_status ≠ 0 then
    .raise (.guest (st.stack.headD .nil)) st.pop
  else if w.callback_result then
    .ret [.boolean true, .nil] st
  else if st.got_int then
    let st := { st with got_int := false }
    let st := st.emit .vgetc
    .ret [.boolean false, .number (-2)] st
  else
    .ret [.boolean false, .number (-1)] st

/-- The function nlua_wait (executor.c:286-354): vim.wait(timeout, condition[, interval]). -/
def nlua_wait (h : Host) (st : State) (args : List LuaValue) (cond : Nat → Guest)
    (pump : Nat → Pump) (fuel : Nat) : Option (Outcome (List LuaValue)) :=
  match luaL_checkinteger h args 1 with
  | none => some (.raise (.arg 1 .TNUMBER) st)
  | some timeout =>
    if timeout < 0 then some (.raise (.text "timeout must be > 0") st)
    else if !nlua_wait_is_function args then
      some (.raise (.text "vim.wait: condition must be a function") st)
    else
      match nlua_wait_interval h args with
      | none => some (.raise (.arg 3 .TNUMBER) st)
      | some interval =>
        if interval < 0 then some (.raise (.text "interval must be > 0") st)
        else
          let st := st.emit (.time_watcher_start (uint64_cast interval) (uint64_cast interval))
          match LOOP_PROCESS_EVENTS_UNTIL args cond pump fuel st (int_cast timeout)
              ⟨0, false, 0⟩ with
          | none => none
          | some o => some (o.bind fun w st => nlua_wait_finish st w)

/-! ## Deferred output (executor.c:541-575) -/

/-- The inner while loop of nlua_print_event (executor.c:548-568) from index i:
the buffer and the index it leaves. -/
def nlua_print_scan : Nat → Bytes → Nat → Nat → Bytes × Nat
  | 0, str, i, _ => (str, i)
  | fuel + 1, str, i, len =>
    if i < len then
      if str.getD i NUL = NUL then nlua_print_scan fuel (str.set i NL) (i + 1) len
      else if str.getD i NUL = NL then (str.set i NUL, i + 1)
      else nlua_print_scan fuel str (i + 1) len
    else (str, i)

/-- The outer for loop of nlua_print_event (executor.c:546-570): every round
scans one line and hands the C string at its start to msg. -/
def nlua_print_lines : Nat → State → Bytes → Nat → Nat → State × Bytes
  | 0, st, str, _, _ => (st, str)
  | fuel + 1, st, str, i, len =>
    if i < len then
      let start := i
      let r := nlua_print_scan (len - i) str i len
      nlua_print_lines fuel (st.emit (.msg (c_str (r.1.drop start)))) r.1 r.2 len
    else (st, str)

/-- The function nlua_print_event (executor.c:541-575) on the buffer argv[0]
and the length argv[1], which counts the final NUL of the buffer. -/
def nlua_print_event (st : State) (str : Bytes) (argv1 : Nat) : State :=
  let len := argv1 - 1
  let r := nlua_print_lines len st str 0 len
  let st := r.1
  let str := r.2
  let st := if len ≠ 0 ∧ str.getD (len - 1) NUL = NUL then st.emit (.msg []) else st
  st.emit (.xfree str)

/-! ## Printing (executor.c:580-634) -/

/-- Modelled from the spec: the constant IOSIZE (nvim/vim.h) is not under src/;
the size in bytes of the message formatting buffer IObuff. -/
def IOSIZE : Nat := 1025

/-- Modelled from the spec: the function vim_snprintf (nvim/strings.c) is not
under src/, and the spec says only that messages are truncated to the
formatting buffer.  It is taken to follow the contract of the C function
snprintf, after which it is patterned: of the formatted text at most str_m - 1
bytes are written, followed by a NUL, and the return value is the length of the
whole formatted text.  The first component is what has been written to the
buffer, the second the return value. -/
def vim_snprintf (str_m : Nat) (text : Bytes) : Bytes × Nat :=
  (if str_m = 0 then [] else text.take (str_m - 1) ++ [NUL], text.length)

/-- The text that the format "E5114: Error while converting print argument
#%i: %.*s" denotes for the arguments curargidx, (int)errmsg_len, errmsg
(executor.c:629-631); a NULL errmsg comes with errmsg_len 0 and gives no bytes. -/
def nlua_print_fmt (curargidx : Nat) (errmsg : Option Bytes) : Bytes :=
  "E5114: Error while converting print argument #".toList.map Char.toNat
    ++ number2str curargidx ++ [58, 32] ++ errmsg.getD []

/-- The API function lua_pushlstring(L, IObuff, len) after vim_snprintf has
written the given bytes to IObuff: the string pushed is made of the first len
bytes; none when len reaches past the bytes written, where stale bytes of the
buffer or bytes beyond its end are read. -/
def lua_pushlstring_IObuff (written : Bytes) (len : Nat) : Option Bytes :=
  if len ≤ written.length then some (written.take len) else none

/-- The global tostring that nlua_print fetches (executor.c:590). -/
def tostring_fn : LuaValue := .function 3

/-- The error exit of nlua_print (executor.c:627-633). -/
def nlua_print_error (st : State) (curargidx : Nat) (errmsg : Option Bytes) :
    Outcome (List LuaValue) :=
  let r := vim_snprintf IOSIZE (nlua_print_fmt curargidx errmsg)
  let len := r.2
  match lua_pushlstring_IObuff r.1 len with
  | some msg => .raise (.guest (.string msg)) st
  | none => .undefined st

/-- The loop of nlua_print over its arguments (executor.c:596-614) from argument
curargidx on, tostring behaving as tostring k on argument k: the message built,
or the index and the error text (NULL when the error value has none) with which
the loop jumps to nlua_print_error. -/
def nlua_print_args (tostring : Nat → Guest) (nargs : Nat) :
    List LuaValue → Nat → Bytes → State → Outcome (Except (Nat × Option Bytes) Bytes)
  | [], _, msg_ga, st => .ret (.ok msg_ga) st
  | v :: rest, curargidx, msg_ga, st =>
    let st := (st.push tostring_fn).push v
    match lua_pcall st 1 1 (tostring curargidx) with
    | .ret status st =>
      if status ≠ 0 then .ret (.error (curargidx, lua_tolstring (st.stack.headD .nil))) st
      else
        match lua_tolstring (st.stack.headD .nil) with
        | none =>
          .ret (.error (curargidx, some
            ("<Unknown error: lua_tolstring returned NULL for tostring result>".toList.map
              Char.toNat))) st
        | some s =>
          let msg_ga := msg_ga ++ s
          let msg_ga := if curargidx < nargs then msg_ga ++ [32] else msg_ga
          nlua_print_args tostring nargs rest (curargidx + 1) msg_ga st.pop
    | .raise e s => .raise e s
    | .exit s => .exit s
    | .undefined s => .undefined s

/-- The function nlua_print (executor.c:580-634): print(...). -/
def nlua_print (st : State) (args : List LuaValue) (tostring : Nat → Guest) :
    Outcome (List LuaValue) :=
  (nlua_print_args tostring args.length args 1 [] st).bind fun r st =>
    match r with
    | .error (curargidx, errmsg) => nlua_print_error st curargidx errmsg
    | .ok msg_ga =>
      let msg_ga := msg_ga ++ [NUL]
      if st.in_fast_callback ≠ 0 then
        .ret [] (multiqueue_put st (.nlua_print_event msg_ga msg_ga.length))
      else .ret [] (nlua_print_event st msg_ga msg_ga.length)

/-- The byte a message shows for a byte of the buffer: a zero byte is shown as NL. -/
def nul_to_nl (c : Nat) : Nat := if c = NUL then NL else c

/-- What nlua_print_event leaves in the buffer for a byte it has passed: NUL
and NL change places. -/
def nul_nl_swap (c : Nat) : Nat := if c = NUL then NL else if c = NL then NUL else c

/-! ## Calls into the host and RPC (executor.c:681-791) -/

/-- The conversion loop of nlua_call (executor.c:697-704) from argument i on:
the 1-based position of the argument that failed, if one did, and the typvals
converted before. -/
def nlua_call_args (h : Host) : List LuaValue → Nat → List Typval → State →
    Option Nat × List Typval × State
  | [], _, acc, st => (none, acc, st)
  | v :: rest, i, acc, st =>
    let st := st.emit (.nlua_pop_typval (i + 2))
    match h.nlua_pop_typval v with
    | none => (some (i + 1), acc, st)
    | some tv => nlua_call_args h rest (i + 1) (acc ++ [tv]) st

/-- The loop at free_vim_args (executor.c:728-730): the converted arguments are
cleared from the last to the first. -/
def nlua_call_free (st : State) (vim_args : List Typval) : State :=
  { st with log := st.log ++ vim_args.reverse.map Effect.tv_clear }

/-- The function nlua_call (executor.c:681-737): vim.call(name, ...). -/
def nlua_call (h : Host) (st : State) (args : List LuaValue) : Outcome (List LuaValue) :=
  match luaL_checklstring args 1 with
  | none => .raise (.arg 1 .TSTRING) st
  | some name =>
    if !nlua_is_deferred_safe st then .raise (.luv_api_disabled "vimL function") st
    else
      let nargs : Int := lua_gettop args - 1
      if nargs > MAX_FUNC_ARGS then
        .raise (.text "Function called with too many arguments") st
      else
        match nlua_call_args h (args.drop 1) 0 [] st with
        | (some k, vim_args, st) =>
          .raise (.arg_conversion k) (nlua_call_free st vim_args)
        | (none, vim_args, st) =>
          let st := st.emit (.call_func name vim_args)
          let r := h.call_func name vim_args
          let results := if r.2.isNone then [h.nlua_push_typval r.1] else []
          let st := st.emit (.tv_clear r.1)
          let st := nlua_call_free st vim_args
          match r.2 with
          | some msg => .raise (.api msg) st
          | none => .ret results st

/-- The conversion loop of nlua_rpc (executor.c:761-768) from argument i on:
the error of the conversion that failed, if one did, and the array built. -/
def nlua_rpc_args (h : Host) : List LuaValue → Nat → List Object → State →
    Option Bytes × List Object × State
  | [], _, acc, st => (none, acc, st)
  | v :: rest, i, acc, st =>
    let st := st.emit (.nlua_pop_Object (i + 3))
    let r := h.nlua_pop_Object v
    let acc := acc ++ [r.1]
    match r.2 with
    | some e => (some e, acc, st.emit (.api_free_array acc))
    | none => nlua_rpc_args h rest (i + 1) acc st

/-- The function nlua_rpc (executor.c:752-791). -/
def nlua_rpc (h : Host) (st : State) (args : List LuaValue) (request : Bool) :
    Outcome (List LuaValue) :=
  match luaL_checkinteger h args 1 with
  | none => .raise (.arg 1 .TNUMBER) st
  | some chan =>
    let chan_id := uint64_cast chan
    match luaL_checklstring args 2 with
    | none => .raise (.arg 2 .TSTRING) st
    | some name =>
      match nlua_rpc_args h (args.drop 2) 0 [] st with
      | (some e, _, st) => .raise (.api e) st
      | (none, rpc_args, st) =>
        if request then
          let st := st.emit (.rpc_send_call chan_id name rpc_args)
          let r := h.rpc_send_call chan_id name rpc_args
          match r.2 with
          | some e => .raise (.api e) st
          | none => .ret [h.nlua_push_Object r.1] (st.emit (.api_free_object r.1))
        else
          let st := st.emit (.rpc_send_event chan_id name rpc_args)
          if !h.rpc_send_event chan_id name rpc_args then
            .raise (.invalid_channel chan_id) st
          else .ret [] st

/-- The function nlua_rpcrequest (executor.c:739-745). -/
def nlua_rpcrequest (h : Host) (st : State) (args : List LuaValue) : Outcome (List LuaValue) :=
  if !nlua_is_deferred_safe st then .raise (.luv_api_disabled "rpcrequest") st
  else nlua_rpc h st args true

/-- The function nlua_rpcnotify (executor.c:747-750). -/
def nlua_rpcnotify (h : Host) (st : State) (args : List LuaValue) : Outcome (List LuaValue) :=
  nlua_rpc h st args false

/-! ## Sequences of context changes -/

/-- One change of the execution context: the entry to or the exit from an
event-loop callback. -/
inductive CtxEvent where
  | enter
  | leave
  deriving DecidableEq, Repr

/-- The effect of one context change on the state. -/
def CtxEvent.apply (st : State) : CtxEvent → State
  | .enter => ctx_enter st
  | .leave => ctx_leave st

/-- The state after a sequence of context changes. -/
def run_ctx (st : State) (evs : List CtxEvent) : State :=
  evs.foldl CtxEvent.apply st

/-- The net count of a sequence: enters minus leaves. -/
def net_count : List CtxEvent → Int
  | [] => 0
  | .enter :: rest => net_count rest + 1
  | .leave :: rest => net_count rest - 1

/-- A state before anything has happened: counter 0, no interpreter yet. -/
def State.init : State :=
  { in_fast_callback := 0, got_int := false, stack := [], registry := ⟨[]⟩, events := [],
    global_lstate := false, last_p_rtp := none, p_rtp := 1, shared_loaded := false,
    vim_loaded := false, frames := 0, log := [] }

/-- A state for examples: the interpreter exists, the search path has been
seen, and reference 1 holds a function. -/
def State.ready : State :=
  { State.init with
    global_lstate := true
    last_p_rtp := some 1
    registry := ⟨[(1, .function 7)]⟩ }

/-- A host for examples: everything converts, every host call and every channel succeeds. -/
def Host.demo : Host :=
  { luaL_newstate := true
    str2number := fun _ => none
    shared_module := .ok (.ok [])
    vim_module := .ok (.ok [])
    update_package_paths := .ok []
    nlua_pop_typval := fun _ => some ⟨0⟩
    nlua_push_typval := fun _ => .nil
    call_func := fun _ _ => (⟨0⟩, none)
    nlua_pop_Object := fun _ => (⟨0⟩, none)
    nlua_push_Object := fun _ => .nil
    rpc_send_call := fun _ _ _ => (⟨0⟩, none)
    rpc_send_event := fun _ _ _ => true }

/-! ## Predicates used in the statements -/

/-- Every guest step in a stretch of the log saw the counter at base plus the
number of callback activations around the step, and at least lo of them. -/
def StepsOk (base : Int) (lo : Nat) (new : List Effect) : Prop :=
  ∀ k c, Effect.guest_step k c ∈ new → c = base + (k : Int) ∧ lo ≤ k

/-- The run o from the state st kept the log, its guest steps saw the counter at
base plus their depth, a return restored the counter and the depth of st, and
the counter never ended below that of st. -/
def CounterInv {α : Type} (base : Int) (st : State) (o : Outcome α) : Prop :=
  (∃ new, o.state.log = st.log ++ new ∧ StepsOk base st.frames new)
  ∧ (∀ a st1, o = .ret a st1 →
      st1.in_fast_callback = st.in_fast_callback ∧ st1.frames = st.frames)
  ∧ st.in_fast_callback ≤ o.state.in_fast_callback

/-- A host for examples whose converter has no host value for a function: the
conversion of a function fails with the error text "c". -/
def Host.strict : Host :=
  { Host.demo with
    nlua_pop_Object := fun v =>
      match v with
      | .function _ => (⟨0⟩, some [99])
      | _ => (⟨1⟩, none) }

/-- A host for examples whose typval converter has no host value for a
function; a number n converts to the typval n, everything else to typval 0. -/
def Host.plain : Host :=
  { Host.demo with
    nlua_pop_typval := fun v =>
      match v with
      | .function _ => none
      | .number n => some ⟨n.toNat⟩
      | _ => some ⟨0⟩ }

/-- A host for examples whose path-sync routine fails with the error text "e". -/
def Host.bad_sync : Host :=
  { Host.demo with update_package_paths := .fail .ERRRUN (.string [101]) }

/-- A host for examples whose first bootstrap script does not parse. -/
def Host.bad_shared : Host :=
  { Host.demo with shared_module := .error (.string [101]) }

/-- A host for examples on which no channel exists: rpc_send_event finds no
channel for any id. -/
def Host.no_channel : Host :=
  { Host.demo with rpc_send_event := fun _ _ _ => false }

/-- The part of the state that belongs to the interpreter instance and the
search path: the registry, whether the interpreter exists, the search path, and
which bootstrap scripts have run. -/
def State.interp (st : State) : Registry × Bool × Nat × Bool × Bool :=
  (st.registry, st.global_lstate, st.p_rtp, st.shared_loaded, st.vim_loaded)

/-- What guest code cannot reach: the interpreter part of the state and the
record of the search path seen by the last nlua_enter. -/
def State.kept (st : State) : (Registry × Bool × Nat × Bool × Bool) × Option Nat :=
  (st.interp, st.last_p_rtp)

/-- The run o from the state st left the interpreter part of the state and the
recorded search path alone. -/
def GuestKeeps {α : Type} (st : State) (o : Outcome α) : Prop :=
  o.state.kept = st.kept

/-- The run o from the state st did not raise a Lua error past its protected
call and left the interrupt flag alone. -/
def GuestFrame {α : Type} (st : State) (o : Outcome α) : Prop :=
  (∀ e s, o ≠ .raise e s) ∧ o.state.got_int = st.got_int

/-- The outcomes of the wait primitive that the spec names. -/
inductive WaitOutcome where
  | Satisfied
  | TimedOut
  | Interrupted
  | ConditionError (v : LuaValue)
  deriving DecidableEq, Repr

/-- The outcome of wait in the words of the spec, from the last evaluation of
the condition and the interrupt flag: ConditionError if the evaluation raised,
otherwise Satisfied if it returned a true value, otherwise Interrupted if the
flag is set, otherwise TimedOut. -/
def wait_outcome (last : PcallResult) (got_int : Bool) : WaitOutcome :=
  match last with
  | .err _ v => .ConditionError v
  | .ok results =>
    if lua_toboolean (results.headD .nil) then .Satisfied
    else if got_int then .Interrupted
    else .TimedOut

/-- How guest code sees the way nlua_wait ended: (true, nil) is Satisfied,
(false, -1) is TimedOut, (false, -2) is Interrupted, and the error of the
condition raised again is ConditionError; anything else is none of them. -/
def WaitOutcome.of : Outcome (List LuaValue) → Option WaitOutcome
  | .ret [.boolean true, .nil] _ => some .Satisfied
  | .ret [.boolean false, .number (-1)] _ => some .TimedOut
  | .ret [.boolean false, .number (-2)] _ => some .Interrupted
  | .raise (.guest v) _ => some (.ConditionError v)
  | _ => none

/-- The arguments pass the checks of nlua_wait (executor.c:289-314) with the
given timeout and interval. -/
def WaitArgsOk (h : Host) (args : List LuaValue) (timeout interval : Int) : Prop :=
  luaL_checkinteger h args 1 = some timeout ∧ 0 ≤ timeout
  ∧ nlua_wait_is_function args = true
  ∧ nlua_wait_interval h args = some interval ∧ 0 ≤ interval

instance (h : Host) (args : List LuaValue) (timeout interval : Int) :
    Decidable (WaitArgsOk h args timeout interval) := by
  unfold WaitArgsOk; infer_instance

/-- The locals w and the stack of s are those left by the evaluation of the
condition that was the last one: its status is in pcall_status, and its value
is in callback_result or, for an error, on top of the stack. -/
def LastEval (cond : Nat → Guest) (w : WaitVars) (s : State) : Prop :=
  1 ≤ w.evals ∧
    match (cond (w.evals - 1)).result with
    | .ok results =>
      w.pcall_status = 0 ∧ w.callback_result = lua_toboolean (results.headD .nil)
    | .err e v => w.pcall_status = e.code ∧ s.stack.headD .nil = v

/-- The effects that running guest code can add to the log: its own steps and
calls, and the fatal out-of-memory path of the callback wrapper. -/
def Effect.of_guest_run : Effect → Bool
  | .guest_step _ _ => true
  | .guest_call _ _ => true
  | .mch_errmsg _ => true
  | .preserve_exit => true
  | _ => false

/-- The run o from the state st only added effects of running guest code to the log. -/
def GuestLog {α : Type} (st : State) (o : Outcome α) : Prop :=
  ∃ new, o.state.log = st.log ++ new ∧ ∀ e ∈ new, Effect.of_guest_run e = true

/-! ## Theorems -/

theorem memchr_none_of_not_mem (s : Bytes) (c : Nat) (h : c ∉ s) : memchr s c = none := by
  induction s with
  | nil => rfl
  | cons b rest ih =>
    simp only [List.mem_cons, not_or] at h
    have hb : ¬ b = c := fun e => h.1 e.symm
    simp [memchr, hb, ih h.2]

theorem memchr_append_self (s t : Bytes) (c : Nat) (h : c ∉ s) :
    memchr (s ++ c :: t) c = some s.length := by
  induction s with
  | nil => simp [memchr]
  | cons b rest ih =>
    simp only [List.mem_cons, not_or] at h
    have hb : ¬ b = c := fun e => h.1 e.symm
    simp [memchr, hb, ih h.2]

theorem STRICMP_embedded_left (s s' t : Bytes) (hs : NUL ∉ s)
    (he : eq_ignoring_case s s') : STRICMP (s ++ NUL :: t) s' = 0 := by
  induction s generalizing s' with
  | nil =>
    cases s' with
    | nil => simp [STRICMP]
    | cons c r => simp [eq_ignoring_case] at he
  | cons c r ih =>
    cases s' with
    | nil => simp [eq_ignoring_case] at he
    | cons c' r' =>
      simp only [eq_ignoring_case, List.map_cons, List.cons.injEq] at he
      simp only [List.mem_cons, not_or] at hs
      have hc : ¬ c = NUL := fun e => hs.1 e.symm
      simp only [List.cons_append, STRICMP, List.headD_cons, he.1, sub_self, ne_eq,
        not_true_eq_false, if_false, hc, List.tail_cons]
      exact ih r' hs.2 he.2

theorem STRICMP_embedded_right (s s' t : Bytes) (hs : NUL ∉ s')
    (he : eq_ignoring_case s s') : STRICMP s' (s ++ NUL :: t) = 0 := by
  induction s' generalizing s with
  | nil =>
    cases s with
    | nil => simp [STRICMP]
    | cons c r => simp [eq_ignoring_case] at he
  | cons c' r' ih =>
    cases s with
    | nil => simp [eq_ignoring_case] at he
    | cons c r =>
      simp only [eq_ignoring_case, List.map_cons, List.cons.injEq] at he
      simp only [List.mem_cons, not_or] at hs
      have hc : ¬ c' = NUL := fun e => hs.1 e.symm
      simp only [List.cons_append, STRICMP, List.headD_cons, he.1, sub_self, ne_eq,
        not_true_eq_false, if_false, hc, List.tail_cons]
      exact ih r hs.2 he.2

/-- C3: for byte strings s and s' without a zero byte that are equal ignoring
case, and any byte string t, stricmp orders s ++ [0] ++ t (the string with the
embedded zero byte) greater than s': it returns 1 one way round and -1 the other;
in particular stricmp("a\0b", "a") = 1. -/
theorem nlua_stricmp_embedded_nul_greater (s s' t : Bytes)
    (hs : NUL ∉ s) (hs' : NUL ∉ s') (he : eq_ignoring_case s s') :
    nlua_stricmp (s ++ [NUL] ++ t) s' = 1
    ∧ nlua_stricmp s' (s ++ [NUL] ++ t) = -1
    ∧ nlua_stricmp [97, 0, 98] [97] = 1 := by
  have e1 : s ++ [NUL] ++ t = s ++ NUL :: t := by simp
  refine ⟨?_, ?_, by decide⟩
  · rw [e1]
    simp [nlua_stricmp, nlua_stricmp_loop, STRICMP_embedded_left s s' t hs he,
      memchr_append_self s t NUL hs, memchr_none_of_not_mem s' NUL hs', c_bool]
  · rw [e1]
    simp [nlua_stricmp, nlua_stricmp_loop, STRICMP_embedded_right s s' t hs' he,
      memchr_append_self s t NUL hs, memchr_none_of_not_mem s' NUL hs', c_bool]

theorem nlua_stricmp_embedded_nul_greater_witness :
    NUL ∉ [65, 98] ∧ NUL ∉ [97, 66] ∧ eq_ignoring_case [65, 98] [97, 66]
    ∧ nlua_stricmp ([65, 98] ++ [NUL] ++ [99]) [97, 66] = 1 :=
  ⟨by decide, by decide, by decide,
    (nlua_stricmp_embedded_nul_greater [65, 98] [97, 66] [99]
      (by decide) (by decide) (by decide)).1⟩

/-! ### The execution context -/

theorem run_ctx_eq (st : State) (evs : List CtxEvent) :
    run_ctx st evs = { st with in_fast_callback := st.in_fast_callback + net_count evs } := by
  induction evs generalizing st with
  | nil => simp [run_ctx, net_count]
  | cons e rest ih =>
    have h := ih (CtxEvent.apply st e)
    simp only [run_ctx, List.foldl_cons] at h ⊢
    rw [h]
    cases e <;>
      simp [CtxEvent.apply, ctx_enter, ctx_leave, net_count] <;> ring

/-- C1 (as stated, refuted): after enter, enter, leave the net count is positive,
yet vim.call with a name argument that is not a string does not fail with the
"disabled in this context" error: luaL_checklstring (executor.c:685) runs before
the context check (executor.c:686) and raises the argument error. -/
theorem context_gating_call_counterexample :
    0 < net_count [.enter, .enter, .leave]
    ∧ nlua_call Host.demo (run_ctx State.init [.enter, .enter, .leave]) [.nil]
        = .raise (.arg 1 .TSTRING) (run_ctx State.init [.enter, .enter, .leave])
    ∧ nlua_call Host.demo (run_ctx State.init [.enter, .enter, .leave]) [.nil]
        ≠ .raise (.luv_api_disabled "vimL function")
            (run_ctx State.init [.enter, .enter, .leave]) := by
  decide

/-- C1 (amended): starting from counter 0, after any sequence of enters and
leaves whose net count is positive, vim.rpcrequest fails with the "disabled in
this context" error for every argument list, and vim.call fails with it whenever
its name argument is a string or a number and with the argument error otherwise;
in each case the state, and so the log of host calls, is unchanged: no Vimscript
function is invoked and nothing is sent.  When the net count is zero the context
check passes (rpcrequest goes on to nlua_rpc), and nlua_is_deferred_safe is true
exactly when the counter is 0. -/
theorem context_gating (h : Host) (st : State) (evs : List CtxEvent) (args : List LuaValue)
    (h0 : st.in_fast_callback = 0) :
    (0 < net_count evs →
      nlua_rpcrequest h (run_ctx st evs) args
          = .raise (.luv_api_disabled "rpcrequest") (run_ctx st evs)
      ∧ (∀ name, luaL_checklstring args 1 = some name →
          nlua_call h (run_ctx st evs) args
            = .raise (.luv_api_disabled "vimL function") (run_ctx st evs))
      ∧ (luaL_checklstring args 1 = none →
          nlua_call h (run_ctx st evs) args = .raise (.arg 1 .TSTRING) (run_ctx st evs)))
    ∧ (net_count evs = 0 →
        nlua_is_deferred_safe (run_ctx st evs) = true
        ∧ nlua_rpcrequest h (run_ctx st evs) args = nlua_rpc h (run_ctx st evs) args true)
    ∧ (nlua_is_deferred_safe (run_ctx st evs) = true ↔ (run_ctx st evs).in_fast_callback = 0) := by
  have hc : (run_ctx st evs).in_fast_callback = net_count evs := by
    rw [run_ctx_eq]; simp [h0]
  refine ⟨fun hpos => ?_, fun hz => ?_, ?_⟩
  · have hne : ¬ net_count evs = 0 := by omega
    have hs : nlua_is_deferred_safe (run_ctx st evs) = false := by
      simp [nlua_is_deferred_safe, hc, hne]
    refine ⟨by simp [nlua_rpcrequest, hs], fun name hn => ?_, fun hn => ?_⟩
    · simp [nlua_call, hn, hs]
    · simp [nlua_call, hn]
  · have hs : nlua_is_deferred_safe (run_ctx st evs) = true := by
      simp [nlua_is_deferred_safe, hc, hz]
    exact ⟨hs, by simp [nlua_rpcrequest, hs]⟩
  · simp [nlua_is_deferred_safe]

theorem context_gating_witness :
    State.init.in_fast_callback = 0 ∧ 0 < net_count [.enter, .enter, .leave]
    ∧ nlua_rpcrequest Host.demo (run_ctx State.init [.enter, .enter, .leave])
          [.number 1, .string [97]]
        = .raise (.luv_api_disabled "rpcrequest") (run_ctx State.init [.enter, .enter, .leave])
    ∧ nlua_call Host.demo (run_ctx State.init [.enter, .enter, .leave]) [.string [97]]
        = .raise (.luv_api_disabled "vimL function")
            (run_ctx State.init [.enter, .enter, .leave]) :=
  ⟨by decide, by decide,
    ((context_gating Host.demo State.init [.enter, .enter, .leave] [.number 1, .string [97]]
      (by decide)).1 (by decide)).1,
    ((context_gating Host.demo State.init [.enter, .enter, .leave] [.string [97]]
      (by decide)).1 (by decide)).2.1 [97] (by decide)⟩

/-! ### The callback wrapper keeps the counter balanced -/

theorem StepsOk_nil (base : Int) (lo : Nat) : StepsOk base lo [] := by
  intro k c hm; simp at hm

theorem StepsOk_append {base : Int} {lo : Nat} {l1 l2 : List Effect}
    (h1 : StepsOk base lo l1) (h2 : StepsOk base lo l2) : StepsOk base lo (l1 ++ l2) := by
  intro k c hm
  rcases List.mem_append.mp hm with hm | hm
  · exact h1 k c hm
  · exact h2 k c hm

theorem StepsOk_mono {base : Int} {lo lo1 : Nat} {l : List Effect}
    (h : StepsOk base lo1 l) (hle : lo ≤ lo1) : StepsOk base lo l := by
  intro k c hm
  exact ⟨(h k c hm).1, le_trans hle (h k c hm).2⟩

theorem lua_pcall_run_inv (run : State → Outcome PcallResult)
    (hrun : ∀ s, CounterInv (s.in_fast_callback - s.frames) s (run s))
    (st : State) (nargs : Nat) (nresults : Int) :
    CounterInv (st.in_fast_callback - st.frames) st (lua_pcall_run run st nargs nresults) := by
  unfold lua_pcall_run
  dsimp only
  obtain ⟨s0, hs0⟩ : ∃ s0 : State, s0 =
      { st with
        stack := st.stack.drop (nargs + 1),
        log := st.log ++ [Effect.guest_call (st.stack.getD nargs LuaValue.nil) nargs] } :=
    ⟨_, rfl⟩
  rw [← hs0]
  have e1 : s0.log = st.log ++ [.guest_call (st.stack.getD nargs .nil) nargs] := by rw [hs0]
  have e2 : s0.in_fast_callback = st.in_fast_callback := by rw [hs0]
  have e3 : s0.frames = st.frames := by rw [hs0]
  clear hs0
  obtain ⟨⟨new, hlog, hsteps⟩, hret, hle⟩ := hrun s0
  rw [e1] at hlog
  rw [e2, e3] at hsteps hret
  rw [e2] at hle
  have hcall : StepsOk (st.in_fast_callback - st.frames) st.frames
      ([Effect.guest_call (st.stack.getD nargs .nil) nargs] ++ new) :=
    StepsOk_append (by intro k c hm; simp at hm) hsteps
  rw [List.append_assoc] at hlog
  cases hres : run s0 with
  | ret r s1 =>
    rw [hres] at hlog hle
    have hr1 := hret r s1 hres
    cases r with
    | ok results =>
      exact ⟨⟨_, hlog, hcall⟩, fun a st1 he => by
        simp only [Outcome.bind, Outcome.ret.injEq] at he
        rw [← he.2]; exact hr1, hle⟩
    | err status v =>
      exact ⟨⟨_, hlog, hcall⟩, fun a st1 he => by
        simp only [Outcome.bind, Outcome.ret.injEq] at he
        rw [← he.2]; exact hr1, hle⟩
  | raise e s1 =>
    rw [hres] at hlog hle
    exact ⟨⟨_, hlog, hcall⟩, fun a st1 he => by simp [Outcome.bind] at he, hle⟩
  | exit s1 =>
    rw [hres] at hlog hle
    exact ⟨⟨_, hlog, hcall⟩, fun a st1 he => by simp [Outcome.bind] at he, hle⟩
  | undefined s1 =>
    rw [hres] at hlog hle
    exact ⟨⟨_, hlog, hcall⟩, fun a st1 he => by simp [Outcome.bind] at he, hle⟩

theorem nlua_luv_cfpcall_run_inv (run : State → Outcome PcallResult)
    (hrun : ∀ s, CounterInv (s.in_fast_callback - s.frames) s (run s))
    (st : State) (nargs : Nat) (nresult : Int) (flags : Nat) :
    CounterInv (st.in_fast_callback + 1 - st.frames) st
      (nlua_luv_cfpcall_run run st nargs nresult flags) := by
  have hp := lua_pcall_run_inv run hrun (ctx_enter st) nargs nresult
  unfold nlua_luv_cfpcall_run
  dsimp only
  obtain ⟨⟨new, hlog, hsteps⟩, hret, hle⟩ := hp
  have e1 : (ctx_enter st).log = st.log := rfl
  have e2 : (ctx_enter st).in_fast_callback = st.in_fast_callback + 1 := rfl
  have e3 : (ctx_enter st).frames = st.frames := rfl
  rw [e1] at hlog
  rw [e2, e3] at hsteps hret
  rw [e2] at hle
  cases hres : lua_pcall_run run (ctx_enter st) nargs nresult with
  | ret status s1 =>
    rw [hres] at hlog hle
    have hr1 := hret status s1 hres
    simp only [Outcome.bind, Outcome.state] at hlog hle ⊢
    by_cases hs : status ≠ 0
    · rw [if_pos hs]
      by_cases hm : status = LUA_ERRMEM ∧ flags &&& LUVF_CALLBACK_NOEXIT = 0
      · rw [if_pos hm]
        refine ⟨⟨new ++ [.mch_errmsg e_outofmem, .mch_errmsg "\n", .preserve_exit], ?_,
          StepsOk_append hsteps (by intro k c hk; simp at hk)⟩,
          fun a st1 he => by simp at he, ?_⟩
        · simp [Outcome.state, State.emit, hlog]
        · simp only [Outcome.state, State.emit]; omega
      · rw [if_neg hm]
        cases hts : lua_tolstring (s1.stack.headD .nil) with
        | none =>
          exact ⟨⟨new, hlog, hsteps⟩, fun a st1 he => by simp at he, by
            simp only [Outcome.state]; omega⟩
        | some error =>
          refine ⟨⟨new, ?_, hsteps⟩, fun a st1 he => ?_, ?_⟩
          · simpa [Outcome.state, ctx_leave, State.pop, multiqueue_put] using hlog
          · simp only [Outcome.ret.injEq] at he
            rw [← he.2]
            simp only [ctx_leave, State.pop, multiqueue_put]
            exact ⟨by omega, hr1.2⟩
          · simp only [Outcome.state, ctx_leave, State.pop, multiqueue_put]; omega
    · rw [if_neg hs]
      refine ⟨⟨new, ?_, hsteps⟩, fun a st1 he => ?_, ?_⟩
      · simpa [Outcome.state, ctx_leave] using hlog
      · simp only [Outcome.ret.injEq] at he
        rw [← he.2]
        simp only [ctx_leave]
        exact ⟨by omega, hr1.2⟩
      · simp only [Outcome.state, ctx_leave]; omega
  | raise e s1 =>
    rw [hres] at hlog hle
    simp only [Outcome.state] at hlog hle
    exact ⟨⟨_, hlog, hsteps⟩, fun a st1 he => by simp [Outcome.bind] at he, by
      simp only [Outcome.bind, Outcome.state]; omega⟩
  | exit s1 =>
    rw [hres] at hlog hle
    simp only [Outcome.state] at hlog hle
    exact ⟨⟨_, hlog, hsteps⟩, fun a st1 he => by simp [Outcome.bind] at he, by
      simp only [Outcome.bind, Outcome.state]; omega⟩
  | undefined s1 =>
    rw [hres] at hlog hle
    simp only [Outcome.state] at hlog hle
    exact ⟨⟨_, hlog, hsteps⟩, fun a st1 he => by simp [Outcome.bind] at he, by
      simp only [Outcome.bind, Outcome.state]; omega⟩

theorem run_guest_inv (g : Guest) :
    ∀ st, CounterInv (st.in_fast_callback - st.frames) st (run_guest st g) := by
  induction g with
  | ok results =>
    intro st
    exact ⟨⟨[], by simp [run_guest, Outcome.state], StepsOk_nil _ _⟩,
      fun a st1 he => by
        simp only [run_guest, Outcome.ret.injEq] at he
        rw [← he.2]; exact ⟨rfl, rfl⟩,
      by simp [run_guest, Outcome.state]⟩
  | fail status err =>
    intro st
    exact ⟨⟨[], by simp [run_guest, Outcome.state], StepsOk_nil _ _⟩,
      fun a st1 he => by
        simp only [run_guest, Outcome.ret.injEq] at he
        rw [← he.2]; exact ⟨rfl, rfl⟩,
      by simp [run_guest, Outcome.state]⟩
  | tick k ih =>
    intro st
    obtain ⟨⟨new, hlog, hsteps⟩, hret, hle⟩ :=
      ih (st.emit (.guest_step st.frames st.in_fast_callback))
    simp only [State.emit] at hlog hsteps hret hle
    unfold run_guest
    refine ⟨⟨[.guest_step st.frames st.in_fast_callback] ++ new, ?_, ?_⟩, hret, hle⟩
    · simpa [State.emit, List.append_assoc] using hlog
    · refine StepsOk_append ?_ hsteps
      intro k c hm
      simp only [List.mem_singleton, Effect.guest_step.injEq] at hm
      rw [hm.1, hm.2]
      exact ⟨by ring, le_refl _⟩
  | callback f args nresult flags callee k ihc ihk =>
    intro st
    obtain ⟨s1, hs1⟩ : ∃ s1 : State, s1 =
        { st with stack := args.reverse ++ f :: st.stack, frames := st.frames + 1 } := ⟨_, rfl⟩
    have e1 : s1.log = st.log := by rw [hs1]
    have e2 : s1.in_fast_callback = st.in_fast_callback := by rw [hs1]
    have e3 : s1.frames = st.frames + 1 := by rw [hs1]
    obtain ⟨⟨new, hlog, hsteps⟩, hret, hle⟩ :=
      nlua_luv_cfpcall_run_inv (fun s => run_guest s callee) ihc s1 args.length nresult flags
    have hbase : s1.in_fast_callback + 1 - (s1.frames : Int)
        = st.in_fast_callback - (st.frames : Int) := by
      rw [e2, e3]; push_cast; ring
    rw [hbase] at hsteps
    rw [e1] at hlog
    rw [e2] at hle hret
    rw [e3] at hsteps hret
    have hsteps1 : StepsOk (st.in_fast_callback - st.frames) st.frames new :=
      StepsOk_mono hsteps (Nat.le_succ _)
    unfold run_guest
    dsimp only
    rw [← hs1]
    cases hres : nlua_luv_cfpcall_run (fun s => run_guest s callee) s1 args.length nresult flags with
    | ret a s2 =>
      rw [hres] at hlog hle
      simp only [Outcome.state] at hlog hle
      have hr2 := hret a s2 hres
      obtain ⟨s3, hs3⟩ : ∃ s3 : State, s3 = { s2 with frames := st.frames } := ⟨_, rfl⟩
      have f1 : s3.in_fast_callback = st.in_fast_callback := by rw [hs3]; exact hr2.1
      have f2 : s3.frames = st.frames := by rw [hs3]
      have f3 : s3.log = s2.log := by rw [hs3]
      obtain ⟨⟨new2, hlog2, hsteps2⟩, hret2, hle2⟩ := ihk s3
      rw [f1, f2] at hsteps2 hret2
      rw [f1] at hle2
      rw [f3, hlog, List.append_assoc] at hlog2
      simp only [Outcome.bind]
      rw [← hs3]
      exact ⟨⟨new ++ new2, hlog2, StepsOk_append hsteps1 hsteps2⟩, hret2, hle2⟩
    | raise e s2 =>
      rw [hres] at hlog hle
      exact ⟨⟨new, hlog, hsteps1⟩, fun a st1 he => by simp [Outcome.bind] at he, hle⟩
    | exit s2 =>
      rw [hres] at hlog hle
      exact ⟨⟨new, hlog, hsteps1⟩, fun a st1 he => by simp [Outcome.bind] at he, hle⟩
    | undefined s2 =>
      rw [hres] at hlog hle
      exact ⟨⟨new, hlog, hsteps1⟩, fun a st1 he => by simp [Outcome.bind] at he, hle⟩

/-- C2: for every invocation of nlua_luv_cfpcall, with any callee (succeeding,
failing with any status, running nested callbacks): if it returns, the counter
in_fast_callback is what it was on entry; every step the guest takes during the
call sees the counter at entry + 1 plus the number of nested callbacks around
the step, so the callee itself sees exactly entry + 1; and from a non-negative
counter no step sees a counter below 1 and no way of ending leaves it negative.
Likewise any guest run started on the main path with counter 0 only ever sees
the counter equal to its callback nesting depth, never a negative value. -/
theorem nlua_luv_cfpcall_counter_balanced (st : State) (nargs : Nat) (nresult : Int)
    (flags : Nat) (callee : Guest) :
    (∀ rv st1, nlua_luv_cfpcall st nargs nresult flags callee = .ret rv st1 →
      st1.in_fast_callback = st.in_fast_callback)
    ∧ (∃ new, (nlua_luv_cfpcall st nargs nresult flags callee).state.log = st.log ++ new
        ∧ (∀ k c, Effect.guest_step k c ∈ new →
            c = st.in_fast_callback + 1 + ((k : Int) - st.frames) ∧ st.frames ≤ k)
        ∧ (∀ c, Effect.guest_step st.frames c ∈ new → c = st.in_fast_callback + 1)
        ∧ (0 ≤ st.in_fast_callback → ∀ k c, Effect.guest_step k c ∈ new → 1 ≤ c))
    ∧ (0 ≤ st.in_fast_callback →
        0 ≤ (nlua_luv_cfpcall st nargs nresult flags callee).state.in_fast_callback)
    ∧ (∀ (g : Guest) (s : State), s.in_fast_callback = 0 → s.frames = 0 →
        (∃ new, (run_guest s g).state.log = s.log ++ new
          ∧ ∀ k c, Effect.guest_step k c ∈ new → c = (k : Int))
        ∧ 0 ≤ (run_guest s g).state.in_fast_callback) := by
  obtain ⟨⟨new, hlog, hsteps⟩, hret, hle⟩ :=
    nlua_luv_cfpcall_run_inv (fun s => run_guest s callee) (run_guest_inv callee) st nargs
      nresult flags
  refine ⟨fun rv st1 he => (hret rv st1 he).1, ⟨new, hlog, ?_, ?_, ?_⟩, ?_, ?_⟩
  · intro k c hm
    obtain ⟨h1, h2⟩ := hsteps k c hm
    exact ⟨by rw [h1]; ring, h2⟩
  · intro c hm
    rw [(hsteps _ c hm).1]; ring
  · intro h0 k c hm
    obtain ⟨h1, h2⟩ := hsteps k c hm
    have : (st.frames : Int) ≤ k := by exact_mod_cast h2
    omega
  · intro h0
    exact le_trans h0 hle
  · intro g s hc hf
    obtain ⟨⟨new2, hlog2, hsteps2⟩, _, hle2⟩ := run_guest_inv g s
    refine ⟨⟨new2, hlog2, fun k c hm => ?_⟩, ?_⟩
    · rw [(hsteps2 k c hm).1, hc, hf]; simp
    · rw [hc] at hle2; exact hle2

theorem nlua_luv_cfpcall_counter_balanced_witness :
    0 ≤ (State.init.push (.function 7)).in_fast_callback
    ∧ 0 ≤ (nlua_luv_cfpcall (State.init.push (.function 7)) 0 0 0
        (.callback (.function 8) [] 0 0 (.tick (.fail .ERRRUN (.string [101])))
          (.tick (.ok [])))).state.in_fast_callback :=
  ⟨by decide,
    (nlua_luv_cfpcall_counter_balanced (State.init.push (.function 7)) 0 0 0
      (.callback (.function 8) [] 0 0 (.tick (.fail .ERRRUN (.string [101])))
        (.tick (.ok [])))).2.2.1 (by decide)⟩

/-! ### Deferred output is split on line separators -/

theorem getD_append_cons (pre : Bytes) (c : Nat) (tail : Bytes) (d : Nat) :
    (pre ++ c :: tail).getD pre.length d = c := by
  induction pre with
  | nil => simp
  | cons a pre ih => simpa using ih

theorem set_append_cons (pre : Bytes) (c : Nat) (tail : Bytes) (x : Nat) :
    (pre ++ c :: tail).set pre.length x = pre ++ x :: tail := by
  induction pre with
  | nil => simp
  | cons a pre ih => simp

theorem nlua_print_scan_hit (seg : Bytes) (hseg : NL ∉ seg) :
    ∀ (pre rest : Bytes) (fuel len : Nat), seg.length + 1 ≤ fuel →
      pre.length + seg.length + 1 ≤ len →
      nlua_print_scan fuel (pre ++ seg ++ NL :: rest) pre.length len
        = (pre ++ seg.map nul_to_nl ++ NUL :: rest, pre.length + seg.length + 1) := by
  induction seg with
  | nil =>
    intro pre rest fuel len hf hl
    obtain ⟨f, rfl⟩ : ∃ f, fuel = f + 1 := ⟨fuel - 1, by simp at hf; omega⟩
    have hi : pre.length < len := by simp at hl; omega
    have hne : ¬ NL = NUL := by decide
    simp only [List.append_nil, List.map_nil, List.length_nil, Nat.add_zero]
    unfold nlua_print_scan
    rw [if_pos hi, getD_append_cons, if_neg hne, if_pos rfl, set_append_cons]
  | cons c seg ih =>
    intro pre rest fuel len hf hl
    simp only [List.mem_cons, not_or] at hseg
    obtain ⟨f, rfl⟩ : ∃ f, fuel = f + 1 := ⟨fuel - 1, by simp at hf; omega⟩
    have hi : pre.length < len := by simp at hl; omega
    have hc : ¬ c = NL := fun e => hseg.1 e.symm
    have e1 : pre ++ (c :: seg) ++ NL :: rest = pre ++ c :: (seg ++ NL :: rest) := by simp
    have hlen : (pre ++ [c]).length = pre.length + 1 := by simp
    have hlenNL : (pre ++ [NL]).length = pre.length + 1 := by simp
    rw [e1]
    unfold nlua_print_scan
    rw [if_pos hi, getD_append_cons]
    by_cases h0 : c = NUL
    · rw [if_pos h0, set_append_cons]
      have e2 : pre ++ NL :: (seg ++ NL :: rest) = (pre ++ [NL]) ++ seg ++ NL :: rest := by simp
      rw [e2, ← hlenNL, ih hseg.2 (pre ++ [NL]) rest f len (by simp at hf ⊢; omega)
        (by simp at hl ⊢; omega)]
      simp [nul_to_nl, h0]; omega
    · rw [if_neg h0, if_neg hc]
      have e2 : pre ++ c :: (seg ++ NL :: rest) = (pre ++ [c]) ++ seg ++ NL :: rest := by simp
      rw [e2, ← hlen, ih hseg.2 (pre ++ [c]) rest f len (by simp at hf ⊢; omega)
        (by simp at hl ⊢; omega)]
      simp [nul_to_nl, h0]; omega

theorem nlua_print_scan_end (seg : Bytes) (hseg : NL ∉ seg) :
    ∀ (pre rest : Bytes) (fuel : Nat), seg.length ≤ fuel →
      nlua_print_scan fuel (pre ++ seg ++ rest) pre.length (pre.length + seg.length)
        = (pre ++ seg.map nul_to_nl ++ rest, pre.length + seg.length) := by
  induction seg with
  | nil =>
    intro pre rest fuel _
    cases fuel with
    | zero => simp [nlua_print_scan]
    | succ f => simp [nlua_print_scan]
  | cons c seg ih =>
    intro pre rest fuel hf
    simp only [List.mem_cons, not_or] at hseg
    obtain ⟨f, rfl⟩ : ∃ f, fuel = f + 1 := ⟨fuel - 1, by simp at hf; omega⟩
    have hi : pre.length < pre.length + (c :: seg).length := by simp
    have hc : ¬ c = NL := fun e => hseg.1 e.symm
    have e1 : pre ++ (c :: seg) ++ rest = pre ++ c :: (seg ++ rest) := by simp
    have hlen : (pre ++ [c]).length = pre.length + 1 := by simp
    have hlenNL : (pre ++ [NL]).length = pre.length + 1 := by simp
    have hl : pre.length + (c :: seg).length = pre.length + 1 + seg.length := by
      simp; omega
    rw [e1]
    unfold nlua_print_scan
    rw [if_pos hi, getD_append_cons]
    by_cases h0 : c = NUL
    · rw [if_pos h0, set_append_cons]
      have e2 : pre ++ NL :: (seg ++ rest) = (pre ++ [NL]) ++ seg ++ rest := by simp
      rw [e2, hl, ← hlenNL, ih hseg.2 (pre ++ [NL]) rest f (by simp at hf ⊢; omega)]
      simp [nul_to_nl, h0]
    · rw [if_neg h0, if_neg hc]
      have e2 : pre ++ c :: (seg ++ rest) = (pre ++ [c]) ++ seg ++ rest := by simp
      rw [e2, hl, ← hlen, ih hseg.2 (pre ++ [c]) rest f (by simp at hf ⊢; omega)]
      simp [nul_to_nl, h0]

theorem split_first_NL (b : Bytes) :
    NL ∉ b ∨ ∃ seg rest, NL ∉ seg ∧ b = seg ++ NL :: rest := by
  induction b with
  | nil => left; simp
  | cons c b ih =>
    by_cases hc : c = NL
    · right; exact ⟨[], b, by simp, by simp [hc]⟩
    · rcases ih with h | ⟨seg, rest, h1, h2⟩
      · left
        simp only [List.mem_cons, not_or]
        exact ⟨fun e => hc e.symm, h⟩
      · right
        refine ⟨c :: seg, rest, ?_, by simp [h2]⟩
        simp only [List.mem_cons, not_or]
        exact ⟨fun e => hc e.symm, h1⟩

theorem c_str_shown (seg rest : Bytes) :
    c_str (seg.map nul_to_nl ++ NUL :: rest) = seg.map nul_to_nl := by
  induction seg with
  | nil => simp [c_str]
  | cons c seg ih =>
    have hc : nul_to_nl c ≠ NUL := by
      unfold nul_to_nl
      split
      · decide
      · assumption
    simp only [c_str] at ih
    simp [c_str, hc, ih]

theorem c_str_drop_pre (pre seg rest : Bytes) :
    c_str ((pre ++ seg.map nul_to_nl ++ NUL :: rest).drop pre.length) = seg.map nul_to_nl := by
  rw [List.append_assoc, List.drop_left]
  exact c_str_shown seg rest

theorem map_swap_of_no_NL (seg : Bytes) (h : NL ∉ seg) :
    seg.map nul_nl_swap = seg.map nul_to_nl := by
  apply List.map_congr_left
  intro c hc
  have hne : ¬ c = NL := fun e => h (e ▸ hc)
  simp [nul_nl_swap, nul_to_nl, hne]

theorem nlua_print_lines_done (fuel : Nat) (st : State) (str : Bytes) (len : Nat) :
    nlua_print_lines fuel st str len len = (st, str) := by
  cases fuel <;> simp [nlua_print_lines]

theorem splitOn_no_NL (b : Bytes) (h : NL ∉ b) : b.splitOn NL = [b] := by
  unfold List.splitOn
  apply List.splitOnP_eq_single
  intro x hx hp
  have : x = NL := by simpa using hp
  exact h (this ▸ hx)

theorem splitOn_first_NL (seg rest : Bytes) (h : NL ∉ seg) :
    (seg ++ NL :: rest).splitOn NL = seg :: rest.splitOn NL := by
  unfold List.splitOn
  apply List.splitOnP_first
  · intro x hx hp
    have : x = NL := by simpa using hp
    exact h (this ▸ hx)
  · simp

theorem nlua_print_lines_spec : ∀ (n : Nat) (b : Bytes), b.length ≤ n →
    ∀ (pre : Bytes) (st : State) (fuel : Nat), b.length ≤ fuel →
    ∃ L : List Bytes,
      nlua_print_lines fuel st (pre ++ b ++ [NUL]) pre.length (pre.length + b.length)
        = ({ st with log := st.log ++ L.map Effect.msg }, pre ++ b.map nul_nl_swap ++ [NUL])
      ∧ (b = [] → L = [])
      ∧ (b ≠ [] → L ++ (if b.getLast? = some NL then [[]] else [])
            = (b.splitOn NL).map (List.map nul_to_nl)) := by
  intro n
  induction n with
  | zero =>
    intro b hb pre st fuel _
    have : b = [] := List.length_eq_zero.mp (Nat.le_zero.mp hb)
    subst this
    exact ⟨[], by simp [nlua_print_lines_done], fun _ => rfl, fun h => absurd rfl h⟩
  | succ n ih =>
    intro b hb pre st fuel hf
    by_cases hbe : b = []
    · subst hbe
      exact ⟨[], by simp [nlua_print_lines_done], fun _ => rfl, fun h => absurd rfl h⟩
    · have hpos : 0 < b.length := List.length_pos.mpr hbe
      obtain ⟨f, rfl⟩ : ∃ f, fuel = f + 1 := ⟨fuel - 1, by omega⟩
      have hi : pre.length < pre.length + b.length := by omega
      have hsub : pre.length + b.length - pre.length = b.length := by omega
      rw [nlua_print_lines, if_pos hi]
      dsimp only
      rw [hsub]
      rcases split_first_NL b with hno | ⟨seg, rest, hseg, rfl⟩
      · rw [nlua_print_scan_end b hno pre [NUL] b.length (le_refl _)]
        dsimp only
        rw [c_str_drop_pre, nlua_print_lines_done, map_swap_of_no_NL b hno]
        refine ⟨[b.map nul_to_nl], by simp [State.emit], fun h => absurd h hbe, fun _ => ?_⟩
        have hlast : ¬ b.getLast? = some NL := fun e => hno (List.mem_of_getLast?_eq_some e)
        rw [if_neg hlast, splitOn_no_NL b hno]
        simp
      · have e1 : pre ++ (seg ++ NL :: rest) ++ [NUL] = pre ++ seg ++ NL :: (rest ++ [NUL]) := by
          simp
        have hlen : (seg ++ NL :: rest).length = seg.length + 1 + rest.length := by
          simp; omega
        rw [e1, nlua_print_scan_hit seg hseg pre (rest ++ [NUL]) _ _ (by omega) (by omega)]
        dsimp only
        rw [c_str_drop_pre]
        have e2 : pre ++ seg.map nul_to_nl ++ NUL :: (rest ++ [NUL])
            = (pre ++ seg.map nul_to_nl ++ [NUL]) ++ rest ++ [NUL] := by simp
        have e3 : pre.length + seg.length + 1 = (pre ++ seg.map nul_to_nl ++ [NUL]).length := by
          simp; omega
        have e4 : pre.length + (seg ++ NL :: rest).length
            = (pre ++ seg.map nul_to_nl ++ [NUL]).length + rest.length := by
          simp; omega
        rw [e2, e3, e4]
        obtain ⟨L, hL, hnil, hsplit⟩ := ih rest (by omega) (pre ++ seg.map nul_to_nl ++ [NUL])
          (st.emit (.msg (seg.map nul_to_nl))) f (by omega)
        rw [hL]
        refine ⟨seg.map nul_to_nl :: L, ?_, fun h => absurd h hbe, fun _ => ?_⟩
        · have hsw : nul_nl_swap NL = NUL := by decide
          simp [State.emit, map_swap_of_no_NL seg hseg, hsw]
        · rw [splitOn_first_NL seg rest hseg]
          by_cases hr : rest = []
          · subst hr
            have := hnil rfl
            subst this
            simp
          · have hlast : (seg ++ NL :: rest).getLast? = rest.getLast? := by
              have e5 : seg ++ NL :: rest = (seg ++ [NL]) ++ rest := by simp
              rw [e5, List.getLast?_append_of_ne_nil _ hr]
            rw [hlast, List.map_cons, ← hsplit hr]
            simp

theorem splitOn_NL_length (b : Bytes) : (b.splitOn NL).length = b.count NL + 1 := by
  unfold List.splitOn
  induction b with
  | nil => simp
  | cons c b ih =>
    rw [List.splitOnP_cons]
    by_cases hc : c = NL
    · subst hc
      simp [ih]
    · have hb : (c == NL) = false := by simpa using hc
      rw [hb]
      simp only [Bool.false_eq_true, if_false]
      rw [List.count_cons_of_ne (fun e => hc e.symm), ← ih]
      cases List.splitOnP (fun x => x == NL) b <;> simp [List.modifyHead]

theorem swap_eq_NUL_iff (c : Nat) : nul_nl_swap c = NUL ↔ c = NL := by
  unfold nul_nl_swap
  by_cases h0 : c = NUL
  · subst h0; decide
  · by_cases h1 : c = NL
    · subst h1; decide
    · simp [h0, h1]

theorem last_byte_after_print (b : Bytes) (hb : b ≠ []) :
    ((b.map nul_nl_swap ++ [NUL]).getD (b.length - 1) NUL = NUL) ↔ b.getLast? = some NL := by
  obtain ⟨ys, c, rfl⟩ : ∃ ys c, b = ys ++ [c] := by
    rcases List.eq_nil_or_concat b with h | ⟨ys, c, h⟩
    · exact absurd h hb
    · exact ⟨ys, c, by rw [h, List.concat_eq_append]⟩
  have e1 : (ys ++ [c]).map nul_nl_swap ++ [NUL]
      = ys.map nul_nl_swap ++ nul_nl_swap c :: [NUL] := by simp
  have e2 : (ys ++ [c]).length - 1 = (ys.map nul_nl_swap).length := by simp
  rw [e1, e2, getD_append_cons, List.getLast?_concat, swap_eq_NUL_iff]
  simp

/-- C4: for every non-empty output buffer b (followed by its final NUL, which
the length argument counts), nlua_print_event hands to msg exactly the segments
of b split on NL, in order, each with its zero bytes shown as NL, and then frees
the buffer; these are k + 1 messages when b holds k NL bytes, and when b ends
with NL the last of them is the empty line. -/
theorem nlua_print_event_splits_on_NL (st : State) (b : Bytes) (hb : b ≠ []) :
    (nlua_print_event st (b ++ [NUL]) (b.length + 1)).log
      = st.log ++ (b.splitOn NL).map (fun seg => Effect.msg (seg.map nul_to_nl))
          ++ [Effect.xfree (b.map nul_nl_swap ++ [NUL])]
    ∧ (b.splitOn NL).length = b.count NL + 1
    ∧ (b.getLast? = some NL → (b.splitOn NL).getLast? = some []) := by
  obtain ⟨L, hL, _, hsplit⟩ := nlua_print_lines_spec b.length b (le_refl _) [] st b.length
    (le_refl _)
  have hs := hsplit hb
  simp only [List.nil_append, List.length_nil, Nat.zero_add] at hL
  have hpos : 0 < b.length := List.length_pos.mpr hb
  refine ⟨?_, splitOn_NL_length b, fun hlast => ?_⟩
  · unfold nlua_print_event
    simp only [Nat.add_sub_cancel]
    rw [hL]
    dsimp only
    have hne : b.length ≠ 0 := by omega
    by_cases hlast : b.getLast? = some NL
    · rw [if_pos ⟨hne, (last_byte_after_print b hb).mpr hlast⟩]
      rw [if_pos hlast] at hs
      have : (b.splitOn NL).map (fun seg => Effect.msg (seg.map nul_to_nl))
          = ((b.splitOn NL).map (List.map nul_to_nl)).map Effect.msg := by simp
      rw [this, ← hs]
      simp [State.emit]
    · have hnot : ¬ (b.length ≠ 0 ∧ (b.map nul_nl_swap ++ [NUL]).getD (b.length - 1) NUL = NUL) :=
        fun h => hlast ((last_byte_after_print b hb).mp h.2)
      rw [if_neg hnot]
      rw [if_neg hlast] at hs
      have : (b.splitOn NL).map (fun seg => Effect.msg (seg.map nul_to_nl))
          = ((b.splitOn NL).map (List.map nul_to_nl)).map Effect.msg := by simp
      rw [this, ← hs]
      simp [State.emit]
  · rw [if_pos hlast] at hs
    have h1 : ((b.splitOn NL).map (List.map nul_to_nl)).getLast? = some [] := by
      rw [← hs, List.getLast?_concat]
    rw [List.getLast?_map] at h1
    cases hg : (b.splitOn NL).getLast? with
    | none => rw [hg] at h1; simp at h1
    | some seg =>
      rw [hg] at h1
      simp only [Option.map_some', Option.some.injEq, List.map_eq_nil_iff] at h1
      rw [h1]

theorem nlua_print_event_splits_on_NL_witness :
    ([97, 10, 0, 98, 10] : Bytes) ≠ []
    ∧ (nlua_print_event State.init ([97, 10, 0, 98, 10] ++ [NUL]) 6).log
        = [.msg [97], .msg [10, 98], .msg [], .xfree [97, 0, 10, 98, 0, 0]] :=
  ⟨by decide,
    (nlua_print_event_splits_on_NL State.init [97, 10, 0, 98, 10] (by decide)).1.trans
      (by decide)⟩

/-! ### Guest code neither raises past lua_pcall nor touches the interrupt flag -/

theorem lua_pcall_run_frame (run : State → Outcome PcallResult)
    (hrun : ∀ s, GuestFrame s (run s)) (st : State) (nargs : Nat) (nresults : Int) :
    GuestFrame st (lua_pcall_run run st nargs nresults) := by
  unfold lua_pcall_run
  dsimp only
  obtain ⟨s0, hs0⟩ : ∃ s0 : State, s0 =
      { st with
        stack := st.stack.drop (nargs + 1),
        log := st.log ++ [Effect.guest_call (st.stack.getD nargs LuaValue.nil) nargs] } :=
    ⟨_, rfl⟩
  rw [← hs0]
  have e1 : s0.got_int = st.got_int := by rw [hs0]
  obtain ⟨hnr, hgi⟩ := hrun s0
  rw [e1] at hgi
  cases hres : run s0 with
  | ret r s1 =>
    rw [hres] at hgi
    cases r <;> exact ⟨fun e s he => by simp [Outcome.bind] at he, hgi⟩
  | raise e s1 => exact absurd hres (hnr e s1)
  | exit s1 =>
    rw [hres] at hgi
    exact ⟨fun e s he => by simp [Outcome.bind] at he, hgi⟩
  | undefined s1 =>
    rw [hres] at hgi
    exact ⟨fun e s he => by simp [Outcome.bind] at he, hgi⟩

theorem nlua_luv_cfpcall_run_frame (run : State → Outcome PcallResult)
    (hrun : ∀ s, GuestFrame s (run s)) (st : State) (nargs : Nat) (nresult : Int)
    (flags : Nat) : GuestFrame st (nlua_luv_cfpcall_run run st nargs nresult flags) := by
  obtain ⟨hnr, hgi⟩ := lua_pcall_run_frame run hrun (ctx_enter st) nargs nresult
  have e1 : (ctx_enter st).got_int = st.got_int := rfl
  rw [e1] at hgi
  unfold nlua_luv_cfpcall_run
  dsimp only
  cases hres : lua_pcall_run run (ctx_enter st) nargs nresult with
  | ret status s1 =>
    rw [hres] at hgi
    simp only [Outcome.state] at hgi
    simp only [Outcome.bind]
    by_cases hs : status ≠ 0
    · rw [if_pos hs]
      by_cases hm : status = LUA_ERRMEM ∧ flags &&& LUVF_CALLBACK_NOEXIT = 0
      · rw [if_pos hm]
        exact ⟨fun e s he => by simp at he, by simpa [Outcome.state, State.emit] using hgi⟩
      · rw [if_neg hm]
        cases hts : lua_tolstring (s1.stack.headD .nil) with
        | none => exact ⟨fun e s he => by simp at he, hgi⟩
        | some error =>
          exact ⟨fun e s he => by simp at he, by
            simpa [Outcome.state, ctx_leave, State.pop, multiqueue_put] using hgi⟩
    · rw [if_neg hs]
      exact ⟨fun e s he => by simp at he, by simpa [Outcome.state, ctx_leave] using hgi⟩
  | raise e s1 => exact absurd hres (hnr e s1)
  | exit s1 =>
    rw [hres] at hgi
    exact ⟨fun e s he => by simp [Outcome.bind] at he, hgi⟩
  | undefined s1 =>
    rw [hres] at hgi
    exact ⟨fun e s he => by simp [Outcome.bind] at he, hgi⟩

theorem run_guest_frame (g : Guest) : ∀ st, GuestFrame st (run_guest st g) := by
  induction g with
  | ok results => intro st; exact ⟨fun e s he => by simp [run_guest] at he, rfl⟩
  | fail status err => intro st; exact ⟨fun e s he => by simp [run_guest] at he, rfl⟩
  | tick k ih =>
    intro st
    unfold run_guest
    exact ih _
  | callback f args nresult flags callee k ihc ihk =>
    intro st
    obtain ⟨s1, hs1⟩ : ∃ s1 : State, s1 =
        { st with stack := args.reverse ++ f :: st.stack, frames := st.frames + 1 } := ⟨_, rfl⟩
    have e1 : s1.got_int = st.got_int := by rw [hs1]
    obtain ⟨hnr, hgi⟩ :=
      nlua_luv_cfpcall_run_frame (fun s => run_guest s callee) ihc s1 args.length nresult flags
    rw [e1] at hgi
    unfold run_guest
    dsimp only
    rw [← hs1]
    cases hres : nlua_luv_cfpcall_run (fun s => run_guest s callee) s1 args.length nresult flags with
    | ret a s2 =>
      rw [hres] at hgi
      simp only [Outcome.state] at hgi
      obtain ⟨s3, hs3⟩ : ∃ s3 : State, s3 = { s2 with frames := st.frames } := ⟨_, rfl⟩
      have f1 : s3.got_int = st.got_int := by rw [hs3]; exact hgi
      obtain ⟨hnr2, hgi2⟩ := ihk s3
      rw [f1] at hgi2
      simp only [Outcome.bind]
      rw [← hs3]
      exact ⟨hnr2, hgi2⟩
    | raise e s2 => exact absurd hres (hnr e s2)
    | exit s2 =>
      rw [hres] at hgi
      exact ⟨fun e s he => by simp [Outcome.bind] at he, hgi⟩
    | undefined s2 =>
      rw [hres] at hgi
      exact ⟨fun e s he => by simp [Outcome.bind] at he, hgi⟩

theorem run_guest_result (g : Guest) :
    ∀ st r st1, run_guest st g = .ret r st1 → r = g.result := by
  induction g with
  | ok results => intro st r st1 he; simp [run_guest] at he; simp [Guest.result, he.1]
  | fail status err => intro st r st1 he; simp [run_guest] at he; simp [Guest.result, he.1]
  | tick k ih =>
    intro st r st1 he
    unfold run_guest at he
    exact ih _ r st1 he
  | callback f args nresult flags callee k _ ihk =>
    intro st r st1 he
    unfold run_guest at he
    dsimp only at he
    cases hres : nlua_luv_cfpcall_run (fun s => run_guest s callee)
        { st with stack := args.reverse ++ f :: st.stack, frames := st.frames + 1 }
        args.length nresult flags with
    | ret a s2 =>
      rw [hres] at he
      exact ihk _ r st1 he
    | raise e s2 => rw [hres] at he; simp [Outcome.bind] at he
    | exit s2 => rw [hres] at he; simp [Outcome.bind] at he
    | undefined s2 => rw [hres] at he; simp [Outcome.bind] at he

/-! ### The blocking wait -/

theorem PcallError.code_ne_zero (e : PcallError) : e.code ≠ 0 := by
  cases e <;> decide

theorem lua_pcall_ret (st : State) (nargs : Nat) (nresults : Int) (g : Guest) (status : Int)
    (s1 : State) (he : lua_pcall st nargs nresults g = .ret status s1) :
    s1.got_int = st.got_int ∧
      match g.result with
      | .ok results =>
        status = 0 ∧ s1.stack = (adjust_results results nresults).reverse ++ st.stack.drop (nargs + 1)
      | .err e v => status = e.code ∧ s1.stack = v :: st.stack.drop (nargs + 1) := by
  have hfr := lua_pcall_run_frame (fun s => run_guest s g) (run_guest_frame g) st nargs nresults
  have hgi := hfr.2
  unfold lua_pcall at he
  rw [he] at hgi
  refine ⟨hgi, ?_⟩
  unfold lua_pcall_run at he
  dsimp only at he
  cases hres : run_guest
      { st with
        stack := st.stack.drop (nargs + 1),
        log := st.log ++ [Effect.guest_call (st.stack.getD nargs LuaValue.nil) nargs] } g with
  | ret r s2 =>
    rw [hres] at he
    have hr := run_guest_result g _ r s2 hres
    rw [← hr]
    cases r with
    | ok results =>
      simp only [Outcome.bind, Outcome.ret.injEq] at he
      exact ⟨he.1.symm, by rw [← he.2]⟩
    | err e v =>
      simp only [Outcome.bind, Outcome.ret.injEq] at he
      exact ⟨he.1.symm, by rw [← he.2]⟩
  | raise e s2 => rw [hres] at he; simp [Outcome.bind] at he
  | exit s2 => rw [hres] at he; simp [Outcome.bind] at he
  | undefined s2 => rw [hres] at he; simp [Outcome.bind] at he

theorem lua_pcall_no_raise (st : State) (nargs : Nat) (nresults : Int) (g : Guest)
    (e : LuaErr) (s : State) : lua_pcall st nargs nresults g ≠ .raise e s :=
  (lua_pcall_run_frame (fun s => run_guest s g) (run_guest_frame g) st nargs nresults).1 e s

theorem adjust_one_head (results base : List LuaValue) :
    ((adjust_results results 1).reverse ++ base).headD .nil = results.headD .nil := by
  have h1 : ¬ (1 : Int) = LUA_MULTRET := by decide
  cases results with
  | nil => simp [adjust_results, h1]
  | cons r rs => simp [adjust_results, h1]

theorem adjust_one_tail (results base : List LuaValue) :
    ((adjust_results results 1).reverse ++ base).tail = base := by
  have h1 : ¬ (1 : Int) = LUA_MULTRET := by decide
  cases results with
  | nil => simp [adjust_results, h1]
  | cons r rs => simp [adjust_results, h1]

theorem nlua_wait_condition_ret (st : State) (args : List LuaValue) (g : Guest) (w : WaitVars)
    (stop : Bool) (w1 : WaitVars) (s1 : State)
    (he : nlua_wait_condition st args g w = .ret (stop, w1) s1) :
    w1.evals = w.evals + 1 ∧ s1.got_int = st.got_int ∧
      match g.result with
      | .ok results =>
        w1.pcall_status = 0 ∧ stop = lua_toboolean (results.headD .nil)
          ∧ w1.callback_result = stop ∧ s1.stack = st.stack
      | .err e v => stop = true ∧ w1.pcall_status = e.code ∧ s1.stack.headD .nil = v := by
  unfold nlua_wait_condition at he
  dsimp only at he
  cases hres : lua_pcall (st.push (lua_index args 2)) 0 1 g with
  | ret status s2 =>
    rw [hres] at he
    obtain ⟨hgi, hm⟩ := lua_pcall_ret _ _ _ _ _ _ hres
    simp only [Outcome.bind] at he
    cases hg : g.result with
    | ok results =>
      rw [hg] at hm
      obtain ⟨h0, hstack⟩ := hm
      have hs : ¬ status ≠ 0 := by simp [h0]
      rw [if_neg hs] at he
      simp only [Outcome.ret.injEq, Prod.mk.injEq] at he
      obtain ⟨⟨hstop, hw⟩, hs1⟩ := he
      have hhead : s2.stack.headD .nil = results.headD .nil := by
        rw [hstack]; exact adjust_one_head _ _
      refine ⟨by rw [← hw], by rw [← hs1]; exact hgi, by rw [← hw]; exact h0, ?_, ?_, ?_⟩
      · rw [← hstop, hhead]
      · rw [← hw, ← hstop]
      · rw [← hs1]
        simp only [State.pop, hstack, State.push]
        rw [adjust_one_tail]
        simp
    | err e v =>
      rw [hg] at hm
      obtain ⟨h0, hstack⟩ := hm
      have hs : status ≠ 0 := by rw [h0]; exact PcallError.code_ne_zero e
      rw [if_pos hs] at he
      simp only [Outcome.ret.injEq, Prod.mk.injEq] at he
      obtain ⟨⟨hstop, hw⟩, hs1⟩ := he
      refine ⟨by rw [← hw], by rw [← hs1]; exact hgi, hstop.symm, by rw [← hw]; exact h0, ?_⟩
      rw [← hs1, hstack]; rfl
  | raise e s2 => rw [hres] at he; simp [Outcome.bind] at he
  | exit s2 => rw [hres] at he; simp [Outcome.bind] at he
  | undefined s2 => rw [hres] at he; simp [Outcome.bind] at he

theorem nlua_wait_condition_no_raise (st : State) (args : List LuaValue) (g : Guest)
    (w : WaitVars) (e : LuaErr) (s : State) : nlua_wait_condition st args g w ≠ .raise e s := by
  unfold nlua_wait_condition
  dsimp only
  cases hres : lua_pcall (st.push (lua_index args 2)) 0 1 g with
  | ret status s2 =>
    simp only [Outcome.bind]
    split <;> simp
  | raise e2 s2 => exact absurd hres (lua_pcall_no_raise _ _ _ _ _ _)
  | exit s2 => simp [Outcome.bind]
  | undefined s2 => simp [Outcome.bind]

theorem last_eval_of_condition (cond : Nat → Guest) (st : State) (args : List LuaValue)
    (w : WaitVars) (stop : Bool) (wa : WaitVars) (st1 : State)
    (hc : nlua_wait_condition st args (cond w.evals) w = .ret (stop, wa) st1)
    (s2 : State) (hs : s2.stack = st1.stack) : LastEval cond wa s2 := by
  obtain ⟨hev, _, hm⟩ := nlua_wait_condition_ret _ _ _ _ _ _ _ hc
  have he1 : wa.evals - 1 = w.evals := by omega
  unfold LastEval
  rw [he1]
  refine ⟨by omega, ?_⟩
  cases hg : (cond w.evals).result with
  | ok results =>
    rw [hg] at hm
    exact ⟨hm.1, by rw [hm.2.2.1, hm.2.1]⟩
  | err e v =>
    rw [hg] at hm
    exact ⟨hm.2.1, by rw [hs]; exact hm.2.2⟩

theorem wait_loop_ret (args : List LuaValue) (cond : Nat → Guest) (pump : Nat → Pump) :
    ∀ (fuel : Nat) (st : State) (remaining : Int) (w w1 : WaitVars) (s1 : State),
      LOOP_PROCESS_EVENTS_UNTIL args cond pump fuel st remaining w = some (.ret w1 s1) →
      LastEval cond w1 s1 := by
  intro fuel
  induction fuel with
  | zero => intro st remaining w w1 s1 he; simp [LOOP_PROCESS_EVENTS_UNTIL] at he
  | succ f ih =>
    intro st remaining w w1 s1 he
    unfold LOOP_PROCESS_EVENTS_UNTIL at he
    cases hc : nlua_wait_condition st args (cond w.evals) w with
    | ret p st1 =>
      obtain ⟨stop, wa⟩ := p
      rw [hc] at he
      dsimp only at he
      split_ifs at he with h1 h2 h3 h4
      · simp only [Option.some.injEq, Outcome.ret.injEq] at he
        rw [← he.1]
        exact last_eval_of_condition cond st args w stop wa st1 hc s1 (by rw [← he.2])
      · simp only [Option.some.injEq, Outcome.ret.injEq] at he
        rw [← he.1]
        exact last_eval_of_condition cond st args w stop wa st1 hc s1 (by rw [← he.2])
      · simp only [Option.some.injEq, Outcome.ret.injEq] at he
        rw [← he.1]
        exact last_eval_of_condition cond st args w stop wa st1 hc s1 (by rw [← he.2])
      · exact ih _ _ _ _ _ he
      · exact ih _ _ _ _ _ he
    | raise e s2 => rw [hc] at he; simp at he
    | exit s2 => rw [hc] at he; simp at he
    | undefined s2 => rw [hc] at he; simp at he

theorem wait_loop_no_raise (args : List LuaValue) (cond : Nat → Guest) (pump : Nat → Pump) :
    ∀ (fuel : Nat) (st : State) (remaining : Int) (w : WaitVars) (e : LuaErr) (s : State),
      LOOP_PROCESS_EVENTS_UNTIL args cond pump fuel st remaining w ≠ some (.raise e s) := by
  intro fuel
  induction fuel with
  | zero => intro st remaining w e s he; simp [LOOP_PROCESS_EVENTS_UNTIL] at he
  | succ f ih =>
    intro st remaining w e s he
    unfold LOOP_PROCESS_EVENTS_UNTIL at he
    cases hc : nlua_wait_condition st args (cond w.evals) w with
    | ret p st1 =>
      obtain ⟨stop, wa⟩ := p
      rw [hc] at he
      dsimp only at he
      split_ifs at he with h1 h2 h3 h4
      · simp at he
      · simp at he
      · simp at he
      · exact ih _ _ _ _ _ he
      · exact ih _ _ _ _ _ he
    | raise e2 s2 => exact absurd hc (nlua_wait_condition_no_raise _ _ _ _ _ _)
    | exit s2 => rw [hc] at he; simp at he
    | undefined s2 => rw [hc] at he; simp at he

theorem wait_loop_no_interrupt (args : List LuaValue) (cond : Nat → Guest) (pump : Nat → Pump)
    (hp : ∀ n, (pump n).interrupt = false) :
    ∀ (fuel : Nat) (st : State) (remaining : Int) (w w1 : WaitVars) (s1 : State),
      st.got_int = false →
      LOOP_PROCESS_EVENTS_UNTIL args cond pump fuel st remaining w = some (.ret w1 s1) →
      s1.got_int = false := by
  intro fuel
  induction fuel with
  | zero => intro st remaining w w1 s1 _ he; simp [LOOP_PROCESS_EVENTS_UNTIL] at he
  | succ f ih =>
    intro st remaining w w1 s1 hg he
    unfold LOOP_PROCESS_EVENTS_UNTIL at he
    cases hc : nlua_wait_condition st args (cond w.evals) w with
    | ret p st1 =>
      obtain ⟨stop, wa⟩ := p
      have hg1 : st1.got_int = false := by
        rw [(nlua_wait_condition_ret _ _ _ _ _ _ _ hc).2.1]; exact hg
      rw [hc] at he
      dsimp only at he
      split_ifs at he with h1 h2 h3 h4
      · simp only [Option.some.injEq, Outcome.ret.injEq] at he
        rw [← he.2]; exact hg1
      · simp only [Option.some.injEq, Outcome.ret.injEq] at he
        rw [← he.2]; simp [hg1, hp]
      · simp only [Option.some.injEq, Outcome.ret.injEq] at he
        rw [← he.2]; simp [hg1, hp]
      · exact ih _ _ _ _ _ (by simp [hg1, hp]) he
      · exact ih _ _ _ _ _ (by simp [hg1, hp]) he
    | raise e s2 => rw [hc] at he; simp at he
    | exit s2 => rw [hc] at he; simp at he
    | undefined s2 => rw [hc] at he; simp at he

theorem nlua_wait_eq (h : Host) (st : State) (args : List LuaValue) (cond : Nat → Guest)
    (pump : Nat → Pump) (fuel : Nat) (timeout interval : Int)
    (hv : WaitArgsOk h args timeout interval) :
    nlua_wait h st args cond pump fuel
      = (LOOP_PROCESS_EVENTS_UNTIL args cond pump fuel
          (st.emit (.time_watcher_start (uint64_cast interval) (uint64_cast interval)))
          (int_cast timeout) ⟨0, false, 0⟩).map
        (fun o => o.bind fun w st => nlua_wait_finish st w) := by
  obtain ⟨h1, h2, h3, h4, h5⟩ := hv
  have h2n : ¬ timeout < 0 := by omega
  have h5n : ¬ interval < 0 := by omega
  unfold nlua_wait
  rw [h1]
  dsimp only
  rw [if_neg h2n, h3]
  simp only [Bool.not_true, Bool.false_eq_true, if_false]
  rw [h4]
  dsimp only
  rw [if_neg h5n]
  cases LOOP_PROCESS_EVENTS_UNTIL args cond pump fuel
      (st.emit (.time_watcher_start (uint64_cast interval) (uint64_cast interval)))
      (int_cast timeout) ⟨0, false, 0⟩ <;> rfl

theorem nlua_wait_finish_outcome (cond : Nat → Guest) (w : WaitVars) (s : State)
    (hl : LastEval cond w s) :
    WaitOutcome.of (nlua_wait_finish s w)
      = some (wait_outcome (cond (w.evals - 1)).result s.got_int) := by
  obtain ⟨_, hm⟩ := hl
  unfold nlua_wait_finish wait_outcome
  cases hg : (cond (w.evals - 1)).result with
  | ok results =>
    rw [hg] at hm
    obtain ⟨h0, hcb⟩ := hm
    have hs : ¬ w.pcall_status ≠ 0 := by simp [h0]
    dsimp only
    rw [if_neg hs, hcb]
    generalize lua_toboolean (results.headD .nil) = b
    have e : ((s.emit .time_watcher_stop).emit .time_watcher_close).got_int = s.got_int := rfl
    rw [e]
    cases b <;> cases s.got_int <;> simp [WaitOutcome.of]
  | err e v =>
    rw [hg] at hm
    obtain ⟨h0, hv⟩ := hm
    have hs : w.pcall_status ≠ 0 := by rw [h0]; exact PcallError.code_ne_zero e
    dsimp only
    rw [if_pos hs]
    simp only [State.emit, WaitOutcome.of]
    rw [hv]

theorem nlua_wait_finish_text (s : State) (w : WaitVars) (msg : String) (s1 : State) :
    nlua_wait_finish s w ≠ .raise (.text msg) s1 := by
  unfold nlua_wait_finish
  dsimp only
  split_ifs <;> simp

theorem nlua_wait_finish_not_interrupted (s : State) (w : WaitVars) (hg : s.got_int = false) :
    WaitOutcome.of (nlua_wait_finish s w) ≠ some .Interrupted := by
  unfold nlua_wait_finish
  dsimp only
  have e : ((s.emit .time_watcher_stop).emit .time_watcher_close).got_int = false := hg
  rw [e]
  split_ifs <;> simp_all [WaitOutcome.of]

theorem nlua_wait_finish_flag (s : State) (w : WaitVars) :
    (WaitOutcome.of (nlua_wait_finish s w) = some .Interrupted →
      s.got_int = true ∧ (nlua_wait_finish s w).state.got_int = false)
    ∧ (WaitOutcome.of (nlua_wait_finish s w) ≠ some .Interrupted →
      (nlua_wait_finish s w).state.got_int = s.got_int) := by
  have e : ((s.emit .time_watcher_stop).emit .time_watcher_close).got_int = s.got_int := rfl
  unfold nlua_wait_finish
  dsimp only
  rw [e]
  split_ifs with h1 h2 h3
  · simp [WaitOutcome.of, Outcome.state, State.pop, State.emit]
  · simp [WaitOutcome.of, Outcome.state, State.pop, State.emit]
  · simp [WaitOutcome.of, Outcome.state, State.emit, h3]
  · simp [WaitOutcome.of, Outcome.state, State.emit]

theorem nlua_wait_no_reinterrupt (h : Host) (st : State) (args : List LuaValue)
    (cond : Nat → Guest) (pump : Nat → Pump) (fuel : Nat) (timeout interval : Int)
    (hv : WaitArgsOk h args timeout interval) (hg : st.got_int = false)
    (hp : ∀ n, (pump n).interrupt = false) (o : Outcome (List LuaValue))
    (ho : nlua_wait h st args cond pump fuel = some o) :
    WaitOutcome.of o ≠ some .Interrupted := by
  rw [nlua_wait_eq h st args cond pump fuel timeout interval hv] at ho
  cases hl : LOOP_PROCESS_EVENTS_UNTIL args cond pump fuel
      (st.emit (.time_watcher_start (uint64_cast interval) (uint64_cast interval)))
      (int_cast timeout) ⟨0, false, 0⟩ with
  | none => rw [hl] at ho; simp at ho
  | some lo =>
    rw [hl] at ho
    simp only [Option.map_some', Option.some.injEq] at ho
    rw [← ho]
    cases lo with
    | ret w s =>
      have hs := wait_loop_no_interrupt args cond pump hp _ _ _ _ _ _
        (show (st.emit (.time_watcher_start (uint64_cast interval)
          (uint64_cast interval))).got_int = false from hg) hl
      exact nlua_wait_finish_not_interrupted s w hs
    | raise e s => exact absurd hl (wait_loop_no_raise _ _ _ _ _ _ _ _ _)
    | exit s => simp [Outcome.bind, WaitOutcome.of]
    | undefined s => simp [Outcome.bind, WaitOutcome.of]

/-- C5: when the arguments of vim.wait pass its checks and the call comes back
(it returns or raises, rather than the process ending inside the condition),
the loop has evaluated the condition at least once and the way the call ends is
the function wait_outcome of the last evaluation and of the interrupt flag at
that moment: ConditionError if the evaluation raised, else Satisfied if it
returned a true value, else Interrupted if got_int is set, else TimedOut.  In
particular, for every accepted timeout (0 included) a condition whose first
evaluation returns a true value gives (true, nil) after one round. -/
theorem nlua_wait_outcome (h : Host) (st : State) (args : List LuaValue)
    (cond : Nat → Guest) (pump : Nat → Pump) (fuel : Nat) (timeout interval : Int)
    (hv : WaitArgsOk h args timeout interval) :
    (∀ o, nlua_wait h st args cond pump fuel = some o →
      (∀ s, o ≠ .exit s) → (∀ s, o ≠ .undefined s) →
      ∃ w s, LOOP_PROCESS_EVENTS_UNTIL args cond pump fuel
            (st.emit (.time_watcher_start (uint64_cast interval) (uint64_cast interval)))
            (int_cast timeout) ⟨0, false, 0⟩ = some (.ret w s)
        ∧ 1 ≤ w.evals
        ∧ WaitOutcome.of o = some (wait_outcome (cond (w.evals - 1)).result s.got_int))
    ∧ (∀ results, (∀ s, ∃ s1, run_guest s (cond 0) = .ret (.ok results) s1) →
        lua_toboolean (results.headD .nil) = true →
        ∃ s1, nlua_wait h st args cond pump (fuel + 1) = some (.ret [.boolean true, .nil] s1)
          ∧ WaitOutcome.of (.ret [.boolean true, .nil] s1) = some .Satisfied) := by
  refine ⟨fun o ho hne hnu => ?_, fun results hrun htrue => ?_⟩
  · rw [nlua_wait_eq h st args cond pump fuel timeout interval hv] at ho
    cases hl : LOOP_PROCESS_EVENTS_UNTIL args cond pump fuel
        (st.emit (.time_watcher_start (uint64_cast interval) (uint64_cast interval)))
        (int_cast timeout) ⟨0, false, 0⟩ with
    | none => rw [hl] at ho; simp at ho
    | some lo =>
      rw [hl] at ho
      simp only [Option.map_some', Option.some.injEq] at ho
      cases lo with
      | ret w s =>
        have hle := wait_loop_ret args cond pump _ _ _ _ _ _ hl
        refine ⟨w, s, rfl, hle.1, ?_⟩
        rw [← ho]
        exact nlua_wait_finish_outcome cond w s hle
      | raise e s => exact absurd hl (wait_loop_no_raise _ _ _ _ _ _ _ _ _)
      | exit s => exact absurd ho.symm (hne s)
      | undefined s => exact absurd ho.symm (hnu s)
  · rw [nlua_wait_eq h st args cond pump (fuel + 1) timeout interval hv]
    obtain ⟨s1, hs1⟩ := hrun
      { ((st.emit (.time_watcher_start (uint64_cast interval) (uint64_cast interval))).push
            (lua_index args 2)) with
        stack := ((st.emit (.time_watcher_start (uint64_cast interval)
          (uint64_cast interval))).push (lua_index args 2)).stack.drop (0 + 1),
        log := ((st.emit (.time_watcher_start (uint64_cast interval)
          (uint64_cast interval))).push (lua_index args 2)).log ++
            [Effect.guest_call (((st.emit (.time_watcher_start (uint64_cast interval)
              (uint64_cast interval))).push (lua_index args 2)).stack.getD 0 LuaValue.nil) 0] }
    have hc : ∃ s2, nlua_wait_condition
        (st.emit (.time_watcher_start (uint64_cast interval) (uint64_cast interval))) args
        (cond 0) ⟨0, false, 0⟩ = .ret (true, ⟨0, true, 1⟩) s2 := by
      unfold nlua_wait_condition lua_pcall lua_pcall_run
      dsimp only
      rw [hs1]
      simp only [Outcome.bind, ne_eq, not_true_eq_false, if_false]
      rw [adjust_one_head, htrue]
      exact ⟨_, rfl⟩
    obtain ⟨s2, hs2⟩ := hc
    unfold LOOP_PROCESS_EVENTS_UNTIL
    rw [hs2]
    simp [nlua_wait_finish, Outcome.bind, WaitOutcome.of]

theorem nlua_wait_outcome_witness :
    WaitArgsOk Host.demo [.number 0, .function 1] 0 200
    ∧ ∃ s1, nlua_wait Host.demo State.init [.number 0, .function 1]
        (fun _ => .ok [.boolean true]) (fun _ => ⟨10, false⟩) 1
          = some (.ret [.boolean true, .nil] s1)
        ∧ WaitOutcome.of (.ret [.boolean true, .nil] s1) = some .Satisfied :=
  ⟨by decide,
    (nlua_wait_outcome Host.demo State.init [.number 0, .function 1]
      (fun _ => .ok [.boolean true]) (fun _ => ⟨10, false⟩) 0 0 200 (by decide)).2
      [.boolean true] (fun s => ⟨s, rfl⟩) (by decide)⟩

/-- C6: when the loop of vim.wait has stopped in state s, the call ends as
nlua_wait_finish decides, and it consumes the interrupt exactly when it returns
Interrupted: then got_int was set and is false afterwards, so that a following
wait from that state that sees no new interrupt does not end Interrupted,
whatever its condition; on every other way of ending (Satisfied, TimedOut,
ConditionError) got_int keeps the value it had when the loop stopped. -/
theorem nlua_wait_interrupt_consumed (h : Host) (st : State) (args : List LuaValue)
    (cond : Nat → Guest) (pump : Nat → Pump) (fuel : Nat) (timeout interval : Int)
    (hv : WaitArgsOk h args timeout interval) (w : WaitVars) (s : State)
    (hloop : LOOP_PROCESS_EVENTS_UNTIL args cond pump fuel
        (st.emit (.time_watcher_start (uint64_cast interval) (uint64_cast interval)))
        (int_cast timeout) ⟨0, false, 0⟩ = some (.ret w s)) :
    nlua_wait h st args cond pump fuel = some (nlua_wait_finish s w)
    ∧ (WaitOutcome.of (nlua_wait_finish s w) = some .Interrupted →
        s.got_int = true ∧ (nlua_wait_finish s w).state.got_int = false
        ∧ ∀ (args2 : List LuaValue) (cond2 : Nat → Guest) (pump2 : Nat → Pump) (fuel2 : Nat)
            (t2 i2 : Int) (o2 : Outcome (List LuaValue)),
            WaitArgsOk h args2 t2 i2 → (∀ n, (pump2 n).interrupt = false) →
            nlua_wait h (nlua_wait_finish s w).state args2 cond2 pump2 fuel2 = some o2 →
            WaitOutcome.of o2 ≠ some .Interrupted)
    ∧ (WaitOutcome.of (nlua_wait_finish s w) ≠ some .Interrupted →
        (nlua_wait_finish s w).state.got_int = s.got_int) := by
  refine ⟨?_, fun hi => ?_, (nlua_wait_finish_flag s w).2⟩
  · rw [nlua_wait_eq h st args cond pump fuel timeout interval hv, hloop]
    rfl
  · obtain ⟨h1, h2⟩ := (nlua_wait_finish_flag s w).1 hi
    exact ⟨h1, h2, fun args2 cond2 pump2 fuel2 t2 i2 o2 hv2 hp2 ho2 =>
      nlua_wait_no_reinterrupt h _ args2 cond2 pump2 fuel2 t2 i2 hv2 h2 hp2 o2 ho2⟩

theorem nlua_wait_interrupt_consumed_witness :
    nlua_wait Host.demo State.init [.number 100, .function 1]
        (fun _ => .ok [.boolean false]) (fun n => ⟨30, n == 1⟩) 5
      = some (nlua_wait_finish
          { State.init with
            got_int := true
            log := [.time_watcher_start 200 200, .guest_call (.function 1) 0,
              .guest_call (.function 1) 0, .guest_call (.function 1) 0] }
          ⟨0, false, 3⟩)
    ∧ (nlua_wait_finish
          { State.init with
            got_int := true
            log := [.time_watcher_start 200 200, .guest_call (.function 1) 0,
              .guest_call (.function 1) 0, .guest_call (.function 1) 0] }
          ⟨0, false, 3⟩).state.got_int = false :=
  ⟨(nlua_wait_interrupt_consumed Host.demo State.init [.number 100, .function 1]
      (fun _ => .ok [.boolean false]) (fun n => ⟨30, n == 1⟩) 5 100 200 (by decide)
      ⟨0, false, 3⟩ _ (by decide)).1,
   ((nlua_wait_interrupt_consumed Host.demo State.init [.number 100, .function 1]
      (fun _ => .ok [.boolean false]) (fun n => ⟨30, n == 1⟩) 5 100 200 (by decide)
      ⟨0, false, 3⟩ _ (by decide)).2.1 (by decide)).2.1⟩

/-- C7: for an integer timeout, vim.wait raises the range error for the timeout
exactly when the timeout is negative, and the range error for the interval
exactly when the timeout is accepted, the condition can be called and the
interval is negative; both are raised with the state untouched, so before the
timer is started and before the condition is evaluated.  Every non-negative
timeout and interval, 0 included, is accepted: the timer is started with the
interval and the loop is entered, and no range or usage text is raised.  An
omitted interval is 200. -/
theorem nlua_wait_validation (h : Host) (st : State) (args : List LuaValue)
    (cond : Nat → Guest) (pump : Nat → Pump) (fuel : Nat) (timeout : Int)
    (ht : luaL_checkinteger h args 1 = some timeout) :
    (timeout < 0 →
      nlua_wait h st args cond pump fuel = some (.raise (.text "timeout must be > 0") st))
    ∧ (∀ interval, 0 ≤ timeout → nlua_wait_is_function args = true →
        nlua_wait_interval h args = some interval → interval < 0 →
        nlua_wait h st args cond pump fuel = some (.raise (.text "interval must be > 0") st))
    ∧ (∀ interval, WaitArgsOk h args timeout interval →
        nlua_wait h st args cond pump fuel
          = (LOOP_PROCESS_EVENTS_UNTIL args cond pump fuel
              (st.emit (.time_watcher_start (uint64_cast interval) (uint64_cast interval)))
              (int_cast timeout) ⟨0, false, 0⟩).map
            (fun o => o.bind fun w st => nlua_wait_finish st w)
        ∧ ∀ msg s, nlua_wait h st args cond pump fuel ≠ some (.raise (.text msg) s))
    ∧ (args.length < 3 → nlua_wait_interval h args = some 200)
    ∧ (∀ s, nlua_wait h st args cond pump fuel = some (.raise (.text "timeout must be > 0") s) →
        timeout < 0)
    ∧ (∀ s, nlua_wait h st args cond pump fuel = some (.raise (.text "interval must be > 0") s) →
        0 ≤ timeout ∧ nlua_wait_is_function args = true
        ∧ ∃ interval, nlua_wait_interval h args = some interval ∧ interval < 0) := by
  have accepted : ∀ interval, WaitArgsOk h args timeout interval →
      ∀ msg s, nlua_wait h st args cond pump fuel ≠ some (.raise (.text msg) s) := by
    intro interval hv msg s ho
    rw [nlua_wait_eq h st args cond pump fuel timeout interval hv] at ho
    cases hl : LOOP_PROCESS_EVENTS_UNTIL args cond pump fuel
        (st.emit (.time_watcher_start (uint64_cast interval) (uint64_cast interval)))
        (int_cast timeout) ⟨0, false, 0⟩ with
    | none => rw [hl] at ho; simp at ho
    | some lo =>
      rw [hl] at ho
      simp only [Option.map_some', Option.some.injEq] at ho
      cases lo with
      | ret w s1 => exact nlua_wait_finish_text s1 w msg s ho
      | raise e s1 => exact absurd hl (wait_loop_no_raise _ _ _ _ _ _ _ _ _)
      | exit s1 => simp [Outcome.bind] at ho
      | undefined s1 => simp [Outcome.bind] at ho
  have neg_timeout : timeout < 0 →
      nlua_wait h st args cond pump fuel = some (.raise (.text "timeout must be > 0") st) := by
    intro hneg
    unfold nlua_wait
    rw [ht]
    dsimp only
    rw [if_pos hneg]
  have neg_interval : ∀ interval, 0 ≤ timeout → nlua_wait_is_function args = true →
      nlua_wait_interval h args = some interval → interval < 0 →
      nlua_wait h st args cond pump fuel
        = some (.raise (.text "interval must be > 0") st) := by
    intro interval h0 hf hi hneg
    have h0n : ¬ timeout < 0 := by omega
    unfold nlua_wait
    rw [ht]
    dsimp only
    rw [if_neg h0n, hf]
    simp only [Bool.not_true, Bool.false_eq_true, if_false]
    rw [hi]
    dsimp only
    rw [if_pos hneg]
  refine ⟨neg_timeout, neg_interval,
    fun interval hv => ⟨nlua_wait_eq h st args cond pump fuel timeout interval hv,
      accepted interval hv⟩, ?_, ?_, ?_⟩
  · intro hlen
    have : ¬ lua_gettop args ≥ 3 := by
      unfold lua_gettop; omega
    simp [nlua_wait_interval, this]
  · intro s ho
    by_contra hneg
    have h0n : ¬ timeout < 0 := hneg
    by_cases hf : nlua_wait_is_function args = true
    · cases hi : nlua_wait_interval h args with
      | none =>
        unfold nlua_wait at ho
        rw [ht] at ho
        dsimp only at ho
        rw [if_neg h0n, hf] at ho
        simp only [Bool.not_true, Bool.false_eq_true, if_false] at ho
        rw [hi] at ho
        simp at ho
      | some interval =>
        by_cases hin : interval < 0
        · rw [neg_interval interval (by omega) hf hi hin] at ho
          simp at ho
        · exact accepted interval ⟨ht, by omega, hf, hi, by omega⟩ _ s ho
    · unfold nlua_wait at ho
      rw [ht] at ho
      dsimp only at ho
      have hf2 : nlua_wait_is_function args = false := by simpa using hf
      rw [if_neg h0n, hf2] at ho
      simp at ho
  · intro s ho
    by_cases hneg : timeout < 0
    · rw [neg_timeout hneg] at ho
      simp at ho
    · by_cases hf : nlua_wait_is_function args = true
      · cases hi : nlua_wait_interval h args with
        | none =>
          unfold nlua_wait at ho
          rw [ht] at ho
          dsimp only at ho
          rw [if_neg hneg, hf] at ho
          simp only [Bool.not_true, Bool.false_eq_true, if_false] at ho
          rw [hi] at ho
          simp at ho
        | some interval =>
          by_cases hin : interval < 0
          · exact ⟨by omega, hf, interval, rfl, hin⟩
          · exact absurd ho (accepted interval ⟨ht, by omega, hf, hi, by omega⟩ _ s)
      · unfold nlua_wait at ho
        rw [ht] at ho
        dsimp only at ho
        have hf2 : nlua_wait_is_function args = false := by simpa using hf
        rw [if_neg hneg, hf2] at ho
        simp at ho

theorem nlua_wait_validation_witness :
    luaL_checkinteger Host.demo [.number (-1), .function 1] 1 = some (-1)
    ∧ nlua_wait Host.demo State.init [.number (-1), .function 1] (fun _ => .ok [])
        (fun _ => ⟨1, false⟩) 3 = some (.raise (.text "timeout must be > 0") State.init)
    ∧ nlua_wait Host.demo State.init [.number 0, .function 1, .number (-5)] (fun _ => .ok [])
        (fun _ => ⟨1, false⟩) 3 = some (.raise (.text "interval must be > 0") State.init) :=
  ⟨by decide,
    (nlua_wait_validation Host.demo State.init [.number (-1), .function 1] (fun _ => .ok [])
      (fun _ => ⟨1, false⟩) 3 (-1) (by decide)).1 (by decide),
    (nlua_wait_validation Host.demo State.init [.number 0, .function 1, .number (-5)]
      (fun _ => .ok []) (fun _ => ⟨1, false⟩) 3 0 (by decide)).2.1 (-5) (by decide) (by decide)
      (by decide) (by decide)⟩

/-! ### What running guest code adds to the log -/

theorem lua_pcall_run_log (run : State → Outcome PcallResult)
    (hrun : ∀ s, GuestLog s (run s)) (st : State) (nargs : Nat) (nresults : Int) :
    ∃ new, (lua_pcall_run run st nargs nresults).state.log
        = st.log ++ [Effect.guest_call (st.stack.getD nargs LuaValue.nil) nargs] ++ new
      ∧ ∀ e ∈ new, Effect.of_guest_run e = true := by
  unfold lua_pcall_run
  dsimp only
  obtain ⟨s0, hs0⟩ : ∃ s0 : State, s0 =
      { st with
        stack := st.stack.drop (nargs + 1),
        log := st.log ++ [Effect.guest_call (st.stack.getD nargs LuaValue.nil) nargs] } :=
    ⟨_, rfl⟩
  rw [← hs0]
  have e1 : s0.log = st.log ++ [.guest_call (st.stack.getD nargs .nil) nargs] := by rw [hs0]
  obtain ⟨new, hlog, hnew⟩ := hrun s0
  rw [e1] at hlog
  refine ⟨new, ?_, hnew⟩
  cases hres : run s0 with
  | ret r s1 =>
    rw [hres] at hlog
    cases r <;> exact hlog
  | raise e s1 => rw [hres] at hlog; exact hlog
  | exit s1 => rw [hres] at hlog; exact hlog
  | undefined s1 => rw [hres] at hlog; exact hlog

theorem nlua_luv_cfpcall_run_log (run : State → Outcome PcallResult)
    (hrun : ∀ s, GuestLog s (run s)) (st : State) (nargs : Nat) (nresult : Int)
    (flags : Nat) : GuestLog st (nlua_luv_cfpcall_run run st nargs nresult flags) := by
  obtain ⟨new, hlog, hnew⟩ := lua_pcall_run_log run hrun (ctx_enter st) nargs nresult
  have e1 : (ctx_enter st).log = st.log := rfl
  rw [e1, List.append_assoc] at hlog
  have hnew1 : ∀ e ∈ [Effect.guest_call ((ctx_enter st).stack.getD nargs LuaValue.nil) nargs]
      ++ new, Effect.of_guest_run e = true := by
    intro e he
    rcases List.mem_append.mp he with he | he
    · simp only [List.mem_singleton] at he
      rw [he]; rfl
    · exact hnew e he
  unfold nlua_luv_cfpcall_run
  dsimp only
  cases hres : lua_pcall_run run (ctx_enter st) nargs nresult with
  | ret status s1 =>
    rw [hres] at hlog
    simp only [Outcome.state] at hlog
    simp only [Outcome.bind]
    by_cases hs : status ≠ 0
    · rw [if_pos hs]
      by_cases hm : status = LUA_ERRMEM ∧ flags &&& LUVF_CALLBACK_NOEXIT = 0
      · rw [if_pos hm]
        refine ⟨([Effect.guest_call ((ctx_enter st).stack.getD nargs LuaValue.nil) nargs] ++ new)
          ++ [.mch_errmsg e_outofmem, .mch_errmsg "\n", .preserve_exit], ?_, ?_⟩
        · simp only [Outcome.state, State.emit, hlog, List.append_assoc]
          rfl
        · intro e he
          rcases List.mem_append.mp he with he | he
          · exact hnew1 e he
          · simp only [List.mem_cons, List.mem_singleton, List.not_mem_nil, or_false] at he
            rcases he with he | he | he <;> rw [he] <;> rfl
      · rw [if_neg hm]
        cases hts : lua_tolstring (s1.stack.headD .nil) with
        | none => exact ⟨_, hlog, hnew1⟩
        | some error => exact ⟨_, hlog, hnew1⟩
    · rw [if_neg hs]
      exact ⟨_, hlog, hnew1⟩
  | raise e s1 => rw [hres] at hlog; exact ⟨_, hlog, hnew1⟩
  | exit s1 => rw [hres] at hlog; exact ⟨_, hlog, hnew1⟩
  | undefined s1 => rw [hres] at hlog; exact ⟨_, hlog, hnew1⟩

theorem run_guest_log (g : Guest) : ∀ st, GuestLog st (run_guest st g) := by
  induction g with
  | ok results => intro st; exact ⟨[], by simp [run_guest, Outcome.state], by simp⟩
  | fail status err => intro st; exact ⟨[], by simp [run_guest, Outcome.state], by simp⟩
  | tick k ih =>
    intro st
    obtain ⟨new, hlog, hnew⟩ := ih (st.emit (.guest_step st.frames st.in_fast_callback))
    unfold run_guest
    refine ⟨[.guest_step st.frames st.in_fast_callback] ++ new, ?_, ?_⟩
    · simpa [State.emit, List.append_assoc] using hlog
    · intro e he
      rcases List.mem_append.mp he with he | he
      · simp only [List.mem_singleton] at he
        rw [he]; rfl
      · exact hnew e he
  | callback f args nresult flags callee k ihc ihk =>
    intro st
    obtain ⟨s1, hs1⟩ : ∃ s1 : State, s1 =
        { st with stack := args.reverse ++ f :: st.stack, frames := st.frames + 1 } := ⟨_, rfl⟩
    have e1 : s1.log = st.log := by rw [hs1]
    obtain ⟨new, hlog, hnew⟩ :=
      nlua_luv_cfpcall_run_log (fun s => run_guest s callee) ihc s1 args.length nresult flags
    rw [e1] at hlog
    unfold run_guest
    dsimp only
    rw [← hs1]
    cases hres : nlua_luv_cfpcall_run (fun s => run_guest s callee) s1 args.length nresult flags with
    | ret a s2 =>
      rw [hres] at hlog
      simp only [Outcome.state] at hlog
      obtain ⟨s3, hs3⟩ : ∃ s3 : State, s3 = { s2 with frames := st.frames } := ⟨_, rfl⟩
      have f3 : s3.log = s2.log := by rw [hs3]
      obtain ⟨new2, hlog2, hnew2⟩ := ihk s3
      rw [f3, hlog, List.append_assoc] at hlog2
      simp only [Outcome.bind]
      rw [← hs3]
      refine ⟨new ++ new2, hlog2, ?_⟩
      intro e he
      rcases List.mem_append.mp he with he | he
      · exact hnew e he
      · exact hnew2 e he
    | raise e s2 => rw [hres] at hlog; exact ⟨new, hlog, hnew⟩
    | exit s2 => rw [hres] at hlog; exact ⟨new, hlog, hnew⟩
    | undefined s2 => rw [hres] at hlog; exact ⟨new, hlog, hnew⟩

theorem lua_pcall_log (st : State) (nargs : Nat) (nresults : Int) (g : Guest) :
    ∃ new, (lua_pcall st nargs nresults g).state.log
        = st.log ++ [Effect.guest_call (st.stack.getD nargs LuaValue.nil) nargs] ++ new
      ∧ ∀ e ∈ new, Effect.of_guest_run e = true :=
  lua_pcall_run_log (fun s => run_guest s g) (run_guest_log g) st nargs nresults

/-! ### The scheduler -/

theorem rawgeti_rawseti_self (r : Registry) (n : Int) (v : LuaValue) (hv : v ≠ .nil) :
    (r.rawseti n v).rawgeti n = v := by
  simp [Registry.rawseti, Registry.rawgeti, hv, List.lookup]

theorem luaL_ref_resolves (h : Host) (r : Registry) (v : LuaValue) (hv : v ≠ .nil) :
    (luaL_ref h r v).2.rawgeti (luaL_ref h r v).1 = v := by
  unfold luaL_ref
  rw [if_neg hv]
  dsimp only
  split_ifs with h1
  · exact rawgeti_rawseti_self _ _ v hv
  · exact rawgeti_rawseti_self _ _ v hv

theorem luaL_ref_pos (h : Host) (r : Registry) (v : LuaValue) (hv : v ≠ .nil)
    (hfree : 0 ≤ int_cast (lua_tointeger h (r.rawgeti FREELIST_REF))) :
    0 < (luaL_ref h r v).1 := by
  unfold luaL_ref
  rw [if_neg hv]
  dsimp only
  split_ifs with h1
  · dsimp only
    omega
  · dsimp only
    omega

theorem function_of_lua_type (args : List LuaValue) (hf : lua_type args 1 = .TFUNCTION) :
    ∃ id, lua_index args 1 = .function id := by
  unfold lua_type at hf
  unfold lua_index
  cases hg : args.get? (1 - 1) with
  | none => rw [hg] at hf; simp at hf
  | some v =>
    rw [hg] at hf
    cases v <;> simp [LuaValue.type] at hf
    exact ⟨_, rfl⟩

/-- C8 (as stated, refuted): a table whose metatable provides a function __call
is a callable that vim.wait accepts as its condition, yet vim.schedule rejects
it with "vim.schedule: expected function", registers nothing and enqueues
nothing: the check of nlua_schedule (executor.c:241) is on the type tag alone. -/
theorem nlua_schedule_callable_table_counterexample :
    nlua_wait_is_function [.number 0, .table 1 (some .TFUNCTION)] = true
    ∧ nlua_schedule Host.demo State.init [.table 1 (some .TFUNCTION)]
        = .raise (.text "vim.schedule: expected function") State.init := by
  decide

/-- C8 (amended): vim.schedule validates that its argument is a function: for
every argument of type function it takes exactly one reference, which resolves
to that function, and appends exactly one task, carrying that reference, to the
event queue, changing nothing else but the registry; for every other argument,
a callable table included, it fails with a usage error and leaves the state
(registry and queue) as it was. -/
theorem nlua_schedule_validates (h : Host) (st : State) (args : List LuaValue) :
    (lua_type args 1 = .TFUNCTION →
      ∃ cb st1, nlua_schedule h st args = .ret [] st1
        ∧ st1.events = st.events ++ [.nlua_schedule_event cb]
        ∧ st1.log = st.log ++ [.luaL_ref cb]
        ∧ st1.registry = (luaL_ref h st.registry (lua_index args 1)).2
        ∧ st1.registry.rawgeti cb = lua_index args 1
        ∧ (0 ≤ int_cast (lua_tointeger h (st.registry.rawgeti FREELIST_REF)) → 0 < cb)
        ∧ st1.in_fast_callback = st.in_fast_callback ∧ st1.got_int = st.got_int
        ∧ st1.stack = st.stack)
    ∧ (lua_type args 1 ≠ .TFUNCTION →
      nlua_schedule h st args = .raise (.text "vim.schedule: expected function") st) := by
  refine ⟨fun hf => ?_, fun hf => ?_⟩
  · obtain ⟨id, hid⟩ := function_of_lua_type args hf
    have hne : lua_index args 1 ≠ .nil := by rw [hid]; simp
    have hnn : ¬ lua_type args 1 ≠ .TFUNCTION := by simp [hf]
    refine ⟨(luaL_ref h st.registry (lua_index args 1)).1,
      multiqueue_put (nlua_ref h st (lua_index args 1)).2
        (.nlua_schedule_event (nlua_ref h st (lua_index args 1)).1), ?_, rfl, rfl, rfl, ?_, ?_,
      rfl, rfl, rfl⟩
    · unfold nlua_schedule
      rw [if_neg hnn]
    · exact luaL_ref_resolves h st.registry _ hne
    · exact luaL_ref_pos h st.registry _ hne
  · unfold nlua_schedule
    rw [if_pos hf]

theorem nlua_schedule_validates_witness :
    lua_type [.function 7] 1 = .TFUNCTION
    ∧ (∃ cb st1, nlua_schedule Host.demo State.init [.function 7] = .ret [] st1
        ∧ st1.events = State.init.events ++ [.nlua_schedule_event cb]
        ∧ st1.registry.rawgeti cb = .function 7)
    ∧ nlua_schedule Host.demo State.init [.string [102]]
        = .raise (.text "vim.schedule: expected function") State.init :=
  ⟨by decide,
    (let ⟨cb, st1, h1, h2, _, _, h5, _⟩ :=
      (nlua_schedule_validates Host.demo State.init [.function 7]).1 (by decide)
     ⟨cb, st1, h1, h2, h5⟩),
    (nlua_schedule_validates Host.demo State.init [.string [102]]).2 (by decide)⟩

theorem nlua_schedule_event_eq (h : Host) (st : State) (cb : Int) (callee : Guest)
    (st1 : State) (henter : nlua_enter h st = .ret () st1) :
    nlua_schedule_event h st cb callee
      = (lua_pcall (nlua_unref (nlua_pushref st1 cb) cb) 0 0 callee).bind fun status st =>
          if status ≠ 0 then
            .ret () (nlua_error st "Error executing vim.schedule lua callback: %.*s")
          else .ret () st := by
  unfold nlua_schedule_event
  rw [henter]
  rfl

/-- C9: when a scheduled task whose reference cb is a real one (positive) runs
and nlua_enter has returned, the referenced callable is resolved and pushed, the
reference is released, and only then the callable is invoked with zero
arguments; whenever that invocation comes back, with success or with any
failure, the log holds that one release before the call and no other release,
and the task returns normally: on failure the error text goes to the host
error-message path (msg_ext_set_kind, emsgf_multiline) and no Lua error is ever
raised to the code that pumps the event loop. -/
theorem nlua_schedule_event_releases_once (h : Host) (st : State) (cb : Int) (callee : Guest)
    (st1 : State) (hcb : 0 < cb) (henter : nlua_enter h st = .ret () st1) :
    (∀ e s, nlua_schedule_event h st cb callee ≠ .raise e s)
    ∧ (nlua_unref (nlua_pushref st1 cb) cb).stack = st1.registry.rawgeti cb :: st1.stack
    ∧ (nlua_unref (nlua_pushref st1 cb) cb).registry = luaL_unref st1.registry cb
    ∧ ∀ status s3, lua_pcall (nlua_unref (nlua_pushref st1 cb) cb) 0 0 callee = .ret status s3 →
        (∃ new, s3.log
            = st1.log ++ [.luaL_unref cb, .guest_call (st1.registry.rawgeti cb) 0] ++ new
          ∧ ∀ r, Effect.luaL_unref r ∉ new)
        ∧ (status = 0 → nlua_schedule_event h st cb callee = .ret () s3)
        ∧ (status ≠ 0 → ∃ e v, callee.result = .err e v
            ∧ nlua_schedule_event h st cb callee
                = .ret () (nlua_error s3 "Error executing vim.schedule lua callback: %.*s")
            ∧ (nlua_error s3 "Error executing vim.schedule lua callback: %.*s").log
                = s3.log ++ [.msg_ext_set_kind "lua_error",
                    .emsgf_multiline "Error executing vim.schedule lua callback: %.*s"
                      (lua_tolstring v)]) := by
  have heq := nlua_schedule_event_eq h st cb callee st1 henter
  have hun : nlua_unref (nlua_pushref st1 cb) cb
      = { nlua_pushref st1 cb with
          registry := luaL_unref (nlua_pushref st1 cb).registry cb,
          log := (nlua_pushref st1 cb).log ++ [.luaL_unref cb] } := by
    unfold nlua_unref
    rw [if_pos hcb]
  refine ⟨fun e s he => ?_, ?_, ?_, fun status s3 hp => ?_⟩
  · rw [heq] at he
    cases hres : lua_pcall (nlua_unref (nlua_pushref st1 cb) cb) 0 0 callee with
    | ret status s2 =>
      rw [hres] at he
      simp only [Outcome.bind] at he
      split_ifs at he
    | raise e2 s2 => exact absurd hres (lua_pcall_no_raise _ _ _ _ _ _)
    | exit s2 => rw [hres] at he; simp [Outcome.bind] at he
    | undefined s2 => rw [hres] at he; simp [Outcome.bind] at he
  · rw [hun]; rfl
  · rw [hun]; rfl
  · obtain ⟨new, hlog, hnew⟩ := lua_pcall_log (nlua_unref (nlua_pushref st1 cb) cb) 0 0 callee
    rw [hp] at hlog
    simp only [Outcome.state] at hlog
    have hl0 : (nlua_unref (nlua_pushref st1 cb) cb).log = st1.log ++ [.luaL_unref cb] := by
      rw [hun]; rfl
    have hs0 : (nlua_unref (nlua_pushref st1 cb) cb).stack.getD 0 LuaValue.nil
        = st1.registry.rawgeti cb := by
      rw [hun]; rfl
    rw [hl0, hs0] at hlog
    obtain ⟨_, hm⟩ := lua_pcall_ret _ _ _ _ _ _ hp
    refine ⟨⟨new, by rw [hlog]; simp, fun r hr => ?_⟩, fun h0 => ?_, fun hne => ?_⟩
    · have := hnew _ hr
      simp [Effect.of_guest_run] at this
    · rw [heq, hp]
      simp [Outcome.bind, h0]
    · cases hg : callee.result with
      | ok results =>
        rw [hg] at hm
        exact absurd hm.1 hne
      | err e v =>
        rw [hg] at hm
        refine ⟨e, v, rfl, ?_, ?_⟩
        · rw [heq, hp]
          simp [Outcome.bind, hne]
        · simp [nlua_error, State.emit, State.pop, hm.2]

theorem nlua_schedule_event_releases_once_witness :
    (0 : Int) < 1
    ∧ nlua_enter Host.demo State.ready = .ret () State.ready
    ∧ nlua_schedule_event Host.demo State.ready 1 (.fail .ERRRUN (.string [101]))
      ≠ .raise (.guest (.string [101])) State.init :=
  ⟨by decide, by decide,
    (nlua_schedule_event_releases_once Host.demo State.ready 1 (.fail .ERRRUN (.string [101]))
      State.ready (by decide) (by decide)).1 _ _⟩

/-! ### RPC arguments -/

theorem nlua_rpc_args_first_failure (h : Host) (v : LuaValue) (post : List LuaValue)
    (e : Bytes) (hv : (h.nlua_pop_Object v).2 = some e) :
    ∀ (pre : List LuaValue) (i : Nat) (acc : List Object) (st : State),
      (∀ u ∈ pre, (h.nlua_pop_Object u).2 = none) →
      nlua_rpc_args h (pre ++ v :: post) i acc st
        = (some e, acc ++ (pre ++ [v]).map (fun u => (h.nlua_pop_Object u).1),
            { st with
              log := st.log
                ++ (List.range' i (pre.length + 1)).map (fun j => Effect.nlua_pop_Object (j + 3))
                ++ [.api_free_array (acc ++ (pre ++ [v]).map (fun u => (h.nlua_pop_Object u).1))] })
    := by
  intro pre
  induction pre with
  | nil =>
    intro i acc st _
    simp [nlua_rpc_args, hv, State.emit, List.range']
  | cons u pre ih =>
    intro i acc st hpre
    have hu : (h.nlua_pop_Object u).2 = none := hpre u (List.mem_cons_self _ _)
    have hrest : ∀ u ∈ pre, (h.nlua_pop_Object u).2 = none :=
      fun x hx => hpre x (List.mem_cons_of_mem _ hx)
    rw [List.cons_append, nlua_rpc_args, hu]
    rw [ih (i + 1) (acc ++ [(h.nlua_pop_Object u).1]) (st.emit (.nlua_pop_Object (i + 3))) hrest]
    simp [State.emit, List.range']

/-- C10: for every argument list of the RPC call or notify operation with a
valid channel number and method name, if the conversion of the argument after
the converted arguments pre is the first to fail, with error e, then nlua_rpc
raises exactly e; the log shows the conversions of those arguments only (none
after the failing one), then the release of the array built so far, which holds
every element already converted, and no call or event sent on the channel; the
rest of the state is untouched.  The same holds through vim.rpcnotify and, in a
safe context, through vim.rpcrequest. -/
theorem nlua_rpc_first_conversion_failure (h : Host) (st : State) (args : List LuaValue)
    (request : Bool) (chan : Int) (name : Bytes) (pre : List LuaValue) (v : LuaValue)
    (post : List LuaValue) (e : Bytes)
    (hchan : luaL_checkinteger h args 1 = some chan)
    (hname : luaL_checklstring args 2 = some name)
    (hargs : args.drop 2 = pre ++ v :: post)
    (hpre : ∀ u ∈ pre, (h.nlua_pop_Object u).2 = none)
    (hv : (h.nlua_pop_Object v).2 = some e) :
    nlua_rpc h st args request
      = .raise (.api e)
          { st with
            log := st.log
              ++ (List.range (pre.length + 1)).map (fun j => Effect.nlua_pop_Object (j + 3))
              ++ [.api_free_array ((pre ++ [v]).map (fun u => (h.nlua_pop_Object u).1))] }
    ∧ nlua_rpcnotify h st args = nlua_rpc h st args false
    ∧ (st.in_fast_callback = 0 → nlua_rpcrequest h st args = nlua_rpc h st args true) := by
  refine ⟨?_, rfl, fun h0 => ?_⟩
  · unfold nlua_rpc
    rw [hchan]
    dsimp only
    rw [hname]
    dsimp only
    rw [hargs, nlua_rpc_args_first_failure h v post e hv pre 0 [] st hpre]
    simp [List.range_eq_range']
  · have hs : nlua_is_deferred_safe st = true := by simp [nlua_is_deferred_safe, h0]
    simp [nlua_rpcrequest, hs]

theorem nlua_rpc_first_conversion_failure_witness :
    nlua_rpc Host.strict State.init
        [.number 1, .string [109], .number 5, .function 3, .number 6] false
      = .raise (.api [99])
          { State.init with
            log := [.nlua_pop_Object 3, .nlua_pop_Object 4, .api_free_array [⟨1⟩, ⟨0⟩]] } :=
  (nlua_rpc_first_conversion_failure Host.strict State.init
    [.number 1, .string [109], .number 5, .function 3, .number 6] false 1 [109]
    [.number 5] (.function 3) [.number 6] [99] (by decide) (by decide) (by decide)
    (by decide) (by decide)).1

/-! ### The comparison is a sign, antisymmetric, and blind to case -/

theorem TOLOWER_LOC_eq_zero (c : Nat) : TOLOWER_LOC c = 0 ↔ c = 0 := by
  unfold TOLOWER_LOC
  split <;> omega

theorem STRICMP_antisymm (s1 : Bytes) : ∀ s2 : Bytes, STRICMP s1 s2 = - STRICMP s2 s1 := by
  induction s1 with
  | nil =>
    intro s2
    cases s2 with
    | nil => simp [STRICMP]
    | cons c2 r2 =>
      have hz : TOLOWER_LOC NUL = 0 := by decide
      by_cases h0 : c2 = NUL
      · subst h0; simp [STRICMP, hz]
      · have hl : TOLOWER_LOC c2 ≠ 0 := fun e => h0 ((TOLOWER_LOC_eq_zero c2).mp e)
        have hl2 : ¬ ((TOLOWER_LOC c2 : Int) = 0) := by exact_mod_cast hl
        simp [STRICMP, hz, hl2]
  | cons c1 r1 ih =>
    intro s2
    cases s2 with
    | nil =>
      have hz : TOLOWER_LOC NUL = 0 := by decide
      by_cases h0 : c1 = NUL
      · subst h0; simp [STRICMP, hz]
      · have hl : TOLOWER_LOC c1 ≠ 0 := fun e => h0 ((TOLOWER_LOC_eq_zero c1).mp e)
        have hl2 : ¬ ((TOLOWER_LOC c1 : Int) = 0) := by exact_mod_cast hl
        simp [STRICMP, hz, hl2]
    | cons c2 r2 =>
      by_cases hi : (TOLOWER_LOC c1 : Int) - (TOLOWER_LOC c2 : Int) = 0
      · have hi2 : (TOLOWER_LOC c2 : Int) - (TOLOWER_LOC c1 : Int) = 0 := by omega
        have hl : TOLOWER_LOC c1 = TOLOWER_LOC c2 := by omega
        have hzz : c1 = NUL ↔ c2 = NUL := by
          unfold NUL
          rw [← TOLOWER_LOC_eq_zero c1, ← TOLOWER_LOC_eq_zero c2, hl]
        by_cases h0 : c1 = NUL
        · have h2 : c2 = NUL := hzz.mp h0
          simp [STRICMP, hi, hi2, h0, h2]
        · have h2 : ¬ c2 = NUL := fun e => h0 (hzz.mpr e)
          simp only [STRICMP, List.headD_cons, hi, hi2, ne_eq, not_true_eq_false, if_false, h0,
            h2, List.tail_cons]
          exact ih r2
      · have hi2 : ¬ (TOLOWER_LOC c2 : Int) - (TOLOWER_LOC c1 : Int) = 0 := by omega
        simp only [STRICMP, List.headD_cons, ne_eq, hi, hi2, not_false_eq_true, if_true]
        omega

theorem memchr_lt (s : Bytes) (c n : Nat) (h : memchr s c = some n) : n < s.length := by
  induction s generalizing n with
  | nil => simp [memchr] at h
  | cons b rest ih =>
    unfold memchr at h
    by_cases hb : b = c
    · rw [if_pos hb] at h
      simp only [Option.some.injEq] at h
      simp; omega
    · rw [if_neg hb] at h
      cases hm : memchr rest c with
      | none => rw [hm] at h; simp at h
      | some m =>
        rw [hm] at h
        simp only [Option.map_some', Option.some.injEq] at h
        have := ih m hm
        simp; omega

theorem nlua_stricmp_loop_antisymm :
    ∀ (fuel : Nat) (s1 s2 : Bytes),
      nlua_stricmp_loop fuel s1 s2 = - nlua_stricmp_loop fuel s2 s1 := by
  intro fuel
  induction fuel with
  | zero => intro s1 s2; simp [nlua_stricmp_loop]
  | succ f ih =>
    intro s1 s2
    unfold nlua_stricmp_loop
    dsimp only
    rw [STRICMP_antisymm s2 s1]
    by_cases hr : STRICMP s1 s2 = 0
    · have hr2 : - STRICMP s1 s2 = 0 := by omega
      rw [if_pos hr, if_pos hr2]
      cases h1 : memchr s1 NUL <;> cases h2 : memchr s2 NUL
      · simp [hr]
      · simp [c_bool]
      · simp [c_bool]
      · simp only [Option.isNone_some, ne_eq, not_true_eq_false, if_false]
        exact ih _ _
    · have hr2 : ¬ - STRICMP s1 s2 = 0 := by omega
      rw [if_neg hr, if_neg hr2]
      omega

theorem nlua_stricmp_loop_fuel :
    ∀ (f f2 : Nat) (s1 s2 : Bytes), s1.length < f → s1.length < f2 →
      nlua_stricmp_loop f s1 s2 = nlua_stricmp_loop f2 s1 s2 := by
  intro f
  induction f with
  | zero => intro f2 s1 s2 h; omega
  | succ k ih =>
    intro f2 s1 s2 h1 h2
    obtain ⟨k2, rfl⟩ : ∃ k2, f2 = k2 + 1 := ⟨f2 - 1, by omega⟩
    unfold nlua_stricmp_loop
    dsimp only
    by_cases hr : STRICMP s1 s2 = 0
    · rw [if_pos hr, if_pos hr]
      cases hm1 : memchr s1 NUL <;> cases hm2 : memchr s2 NUL
      · simp
      · simp
      · simp
      · simp only [Option.isNone_some, ne_eq, not_true_eq_false, if_false]
        have hlt := memchr_lt s1 NUL _ hm1
        apply ih
        · simp; omega
        · simp; omega
    · rw [if_neg hr, if_neg hr]

theorem nlua_stricmp_loop_fuel_right (f f2 : Nat) (s1 s2 : Bytes) (h1 : s2.length < f)
    (h2 : s2.length < f2) : nlua_stricmp_loop f s1 s2 = nlua_stricmp_loop f2 s1 s2 := by
  rw [nlua_stricmp_loop_antisymm f s1 s2, nlua_stricmp_loop_antisymm f2 s1 s2,
    nlua_stricmp_loop_fuel f f2 s2 s1 h1 h2]

theorem STRICMP_eq_zero_of_lower (a : Bytes) :
    ∀ b : Bytes, eq_ignoring_case a b → STRICMP a b = 0 := by
  induction a with
  | nil =>
    intro b he
    cases b with
    | nil => simp [STRICMP]
    | cons c r => simp [eq_ignoring_case] at he
  | cons c r ih =>
    intro b he
    cases b with
    | nil => simp [eq_ignoring_case] at he
    | cons c2 r2 =>
      simp only [eq_ignoring_case, List.map_cons, List.cons.injEq] at he
      have hi : (TOLOWER_LOC c : Int) - (TOLOWER_LOC c2 : Int) = 0 := by rw [he.1]; simp
      unfold STRICMP
      simp only [List.headD_cons, hi, ne_eq, not_true_eq_false, if_false, List.tail_cons]
      by_cases h0 : c = NUL
      · rw [if_pos h0]
      · rw [if_neg h0]
        exact ih r2 he.2

theorem memchr_NUL_of_lower (a : Bytes) :
    ∀ b : Bytes, eq_ignoring_case a b → memchr a NUL = memchr b NUL := by
  induction a with
  | nil =>
    intro b he
    cases b with
    | nil => rfl
    | cons c r => simp [eq_ignoring_case] at he
  | cons c r ih =>
    intro b he
    cases b with
    | nil => simp [eq_ignoring_case] at he
    | cons c2 r2 =>
      simp only [eq_ignoring_case, List.map_cons, List.cons.injEq] at he
      have hzz : c = NUL ↔ c2 = NUL := by
        unfold NUL
        rw [← TOLOWER_LOC_eq_zero c, ← TOLOWER_LOC_eq_zero c2, he.1]
      unfold memchr
      by_cases h0 : c = NUL
      · rw [if_pos h0, if_pos (hzz.mp h0)]
      · rw [if_neg h0, if_neg (fun e => h0 (hzz.mpr e)), ih r2 he.2]

theorem nlua_stricmp_loop_eq_zero :
    ∀ (fuel : Nat) (a b : Bytes), a.length < fuel → eq_ignoring_case a b →
      nlua_stricmp_loop fuel a b = 0 := by
  intro fuel
  induction fuel with
  | zero => intro a b h; omega
  | succ f ih =>
    intro a b hf he
    unfold nlua_stricmp_loop
    dsimp only
    rw [if_pos (STRICMP_eq_zero_of_lower a b he), ← memchr_NUL_of_lower a b he]
    cases hm : memchr a NUL with
    | none => simp [STRICMP_eq_zero_of_lower a b he]
    | some n =>
      simp only [ne_eq, not_true_eq_false, if_false]
      have hlt := memchr_lt a NUL n hm
      apply ih
      · simp; omega
      · unfold eq_ignoring_case at he ⊢
        rw [List.map_drop, List.map_drop, he]

theorem lower_intercalate (L : List Bytes) :
    ∀ L2 : List Bytes, List.Forall₂ eq_ignoring_case L L2 →
      eq_ignoring_case ([NUL].intercalate L) ([NUL].intercalate L2) := by
  induction L with
  | nil =>
    intro L2 h
    cases h
    simp [eq_ignoring_case]
  | cons x rest ih =>
    intro L2 h
    cases h with
    | cons hx hrest =>
      rename_i y rest2
      have hr := ih rest2 hrest
      cases rest with
      | nil =>
        cases hrest
        simpa [List.intercalate, eq_ignoring_case] using hx
      | cons x2 rest3 =>
        cases hrest with
        | cons hx2 hrest3 =>
          rename_i y2 rest4
          simp only [List.intercalate, eq_ignoring_case, List.intersperse_cons_cons,
            List.flatten_cons, List.map_append] at hr ⊢
          unfold eq_ignoring_case at hx
          rw [hx, hr]

theorem eq_ignoring_case_of_segments (a b : Bytes)
    (h : List.Forall₂ eq_ignoring_case (a.splitOn NUL) (b.splitOn NUL)) :
    eq_ignoring_case a b := by
  have := lower_intercalate _ _ h
  rwa [List.intercalate_splitOn, List.intercalate_splitOn] at this

/-- C21: for all byte strings a and b, zero bytes included, the comparison loop
of stricmp gives the same result with any amount of fuel above the length of a
(it ends), and stricmp returns -1, 0 or 1; stricmp(a, b) = -stricmp(b, a); and
stricmp(a, b) = 0 whenever the segments of a and b between zero bytes are
pairwise equal ignoring case (then a and b have the same length), so that
stricmp(a, a) = 0. -/
theorem nlua_stricmp_sign_antisymm (a b : Bytes) :
    (∀ fuel, a.length < fuel →
      nlua_stricmp_loop fuel a b = nlua_stricmp_loop (a.length + 1) a b)
    ∧ (nlua_stricmp a b = -1 ∨ nlua_stricmp a b = 0 ∨ nlua_stricmp a b = 1)
    ∧ nlua_stricmp a b = - nlua_stricmp b a
    ∧ (List.Forall₂ eq_ignoring_case (a.splitOn NUL) (b.splitOn NUL) →
        a.length = b.length ∧ nlua_stricmp a b = 0)
    ∧ nlua_stricmp a a = 0 := by
  have zero_of : ∀ x y : Bytes, eq_ignoring_case x y → nlua_stricmp x y = 0 := by
    intro x y he
    unfold nlua_stricmp
    rw [nlua_stricmp_loop_eq_zero _ x y (Nat.lt_succ_self _) he]
    decide
  refine ⟨fun fuel hf => nlua_stricmp_loop_fuel _ _ a b hf (Nat.lt_succ_self _), ?_, ?_, ?_, ?_⟩
  · unfold nlua_stricmp
    dsimp only
    generalize nlua_stricmp_loop (a.length + 1) a b = ret
    rcases lt_trichotomy ret 0 with h | h | h
    · left
      have h2 : ¬ ret > 0 := by omega
      simp [c_bool, h, h2]
    · right; left
      subst h
      simp [c_bool]
    · right; right
      have h2 : ¬ ret < 0 := by omega
      simp [c_bool, h, h2]
  · have hfuel : nlua_stricmp_loop (b.length + 1) b a
        = - nlua_stricmp_loop (a.length + 1) a b := by
      rw [nlua_stricmp_loop_antisymm (b.length + 1) b a]
      congr 1
      rcases Nat.le_total a.length b.length with hle | hle
      · exact nlua_stricmp_loop_fuel _ _ a b (by omega) (by omega)
      · exact nlua_stricmp_loop_fuel_right _ _ a b (by omega) (by omega)
    unfold nlua_stricmp
    dsimp only
    rw [hfuel]
    generalize nlua_stricmp_loop (a.length + 1) a b = ret
    rcases lt_trichotomy ret 0 with h | h | h
    · have h2 : ¬ ret > 0 := by omega
      have h3 : -ret > 0 := by omega
      have h4 : ¬ -ret < 0 := by omega
      simp [c_bool, h, h2, h3, h4]
    · subst h
      simp [c_bool]
    · have h2 : ¬ ret < 0 := by omega
      have h3 : -ret < 0 := by omega
      have h4 : ¬ -ret > 0 := by omega
      simp [c_bool, h, h2, h3, h4]
  · intro hseg
    have he := eq_ignoring_case_of_segments a b hseg
    refine ⟨?_, zero_of a b he⟩
    have := congrArg List.length he
    simpa using this
  · exact zero_of a a rfl

theorem nlua_stricmp_sign_antisymm_witness :
    List.Forall₂ eq_ignoring_case (([65, 0, 98] : Bytes).splitOn NUL)
        (([97, 0, 66] : Bytes).splitOn NUL)
    ∧ nlua_stricmp [65, 0, 98] [97, 0, 66] = 0
    ∧ nlua_stricmp [97, 0, 98] [97, 0, 99] = - nlua_stricmp [97, 0, 99] [97, 0, 98] :=
  ⟨by decide,
    ((nlua_stricmp_sign_antisymm [65, 0, 98] [97, 0, 66]).2.2.2.1 (by decide)).2,
    (nlua_stricmp_sign_antisymm [97, 0, 98] [97, 0, 99]).2.2.1⟩

/-! ### What the callback wrapper returns on success -/

theorem adjust_results_length (results : List LuaValue) (nresults : Int)
    (h : nresults ≠ LUA_MULTRET) : (adjust_results results nresults).length = nresults.toNat := by
  unfold adjust_results
  rw [if_neg h]
  simp
  omega

/-- C22: when the callee succeeds (lua_pcall gives status 0) and the function
with its nargs arguments was on the stack, nlua_luv_cfpcall returns the number
of results left on the stack: nresult itself when a fixed count was asked for,
and with LUA_MULTRET the number of values the callee returned, which is the
stack height after the call minus the height before plus nargs + 1 and is never
negative. -/
theorem nlua_luv_cfpcall_result_count (st : State) (nargs : Nat) (nresult : Int) (flags : Nat)
    (callee : Guest) (s1 : State) (hstack : nargs + 1 ≤ st.stack.length)
    (hok : lua_pcall (ctx_enter st) nargs nresult callee = .ret 0 s1) :
    ∃ results, callee.result = .ok results
      ∧ (nresult ≠ LUA_MULTRET →
          nlua_luv_cfpcall st nargs nresult flags callee = .ret nresult (ctx_leave s1)
          ∧ (0 ≤ nresult →
              (s1.stack.length : Int) = nresult + ((st.stack.length : Int) - (nargs + 1))))
      ∧ (nresult = LUA_MULTRET →
          nlua_luv_cfpcall st nargs nresult flags callee
            = .ret (results.length : Int) (ctx_leave s1)
          ∧ (results.length : Int)
              = (s1.stack.length : Int) - (st.stack.length : Int) + (nargs : Int) + 1
          ∧ 0 ≤ (s1.stack.length : Int) - (st.stack.length : Int) + (nargs : Int) + 1) := by
  obtain ⟨_, hm⟩ := lua_pcall_ret _ _ _ _ _ _ hok
  have hrun : lua_pcall_run (fun s => run_guest s callee) (ctx_enter st) nargs nresult
      = .ret 0 s1 := hok
  have hbase : ((ctx_enter st).stack.drop (nargs + 1)).length = st.stack.length - (nargs + 1) := by
    simp [ctx_enter]
  have htop : (ctx_enter st).stack.length = st.stack.length := rfl
  cases hg : callee.result with
  | err e v =>
    rw [hg] at hm
    exact absurd hm.1.symm (PcallError.code_ne_zero e)
  | ok results =>
    rw [hg] at hm
    obtain ⟨_, hs1⟩ := hm
    refine ⟨results, rfl, fun hne => ?_, fun hmr => ?_⟩
    · refine ⟨?_, fun h0 => ?_⟩
      · unfold nlua_luv_cfpcall nlua_luv_cfpcall_run
        dsimp only
        rw [hrun]
        simp [Outcome.bind, hne]
      · rw [hs1, List.length_append, List.length_reverse, adjust_results_length _ _ hne, hbase]
        push_cast
        rw [Int.toNat_of_nonneg h0]
        omega
    · have hlen : (s1.stack.length : Int)
          = (results.length : Int) + ((st.stack.length : Int) - ((nargs : Int) + 1)) := by
        rw [hs1, List.length_append, List.length_reverse, hbase]
        simp only [adjust_results, hmr, if_true]
        push_cast
        omega
      refine ⟨?_, by omega, by omega⟩
      unfold nlua_luv_cfpcall nlua_luv_cfpcall_run
      dsimp only
      rw [hrun]
      simp only [Outcome.bind, ne_eq, not_true_eq_false, if_false, hmr, if_true, htop]
      congr 1
      omega

theorem nlua_luv_cfpcall_result_count_witness :
    nlua_luv_cfpcall ((State.init.push (.function 7)).push (.number 5)) 1 LUA_MULTRET 0
        (.tick (.ok [.number 1, .number 2, .number 3]))
      = .ret 3
          { State.init with
            stack := [.number 3, .number 2, .number 1]
            log := [.guest_call (.function 7) 1, .guest_step 0 1] } := by
  obtain ⟨results, hr, _, h2⟩ :=
    nlua_luv_cfpcall_result_count ((State.init.push (.function 7)).push (.number 5)) 1
      LUA_MULTRET 0 (.tick (.ok [.number 1, .number 2, .number 3]))
      { State.init with
        in_fast_callback := 1
        stack := [.number 3, .number 2, .number 1]
        log := [.guest_call (.function 7) 1, .guest_step 0 1] }
      (by decide) (by decide)
  have hres : results = [.number 1, .number 2, .number 3] := by
    simp [Guest.result] at hr
    exact hr.symm
  rw [(h2 rfl).1, hres]
  rfl

/-! ### Notify on a channel that does not exist -/

theorem nlua_rpc_args_all_converted (h : Host) :
    ∀ (l : List LuaValue) (i : Nat) (acc : List Object) (st : State),
      (∀ u ∈ l, (h.nlua_pop_Object u).2 = none) →
      nlua_rpc_args h l i acc st
        = (none, acc ++ l.map (fun u => (h.nlua_pop_Object u).1),
            { st with
              log := st.log
                ++ (List.range' i l.length).map (fun j => Effect.nlua_pop_Object (j + 3)) }) := by
  intro l
  induction l with
  | nil => intro i acc st _; simp [nlua_rpc_args]
  | cons u rest ih =>
    intro i acc st hl
    have hu : (h.nlua_pop_Object u).2 = none := hl u (List.mem_cons_self _ _)
    have hrest : ∀ x ∈ rest, (h.nlua_pop_Object x).2 = none :=
      fun x hx => hl x (List.mem_cons_of_mem _ hx)
    rw [nlua_rpc_args, hu]
    rw [ih (i + 1) (acc ++ [(h.nlua_pop_Object u).1]) (st.emit (.nlua_pop_Object (i + 3))) hrest]
    simp [State.emit, List.range']

/-- C11 (as stated, refuted): on a host where no channel exists, vim.rpcnotify
does report the validation error that names the channel id, but it does so by
raising it as a Lua error in the caller (lua_error at executor.c:787), not by
returning. -/
theorem nlua_rpcnotify_raises_counterexample :
    nlua_rpcnotify Host.no_channel State.init [.number 99, .string [109]]
      = .raise (.invalid_channel 99)
          { State.init with log := [.rpc_send_event 99 [109] []] }
    ∧ ∀ vals s, nlua_rpcnotify Host.no_channel State.init [.number 99, .string [109]]
        ≠ .ret vals s := by
  constructor
  · decide
  · intro vals s he
    have h1 : nlua_rpcnotify Host.no_channel State.init [.number 99, .string [109]]
        = .raise (.invalid_channel 99)
            { State.init with log := [.rpc_send_event 99 [109] []] } := by decide
    rw [h1] at he
    exact Outcome.noConfusion he

/-- C11 (amended): when vim.rpcnotify is called with a channel number, a method
name and arguments that all convert, and rpc_send_event finds no channel with
that id, the call never returns normally: after the conversions and the one
attempt to send, it raises the validation error "Invalid channel: id" as a Lua
error in the caller, with the rest of the state untouched. -/
theorem nlua_rpcnotify_invalid_channel (h : Host) (st : State) (args : List LuaValue)
    (chan : Int) (name : Bytes)
    (hchan : luaL_checkinteger h args 1 = some chan)
    (hname : luaL_checklstring args 2 = some name)
    (hconv : ∀ u ∈ args.drop 2, (h.nlua_pop_Object u).2 = none)
    (hsend : h.rpc_send_event (uint64_cast chan) name
        ((args.drop 2).map (fun u => (h.nlua_pop_Object u).1)) = false) :
    nlua_rpcnotify h st args
      = .raise (.invalid_channel (uint64_cast chan))
          { st with
            log := st.log
              ++ (List.range (args.drop 2).length).map (fun j => Effect.nlua_pop_Object (j + 3))
              ++ [.rpc_send_event (uint64_cast chan) name
                    ((args.drop 2).map (fun u => (h.nlua_pop_Object u).1))] }
    ∧ ∀ vals s, nlua_rpcnotify h st args ≠ .ret vals s := by
  have key : nlua_rpcnotify h st args
      = .raise (.invalid_channel (uint64_cast chan))
          { st with
            log := st.log
              ++ (List.range (args.drop 2).length).map (fun j => Effect.nlua_pop_Object (j + 3))
              ++ [.rpc_send_event (uint64_cast chan) name
                    ((args.drop 2).map (fun u => (h.nlua_pop_Object u).1))] } := by
    unfold nlua_rpcnotify nlua_rpc
    rw [hchan]
    dsimp only
    rw [hname]
    dsimp only
    rw [nlua_rpc_args_all_converted h (args.drop 2) 0 [] st hconv]
    dsimp only
    rw [List.nil_append, hsend]
    simp [State.emit, List.range_eq_range']
  refine ⟨key, fun vals s he => ?_⟩
  rw [key] at he
  exact Outcome.noConfusion he

theorem nlua_rpcnotify_invalid_channel_witness :
    nlua_rpcnotify Host.no_channel State.init [.number 99, .string [109], .number 5]
      = .raise (.invalid_channel 99)
          { State.init with
            log := [.nlua_pop_Object 3, .rpc_send_event 99 [109] [⟨0⟩]] } :=
  (nlua_rpcnotify_invalid_channel Host.no_channel State.init
    [.number 99, .string [109], .number 5] 99 [109] (by decide) (by decide) (by decide)
    (by decide)).1

/-! ### The first argument of vim.call that does not convert -/

theorem nlua_call_args_first_failure (h : Host) (v : LuaValue) (post : List LuaValue)
    (hv : h.nlua_pop_typval v = none) :
    ∀ (pre : List LuaValue) (i : Nat) (acc : List Typval) (st : State),
      (∀ u ∈ pre, h.nlua_pop_typval u ≠ none) →
      nlua_call_args h (pre ++ v :: post) i acc st
        = (some (i + pre.length + 1), acc ++ pre.filterMap h.nlua_pop_typval,
            { st with
              log := st.log
                ++ (List.range' i (pre.length + 1)).map (fun j => Effect.nlua_pop_typval (j + 2)) })
    := by
  intro pre
  induction pre with
  | nil =>
    intro i acc st _
    simp [nlua_call_args, hv, State.emit, List.range']
  | cons u pre ih =>
    intro i acc st hpre
    have hu : h.nlua_pop_typval u ≠ none := hpre u (List.mem_cons_self _ _)
    have hrest : ∀ u ∈ pre, h.nlua_pop_typval u ≠ none :=
      fun x hx => hpre x (List.mem_cons_of_mem _ hx)
    cases htv : h.nlua_pop_typval u with
    | none => exact absurd htv hu
    | some tv =>
      rw [List.cons_append, nlua_call_args, htv]
      dsimp only
      rw [ih (i + 1) (acc ++ [tv]) (st.emit (.nlua_pop_typval (i + 2))) hrest]
      simp [State.emit, List.range', htv, List.filterMap_cons]
      omega

theorem filterMap_length_of_all_some {α β : Type} (f : α → Option β) :
    ∀ l : List α, (∀ u ∈ l, f u ≠ none) → (l.filterMap f).length = l.length := by
  intro l
  induction l with
  | nil => intro _; rfl
  | cons u l ih =>
    intro hl
    cases hu : f u with
    | none => exact absurd hu (hl u (List.mem_cons_self _ _))
    | some b =>
      rw [List.filterMap_cons, hu]
      simp [ih (fun x hx => hl x (List.mem_cons_of_mem _ hx))]

/-- C12: for a call of vim.call from a safe context with a function name and at
most MAX_FUNC_ARGS arguments, if the arguments pre convert to typvals and the
argument after them is the first whose conversion fails, at 1-based position
k = pre.length + 1, then nlua_call raises the error "error converting argument
k"; the log shows the k conversions attempted, then tv_clear of exactly the k-1
typvals converted before (last to first) and nothing else: in particular
call_func is not invoked; the rest of the state is untouched. -/
theorem nlua_call_first_conversion_failure (h : Host) (st : State) (args : List LuaValue)
    (name : Bytes) (pre : List LuaValue) (v : LuaValue) (post : List LuaValue)
    (hname : luaL_checklstring args 1 = some name)
    (hsafe : st.in_fast_callback = 0)
    (hn : lua_gettop args - 1 ≤ MAX_FUNC_ARGS)
    (hargs : args.drop 1 = pre ++ v :: post)
    (hpre : ∀ u ∈ pre, h.nlua_pop_typval u ≠ none)
    (hv : h.nlua_pop_typval v = none) :
    nlua_call h st args
      = .raise (.arg_conversion (pre.length + 1))
          { st with
            log := st.log
              ++ (List.range (pre.length + 1)).map (fun j => Effect.nlua_pop_typval (j + 2))
              ++ (pre.filterMap h.nlua_pop_typval).reverse.map Effect.tv_clear }
    ∧ (pre.filterMap h.nlua_pop_typval).length = pre.length
    ∧ ∀ f vim_args, Effect.call_func f vim_args
        ∉ (List.range (pre.length + 1)).map (fun j => Effect.nlua_pop_typval (j + 2))
          ++ (pre.filterMap h.nlua_pop_typval).reverse.map Effect.tv_clear := by
  refine ⟨?_, filterMap_length_of_all_some _ pre hpre, ?_⟩
  · have hs : nlua_is_deferred_safe st = true := by simp [nlua_is_deferred_safe, hsafe]
    have hn2 : ¬ (lua_gettop args - 1 > MAX_FUNC_ARGS) := by omega
    unfold nlua_call
    rw [hname]
    dsimp only
    rw [hs]
    simp only [Bool.not_true, Bool.false_eq_true, if_false, if_neg hn2]
    rw [hargs, nlua_call_args_first_failure h v post hv pre 0 [] st hpre]
    simp [nlua_call_free, List.range_eq_range']
  · intro f vim_args hmem
    simp at hmem

theorem nlua_call_first_conversion_failure_witness :
    nlua_call Host.plain State.init
        [.string [102], .number 5, .number 6, .function 3, .number 7]
      = .raise (.arg_conversion 3)
          { State.init with
            log := [.nlua_pop_typval 2, .nlua_pop_typval 3, .nlua_pop_typval 4,
                    .tv_clear ⟨6⟩, .tv_clear ⟨5⟩] } :=
  (nlua_call_first_conversion_failure Host.plain State.init
    [.string [102], .number 5, .number 6, .function 3, .number 7] [102]
    [.number 5, .number 6] (.function 3) [.number 7] (by decide) (by decide) (by decide)
    (by decide) (by decide) (by decide)).1

/-! ### Errors of callbacks: out of memory, and errors deferred to the queue -/

/-- C19 (as stated, refuted): with LUVF_CALLBACK_NOEXIT in the flags, a callback
that fails with the out-of-memory status is not fatal: nlua_luv_cfpcall returns
-LUA_ERRMEM, nothing is written by mch_errmsg, the process does not exit, and
the error is queued like any other callback error. -/
theorem nlua_luv_cfpcall_noexit_counterexample :
    nlua_luv_cfpcall { State.init with stack := [.function 7] } 0 0 LUVF_CALLBACK_NOEXIT
        (.fail .ERRMEM (.string [111]))
      = .ret (-4)
          { State.init with
            events := [.nlua_luv_error_event [111]]
            log := [.guest_call (.function 7) 0] } := by
  decide

/-- C19 (amended): whenever guest code run by the callback wrapper fails with
the out-of-memory status and LUVF_CALLBACK_NOEXIT is not among the flags, the
failure is fatal: the out-of-memory diagnostic and a newline are written with
mch_errmsg, then the process exits through preserve_exit; no error task is
queued and the wrapper does not return. -/
theorem nlua_luv_cfpcall_errmem_fatal (st : State) (nargs : Nat) (nresult : Int) (flags : Nat)
    (callee : Guest) (s1 : State)
    (hmem : lua_pcall (ctx_enter st) nargs nresult callee = .ret LUA_ERRMEM s1)
    (hflag : flags &&& LUVF_CALLBACK_NOEXIT = 0) :
    nlua_luv_cfpcall st nargs nresult flags callee
      = .exit
          { s1 with
            log := s1.log ++ [.mch_errmsg e_outofmem, .mch_errmsg "\n", .preserve_exit] } := by
  have hrun : lua_pcall_run (fun s => run_guest s callee) (ctx_enter st) nargs nresult
      = .ret LUA_ERRMEM s1 := hmem
  unfold nlua_luv_cfpcall nlua_luv_cfpcall_run
  dsimp only
  rw [hrun]
  have h4 : LUA_ERRMEM ≠ 0 := by decide
  simp [Outcome.bind, h4, hflag, State.emit]

theorem nlua_luv_cfpcall_errmem_fatal_witness :
    nlua_luv_cfpcall { State.init with stack := [.function 7] } 0 0 0
        (.fail .ERRMEM (.string [111]))
      = .exit
          { State.init with
            in_fast_callback := 1
            stack := [.string [111]]
            log := [.guest_call (.function 7) 0, .mch_errmsg e_outofmem, .mch_errmsg "\n",
                    .preserve_exit] } :=
  nlua_luv_cfpcall_errmem_fatal { State.init with stack := [.function 7] } 0 0 0
    (.fail .ERRMEM (.string [111]))
    { State.init with
      in_fast_callback := 1
      stack := [.string [111]]
      log := [.guest_call (.function 7) 0] } (by decide) (by decide)

/-- C13 (the code at the failing input): a callback that raises a table as its
error value (the Lua call error with a table argument).  lua_tostring gives NULL for a table, and
nlua_luv_cfpcall hands that NULL to xstrdup (executor.c:207-210): the behaviour
is undefined, no task is queued, the error value stays on the stack and the
counter is not restored. -/
theorem nlua_luv_cfpcall_error_without_text :
    nlua_luv_cfpcall { State.init with stack := [.function 7] } 0 0 0
        (.fail .ERRRUN (.table 1 none))
      = .undefined
          { State.init with
            in_fast_callback := 1
            stack := [.table 1 none]
            log := [.guest_call (.function 7) 0] } := by
  decide

/-- When guest code run by the callback wrapper fails with a status that is not
fatal and the error value has a text (it is a string or a number), the wrapper
queues exactly one nlua_luv_error_event task with a copy of the text, pops the
error value, restores the counter and returns the negated status, a negative
number; what the run added to the log are effects of guest code only, so no
message is displayed by the wrapper; the message is displayed when the task
runs: nlua_luv_error_event shows the text and frees the copy. -/
theorem nlua_luv_cfpcall_error_deferred (st : State) (nargs : Nat) (nresult : Int)
    (flags : Nat) (callee : Guest) (status : Int) (s1 : State) (error : Bytes)
    (herr : lua_pcall (ctx_enter st) nargs nresult callee = .ret status s1)
    (hs : status ≠ 0)
    (hnf : ¬ (status = LUA_ERRMEM ∧ flags &&& LUVF_CALLBACK_NOEXIT = 0))
    (htext : lua_tolstring (s1.stack.headD .nil) = some error) :
    nlua_luv_cfpcall st nargs nresult flags callee
      = .ret (-status)
          { s1 with
            in_fast_callback := s1.in_fast_callback - 1
            stack := s1.stack.tail
            events := s1.events ++ [.nlua_luv_error_event (c_str error)] }
    ∧ (∃ e, callee.result = .err e (s1.stack.headD .nil) ∧ status = e.code ∧ - status < 0)
    ∧ (∃ new, s1.log = st.log ++ new ∧ ∀ e ∈ new, Effect.of_guest_run e = true)
    ∧ ∀ s : State, (nlua_luv_error_event s (c_str error)).log
        = s.log ++ [.msg_ext_set_kind "lua_error",
            .emsgf_multiline "Error executing luv callback:\n%s" (some (c_str error)),
            .xfree (c_str error)] := by
  have hrun : lua_pcall_run (fun s => run_guest s callee) (ctx_enter st) nargs nresult
      = .ret status s1 := herr
  refine ⟨?_, ?_, ?_, ?_⟩
  · unfold nlua_luv_cfpcall nlua_luv_cfpcall_run
    dsimp only
    rw [hrun]
    simp only [Outcome.bind]
    rw [if_pos hs, if_neg hnf, htext]
    rfl
  · obtain ⟨_, hm⟩ := lua_pcall_ret _ _ _ _ _ _ herr
    cases hg : callee.result with
    | ok results =>
      rw [hg] at hm
      exact absurd hm.1 hs
    | err e v =>
      rw [hg] at hm
      refine ⟨e, ?_, hm.1, ?_⟩
      · rw [hm.2]; rfl
      · rw [hm.1]
        cases e <;> decide
  · obtain ⟨new, hlog, hnew⟩ := lua_pcall_log (ctx_enter st) nargs nresult callee
    rw [herr] at hlog
    refine ⟨[Effect.guest_call ((ctx_enter st).stack.getD nargs LuaValue.nil) nargs] ++ new, ?_, ?_⟩
    · rw [← List.append_assoc]
      exact hlog
    · intro e he
      rcases List.mem_append.mp he with he | he
      · simp only [List.mem_singleton] at he
        rw [he]; rfl
      · exact hnew e he
  · intro s
    simp [nlua_luv_error_event, State.emit]

theorem nlua_luv_cfpcall_error_deferred_witness :
    nlua_luv_cfpcall { State.init with stack := [.function 7] } 0 0 0
        (.fail .ERRRUN (.string [111]))
      = .ret (-2)
          { State.init with
            events := [.nlua_luv_error_event [111]]
            log := [.guest_call (.function 7) 0] } :=
  (nlua_luv_cfpcall_error_deferred { State.init with stack := [.function 7] } 0 0 0
    (.fail .ERRRUN (.string [111])) 2
    { State.init with
      in_fast_callback := 1
      stack := [.string [111]]
      log := [.guest_call (.function 7) 0] } [111] (by decide) (by decide) (by decide)
    (by decide)).1

/-! ### The timer of the blocking wait -/

theorem nlua_wait_condition_log (st : State) (args : List LuaValue) (g : Guest) (w : WaitVars) :
    GuestLog st (nlua_wait_condition st args g w) := by
  obtain ⟨new, hlog, hnew⟩ := lua_pcall_log (st.push (lua_index args 2)) 0 1 g
  have e1 : (st.push (lua_index args 2)).log = st.log := rfl
  rw [e1, List.append_assoc] at hlog
  have hnew1 : ∀ e ∈ [Effect.guest_call ((st.push (lua_index args 2)).stack.getD 0 LuaValue.nil) 0]
      ++ new, Effect.of_guest_run e = true := by
    intro e he
    rcases List.mem_append.mp he with he | he
    · simp only [List.mem_singleton] at he
      rw [he]; rfl
    · exact hnew e he
  unfold nlua_wait_condition
  dsimp only
  cases hres : lua_pcall (st.push (lua_index args 2)) 0 1 g with
  | ret status s1 =>
    rw [hres] at hlog
    simp only [Outcome.state] at hlog
    simp only [Outcome.bind]
    by_cases hs : status ≠ 0
    · rw [if_pos hs]
      exact ⟨_, hlog, hnew1⟩
    · rw [if_neg hs]
      exact ⟨_, hlog, hnew1⟩
  | raise e s1 => rw [hres] at hlog; exact ⟨_, hlog, hnew1⟩
  | exit s1 => rw [hres] at hlog; exact ⟨_, hlog, hnew1⟩
  | undefined s1 => rw [hres] at hlog; exact ⟨_, hlog, hnew1⟩

theorem wait_loop_log (args : List LuaValue) (cond : Nat → Guest) (pump : Nat → Pump) :
    ∀ (fuel : Nat) (st : State) (remaining : Int) (w : WaitVars) (o : Outcome WaitVars),
      LOOP_PROCESS_EVENTS_UNTIL args cond pump fuel st remaining w = some o →
      GuestLog st o := by
  intro fuel
  induction fuel with
  | zero => intro st remaining w o he; simp [LOOP_PROCESS_EVENTS_UNTIL] at he
  | succ f ih =>
    intro st remaining w o he
    obtain ⟨new, hlog, hnew⟩ := nlua_wait_condition_log st args (cond w.evals) w
    unfold LOOP_PROCESS_EVENTS_UNTIL at he
    cases hc : nlua_wait_condition st args (cond w.evals) w with
    | ret p st1 =>
      obtain ⟨stop, wa⟩ := p
      rw [hc] at he hlog
      simp only [Outcome.state] at hlog
      dsimp only at he
      have step : ∀ (s2 : State), s2.log = st1.log → ∀ r,
          LOOP_PROCESS_EVENTS_UNTIL args cond pump f s2 r wa = some o → GuestLog st o := by
        intro s2 hs2 r hr
        obtain ⟨new2, hlog2, hnew2⟩ := ih s2 r wa o hr
        rw [hs2, hlog, List.append_assoc] at hlog2
        refine ⟨new ++ new2, hlog2, ?_⟩
        intro e hmem
        rcases List.mem_append.mp hmem with hmem | hmem
        · exact hnew e hmem
        · exact hnew2 e hmem
      split_ifs at he with h1 h2 h3 h4
      · simp only [Option.some.injEq] at he
        rw [← he]
        exact ⟨new, hlog, hnew⟩
      · simp only [Option.some.injEq] at he
        rw [← he]
        exact ⟨new, hlog, hnew⟩
      · simp only [Option.some.injEq] at he
        rw [← he]
        exact ⟨new, hlog, hnew⟩
      · refine step _ ?_ _ he
        rfl
      · refine step _ ?_ _ he
        rfl
    | raise e s2 =>
      rw [hc] at he hlog
      simp only [Option.some.injEq] at he
      rw [← he]
      exact ⟨new, hlog, hnew⟩
    | exit s2 =>
      rw [hc] at he hlog
      simp only [Option.some.injEq] at he
      rw [← he]
      exact ⟨new, hlog, hnew⟩
    | undefined s2 =>
      rw [hc] at he hlog
      simp only [Option.some.injEq] at he
      rw [← he]
      exact ⟨new, hlog, hnew⟩

theorem nlua_wait_finish_log (s : State) (w : WaitVars) :
    ∃ tail, (nlua_wait_finish s w).state.log
        = s.log ++ [.time_watcher_stop, .time_watcher_close] ++ tail
      ∧ (tail = [] ∨ tail = [.vgetc]) := by
  unfold nlua_wait_finish
  dsimp only
  split_ifs
  · exact ⟨[], by simp [Outcome.state, State.emit, State.pop], Or.inl rfl⟩
  · exact ⟨[], by simp [Outcome.state, State.emit], Or.inl rfl⟩
  · exact ⟨[.vgetc], by simp [Outcome.state, State.emit], Or.inr rfl⟩
  · exact ⟨[], by simp [Outcome.state, State.emit], Or.inl rfl⟩

theorem nlua_wait_invalid (h : Host) (st : State) (args : List LuaValue) (cond : Nat → Guest)
    (pump : Nat → Pump) (fuel : Nat)
    (hbad : ¬ ∃ timeout interval, WaitArgsOk h args timeout interval) :
    ∃ e, nlua_wait h st args cond pump fuel = some (.raise e st) := by
  unfold nlua_wait
  cases ht : luaL_checkinteger h args 1 with
  | none => exact ⟨_, rfl⟩
  | some timeout =>
    dsimp only
    by_cases hneg : timeout < 0
    · rw [if_pos hneg]
      exact ⟨_, rfl⟩
    · rw [if_neg hneg]
      by_cases hf : nlua_wait_is_function args = true
      · rw [hf]
        simp only [Bool.not_true, Bool.false_eq_true, if_false]
        cases hi : nlua_wait_interval h args with
        | none => exact ⟨_, rfl⟩
        | some interval =>
          dsimp only
          by_cases hin : interval < 0
          · rw [if_pos hin]
            exact ⟨_, rfl⟩
          · exact absurd ⟨timeout, interval, ht, by omega, hf, hi, by omega⟩ hbad
      · have hf2 : nlua_wait_is_function args = false := by simpa using hf
        rw [hf2]
        exact ⟨_, rfl⟩

/-- C20: when the arguments of vim.wait pass validation, the timer is started,
and on every exit of wait to its caller (Satisfied, TimedOut, Interrupted,
ConditionError) the log since the call is: the start of the timer, effects of
the guest code of the condition only, then time_watcher_stop and
time_watcher_close, then at most the vgetc of the interrupted exit; so the timer
was started once and stopped once and closed once, in that order, before the
exit.  When the arguments fail validation, wait raises with the state, and so
the log, exactly as it was: no timer was started. -/
theorem nlua_wait_timer_released (h : Host) (st : State) (args : List LuaValue)
    (cond : Nat → Guest) (pump : Nat → Pump) (fuel : Nat) :
    (∀ timeout interval, WaitArgsOk h args timeout interval →
      ∀ o, nlua_wait h st args cond pump fuel = some o → WaitOutcome.of o ≠ none →
        ∃ mid tail, o.state.log
            = st.log ++ [.time_watcher_start (uint64_cast interval) (uint64_cast interval)]
                ++ mid ++ [.time_watcher_stop, .time_watcher_close] ++ tail
          ∧ (∀ e ∈ mid, Effect.of_guest_run e = true)
          ∧ (tail = [] ∨ tail = [.vgetc]))
    ∧ ((¬ ∃ timeout interval, WaitArgsOk h args timeout interval) →
        ∃ e, nlua_wait h st args cond pump fuel = some (.raise e st)) := by
  refine ⟨fun timeout interval hv o ho hk => ?_, nlua_wait_invalid h st args cond pump fuel⟩
  rw [nlua_wait_eq h st args cond pump fuel timeout interval hv] at ho
  cases hl : LOOP_PROCESS_EVENTS_UNTIL args cond pump fuel
      (st.emit (.time_watcher_start (uint64_cast interval) (uint64_cast interval)))
      (int_cast timeout) ⟨0, false, 0⟩ with
  | none => rw [hl] at ho; simp at ho
  | some lo =>
    rw [hl] at ho
    simp only [Option.map_some', Option.some.injEq] at ho
    obtain ⟨mid, hmid, hguest⟩ := wait_loop_log _ _ _ _ _ _ _ _ hl
    cases lo with
    | ret w s1 =>
      simp only [Outcome.bind] at ho
      simp only [Outcome.state] at hmid
      obtain ⟨tail, htail, hshape⟩ := nlua_wait_finish_log s1 w
      rw [ho, hmid] at htail
      exact ⟨mid, tail, by simpa [State.emit, List.append_assoc] using htail, hguest, hshape⟩
    | raise e s1 => exact absurd hl (wait_loop_no_raise _ _ _ _ _ _ _ _ _)
    | exit s1 =>
      simp only [Outcome.bind] at ho
      rw [← ho] at hk
      exact absurd rfl hk
    | undefined s1 =>
      simp only [Outcome.bind] at ho
      rw [← ho] at hk
      exact absurd rfl hk

theorem nlua_wait_timer_released_witness :
    (nlua_wait Host.demo State.init [.number 100, .function 1]
        (fun _ => .ok [.boolean false]) (fun _ => ⟨60, false⟩) 5).map
      (fun o => o.state.log)
      = some [.time_watcher_start 200 200, .guest_call (.function 1) 0,
          .guest_call (.function 1) 0,
          .time_watcher_stop, .time_watcher_close]
    ∧ ∃ mid tail,
        [Effect.time_watcher_start 200 200, .guest_call (.function 1) 0,
          .guest_call (.function 1) 0,
          .time_watcher_stop, .time_watcher_close]
          = State.init.log ++ [.time_watcher_start (uint64_cast 200) (uint64_cast 200)]
              ++ mid ++ [.time_watcher_stop, .time_watcher_close] ++ tail
        ∧ (∀ e ∈ mid, Effect.of_guest_run e = true)
        ∧ (tail = [] ∨ tail = [.vgetc]) :=
  ⟨by decide,
    (nlua_wait_timer_released Host.demo State.init [.number 100, .function 1]
      (fun _ => .ok [.boolean false]) (fun _ => ⟨60, false⟩) 5).1 100 200 (by decide)
      (.ret [.boolean false, .number (-1)]
        { State.init with
          log := [.time_watcher_start 200 200, .guest_call (.function 1) 0,
            .guest_call (.function 1) 0,
            .time_watcher_stop, .time_watcher_close] })
      (by decide) (by decide)⟩

/-! ### Releasing a reference twice -/

theorem lookup_filter_ne (n m : Int) (hne : m ≠ n) :
    ∀ l : List (Int × LuaValue), (l.filter (fun kv => kv.1 != n)).lookup m = l.lookup m := by
  intro l
  induction l with
  | nil => rfl
  | cons kv rest ih =>
    obtain ⟨k, v⟩ := kv
    by_cases hk : k = n
    · subst hk
      have hmk : (m == k) = false := by simp [hne]
      simp [List.filter_cons, List.lookup_cons, hmk, ih]
    · have hf : (k != n) = true := by simp [hk]
      rw [List.filter_cons]
      simp only [hf, if_true, List.lookup_cons, ih]

theorem rawgeti_rawseti_other (r : Registry) (n m : Int) (v : LuaValue) (hne : m ≠ n) :
    (r.rawseti n v).rawgeti m = r.rawgeti m := by
  have hmn : (m == n) = false := by simp [hne]
  unfold Registry.rawseti Registry.rawgeti
  dsimp only
  split_ifs
  · rw [lookup_filter_ne n m hne]
  · rw [List.lookup_cons, hmn]
    dsimp only
    rw [lookup_filter_ne n m hne]

theorem int_cast_id (r : Int) (h0 : 0 < r) (h1 : r < 2147483648) : int_cast r = r := by
  unfold int_cast
  omega

theorem luaL_ref_of_free (h : Host) (R : Registry) (v : LuaValue) (r : Int)
    (hv : v ≠ .nil) (hfree : R.rawgeti FREELIST_REF = .number r)
    (h0 : 0 < r) (h1 : r < 2147483648) :
    luaL_ref h R v = (r, (R.rawseti FREELIST_REF (R.rawgeti r)).rawseti r v) := by
  have hr : int_cast r ≠ 0 := by rw [int_cast_id r h0 h1]; omega
  unfold luaL_ref
  rw [if_neg hv, hfree]
  simp only [lua_tointeger]
  rw [if_pos hr, int_cast_id r h0 h1]

theorem luaL_unref_eq (R : Registry) (r : Int) (hge : r ≥ 0) :
    luaL_unref R r
      = (R.rawseti r (R.rawgeti FREELIST_REF)).rawseti FREELIST_REF (.number r) := by
  unfold luaL_unref
  rw [if_pos hge]

theorem luaL_unref_twice (R : Registry) (r : Int) (h0 : 0 < r) :
    (luaL_unref (luaL_unref R r) r).rawgeti r = .number r
    ∧ (luaL_unref (luaL_unref R r) r).rawgeti FREELIST_REF = .number r := by
  have hge : r ≥ 0 := by omega
  have hne : r ≠ FREELIST_REF := by unfold FREELIST_REF; omega
  have hnum : LuaValue.number r ≠ .nil := by simp
  have hfirst : (luaL_unref R r).rawgeti FREELIST_REF = .number r := by
    rw [luaL_unref_eq R r hge]
    exact rawgeti_rawseti_self _ _ _ hnum
  obtain ⟨R1, hR1⟩ : ∃ R1 : Registry, R1 = luaL_unref R r := ⟨_, rfl⟩
  rw [← hR1] at hfirst ⊢
  rw [luaL_unref_eq R1 r hge, hfirst]
  constructor
  · rw [rawgeti_rawseti_other _ _ _ _ hne]
    exact rawgeti_rawseti_self _ _ _ hnum
  · exact rawgeti_rawseti_self _ _ _ hnum

/-- C14 (as stated, refuted): register a function, release its handle, release
it again.  The second release changes the registry (slot 1 now holds the number
1), and the next two register calls both return the handle 1: two live
references share one handle, and the value registered first is lost. -/
theorem nlua_unref_twice_counterexample :
    (nlua_ref Host.demo State.init (.function 7)).1 = 1
    ∧ (nlua_unref (nlua_unref (nlua_ref Host.demo State.init (.function 7)).2 1) 1).registry
        ≠ (nlua_unref (nlua_ref Host.demo State.init (.function 7)).2 1).registry
    ∧ (nlua_ref Host.demo
        (nlua_unref (nlua_unref (nlua_ref Host.demo State.init (.function 7)).2 1) 1)
        (.function 8)).1 = 1
    ∧ (nlua_ref Host.demo
        (nlua_ref Host.demo
          (nlua_unref (nlua_unref (nlua_ref Host.demo State.init (.function 7)).2 1) 1)
          (.function 8)).2
        (.function 9)).1 = 1
    ∧ (nlua_ref Host.demo
        (nlua_ref Host.demo
          (nlua_unref (nlua_unref (nlua_ref Host.demo State.init (.function 7)).2 1) 1)
          (.function 8)).2
        (.function 9)).2.registry.rawgeti 1 = .function 9 := by
  decide

/-- C14 (amended): a second release of a handle r > 0 does not raise (nlua_unref
is total), but it is not a no-op: both releases reach luaL_unref, and after the
second one slot r holds the number r and heads the free list.  From then on
register returns r for one value after the other: for all values a and b that
are not nil, registering a and then b gives the handle r twice, and r resolves
to b alone. -/
theorem nlua_unref_twice (h : Host) (st : State) (r : Int) (a b : LuaValue)
    (h0 : 0 < r) (h1 : r < 2147483648) (ha : a ≠ .nil) (hb : b ≠ .nil) :
    (nlua_unref (nlua_unref st r) r).log = st.log ++ [.luaL_unref r, .luaL_unref r]
    ∧ (nlua_unref (nlua_unref st r) r).registry.rawgeti r = .number r
    ∧ (nlua_unref (nlua_unref st r) r).registry.rawgeti FREELIST_REF = .number r
    ∧ (nlua_ref h (nlua_unref (nlua_unref st r) r) a).1 = r
    ∧ (nlua_ref h (nlua_ref h (nlua_unref (nlua_unref st r) r) a).2 b).1 = r
    ∧ (nlua_ref h (nlua_ref h (nlua_unref (nlua_unref st r) r) a).2 b).2.registry.rawgeti r = b
    := by
  have hgt : r > 0 := h0
  have hne : FREELIST_REF ≠ r := by unfold FREELIST_REF; omega
  have hnum : LuaValue.number r ≠ .nil := by simp
  obtain ⟨hslot, hfree⟩ := luaL_unref_twice st.registry r h0
  have hreg : (nlua_unref (nlua_unref st r) r).registry
      = luaL_unref (luaL_unref st.registry r) r := by
    simp [nlua_unref, hgt]
  have hlog : (nlua_unref (nlua_unref st r) r).log
      = st.log ++ [.luaL_unref r, .luaL_unref r] := by
    simp [nlua_unref, hgt]
  have hra : luaL_ref h (nlua_unref (nlua_unref st r) r).registry a
      = (r, ((luaL_unref (luaL_unref st.registry r) r).rawseti FREELIST_REF
              ((luaL_unref (luaL_unref st.registry r) r).rawgeti r)).rawseti r a) := by
    rw [hreg]
    exact luaL_ref_of_free h _ a r ha hfree h0 h1
  have hfree2 : (((luaL_unref (luaL_unref st.registry r) r).rawseti FREELIST_REF
      ((luaL_unref (luaL_unref st.registry r) r).rawgeti r)).rawseti r a).rawgeti FREELIST_REF
      = .number r := by
    rw [rawgeti_rawseti_other _ _ _ _ hne, hslot]
    exact rawgeti_rawseti_self _ _ _ hnum
  have hrb := luaL_ref_of_free h _ b r hb hfree2 h0 h1
  refine ⟨hlog, by rw [hreg]; exact hslot, by rw [hreg]; exact hfree, ?_, ?_, ?_⟩
  · simp only [nlua_ref, hra]
  · simp only [nlua_ref, hra, hrb]
  · simp only [nlua_ref, hra, hrb]
    exact rawgeti_rawseti_self _ _ _ hb

theorem nlua_unref_twice_witness :
    (nlua_ref Host.demo (nlua_unref (nlua_unref State.ready 1) 1) (.function 8)).1 = 1
    ∧ (nlua_ref Host.demo
        (nlua_ref Host.demo (nlua_unref (nlua_unref State.ready 1) 1) (.function 8)).2
        (.function 9)).1 = 1 :=
  ⟨(nlua_unref_twice Host.demo State.ready 1 (.function 8) (.function 9) (by decide)
      (by decide) (by decide) (by decide)).2.2.2.1,
   (nlua_unref_twice Host.demo State.ready 1 (.function 8) (.function 9) (by decide)
      (by decide) (by decide) (by decide)).2.2.2.2.1⟩

/-! ### Guest code leaves the interpreter part of the state alone -/

theorem lua_pcall_run_keeps (run : State → Outcome PcallResult)
    (hrun : ∀ s, GuestKeeps s (run s)) (st : State) (nargs : Nat) (nresults : Int) :
    GuestKeeps st (lua_pcall_run run st nargs nresults) := by
  unfold lua_pcall_run
  dsimp only
  obtain ⟨s0, hs0⟩ : ∃ s0 : State, s0 =
      { st with
        stack := st.stack.drop (nargs + 1),
        log := st.log ++ [Effect.guest_call (st.stack.getD nargs LuaValue.nil) nargs] } :=
    ⟨_, rfl⟩
  rw [← hs0]
  have e1 : s0.kept = st.kept := by rw [hs0]; rfl
  have hk : (run s0).state.kept = s0.kept := hrun s0
  rw [e1] at hk
  unfold GuestKeeps
  cases hres : run s0 with
  | ret r s1 =>
    rw [hres] at hk
    cases r <;> exact hk
  | raise e s1 => rw [hres] at hk; exact hk
  | exit s1 => rw [hres] at hk; exact hk
  | undefined s1 => rw [hres] at hk; exact hk

theorem nlua_luv_cfpcall_run_keeps (run : State → Outcome PcallResult)
    (hrun : ∀ s, GuestKeeps s (run s)) (st : State) (nargs : Nat) (nresult : Int)
    (flags : Nat) : GuestKeeps st (nlua_luv_cfpcall_run run st nargs nresult flags) := by
  have hk : (lua_pcall_run run (ctx_enter st) nargs nresult).state.kept = (ctx_enter st).kept :=
    lua_pcall_run_keeps run hrun (ctx_enter st) nargs nresult
  have e1 : (ctx_enter st).kept = st.kept := rfl
  rw [e1] at hk
  unfold GuestKeeps nlua_luv_cfpcall_run
  dsimp only
  cases hres : lua_pcall_run run (ctx_enter st) nargs nresult with
  | ret status s1 =>
    rw [hres] at hk
    simp only [Outcome.state] at hk
    simp only [Outcome.bind]
    by_cases hs : status ≠ 0
    · rw [if_pos hs]
      by_cases hm : status = LUA_ERRMEM ∧ flags &&& LUVF_CALLBACK_NOEXIT = 0
      · rw [if_pos hm]
        exact hk
      · rw [if_neg hm]
        cases hts : lua_tolstring (s1.stack.headD .nil) with
        | none => exact hk
        | some error => exact hk
    · rw [if_neg hs]
      exact hk
  | raise e s1 => rw [hres] at hk; exact hk
  | exit s1 => rw [hres] at hk; exact hk
  | undefined s1 => rw [hres] at hk; exact hk

theorem run_guest_keeps (g : Guest) : ∀ st, GuestKeeps st (run_guest st g) := by
  induction g with
  | ok results => intro st; rfl
  | fail status err => intro st; rfl
  | tick k ih =>
    intro st
    unfold run_guest
    exact ih _
  | callback f args nresult flags callee k ihc ihk =>
    intro st
    obtain ⟨s1, hs1⟩ : ∃ s1 : State, s1 =
        { st with stack := args.reverse ++ f :: st.stack, frames := st.frames + 1 } := ⟨_, rfl⟩
    have e1 : s1.kept = st.kept := by rw [hs1]; rfl
    have hk : (nlua_luv_cfpcall_run (fun s => run_guest s callee) s1 args.length nresult
        flags).state.kept = s1.kept :=
      nlua_luv_cfpcall_run_keeps (fun s => run_guest s callee) ihc s1 args.length nresult flags
    rw [e1] at hk
    unfold GuestKeeps run_guest
    dsimp only
    rw [← hs1]
    cases hres : nlua_luv_cfpcall_run (fun s => run_guest s callee) s1 args.length nresult flags with
    | ret a s2 =>
      rw [hres] at hk
      simp only [Outcome.state] at hk
      obtain ⟨s3, hs3⟩ : ∃ s3 : State, s3 = { s2 with frames := st.frames } := ⟨_, rfl⟩
      have f1 : s3.kept = st.kept := by rw [hs3]; exact hk
      have hk2 : (run_guest s3 k).state.kept = s3.kept := ihk s3
      rw [f1] at hk2
      simp only [Outcome.bind]
      rw [← hs3]
      exact hk2
    | raise e s2 => rw [hres] at hk; exact hk
    | exit s2 => rw [hres] at hk; exact hk
    | undefined s2 => rw [hres] at hk; exact hk

theorem lua_pcall_keeps (st : State) (nargs : Nat) (nresults : Int) (g : Guest) :
    (lua_pcall st nargs nresults g).state.kept = st.kept :=
  lua_pcall_run_keeps (fun s => run_guest s g) (run_guest_keeps g) st nargs nresults

theorem lua_pcall_interp (st : State) (nargs : Nat) (nresults : Int) (g : Guest) :
    (lua_pcall st nargs nresults g).state.interp = st.interp :=
  congrArg Prod.fst (lua_pcall_keeps st nargs nresults g)

theorem nlua_error_interp (st : State) (msg : String) :
    (nlua_error st msg).interp = st.interp := rfl

theorem nlua_error_log (st : State) (msg : String) :
    (nlua_error st msg).log
      = st.log ++ [.msg_ext_set_kind "lua_error",
          .emsgf_multiline msg (lua_tolstring (st.stack.headD .nil))] := by
  simp [nlua_error, State.emit, State.pop]

/-! ### The search path is synchronised when its identity changes -/

theorem nlua_enter_rtp_same (h : Host) (st : State) (hs : st.last_p_rtp = some st.p_rtp) :
    nlua_enter_rtp h st = .ret () st := by
  unfold nlua_enter_rtp
  rw [if_neg (by simp [hs])]

theorem nlua_enter_rtp_shape (h : Host) (st : State) (hd : st.last_p_rtp ≠ some st.p_rtp) :
    ∃ sp : State, sp.log = st.log ∧ sp.interp = st.interp
      ∧ sp.stack.getD 0 .nil = (if st.vim_loaded then LuaValue.function 2 else LuaValue.nil)
      ∧ nlua_enter_rtp h st
        = (lua_pcall sp 0 0 (update_package_paths h st)).bind fun status s =>
            .ret ()
              { (if status ≠ 0 then
                    nlua_error s "E5117: Error while updating package paths: %.*s"
                  else s).pop with
                last_p_rtp := some s.p_rtp } := by
  refine ⟨(st.push vim_table).push (if st.vim_loaded then LuaValue.function 2 else LuaValue.nil),
    rfl, rfl, rfl, ?_⟩
  unfold nlua_enter_rtp
  rw [if_pos hd]
  dsimp only
  congr 1
  funext status s
  by_cases hs : status ≠ 0
  · simp only [if_pos hs]
    rfl
  · simp only [if_neg hs]
    rfl

theorem nlua_enter_rtp_no_raise (h : Host) (st : State) (e : LuaErr) (s : State) :
    nlua_enter_rtp h st ≠ .raise e s := by
  by_cases hd : st.last_p_rtp = some st.p_rtp
  · rw [nlua_enter_rtp_same h st hd]
    exact Outcome.noConfusion
  · obtain ⟨sp, _, _, _, heq⟩ := nlua_enter_rtp_shape h st hd
    rw [heq]
    cases hres : lua_pcall sp 0 0 (update_package_paths h st) with
    | ret status s1 => simp [Outcome.bind]
    | raise e1 s1 => exact absurd hres (lua_pcall_no_raise _ _ _ _ _ _)
    | exit s1 => simp [Outcome.bind]
    | undefined s1 => simp [Outcome.bind]

theorem nlua_enter_rtp_keeps (h : Host) (st : State) :
    (nlua_enter_rtp h st).state.interp = st.interp := by
  by_cases hd : st.last_p_rtp = some st.p_rtp
  · rw [nlua_enter_rtp_same h st hd]
    rfl
  · obtain ⟨sp, _, hint, _, heq⟩ := nlua_enter_rtp_shape h st hd
    have hk := lua_pcall_interp sp 0 0 (update_package_paths h st)
    rw [hint] at hk
    rw [heq]
    cases hres : lua_pcall sp 0 0 (update_package_paths h st) with
    | ret status s1 =>
      rw [hres] at hk
      simp only [Outcome.state] at hk
      simp only [Outcome.bind, Outcome.state]
      rw [← hk]
      by_cases hs : status ≠ 0
      · simp only [if_pos hs]
        rfl
      · simp only [if_neg hs]
        rfl
    | raise e1 s1 => rw [hres] at hk; exact hk
    | exit s1 => rw [hres] at hk; exact hk
    | undefined s1 => rw [hres] at hk; exact hk

theorem nlua_enter_rtp_ret (h : Host) (st s1 : State) (he : nlua_enter_rtp h st = .ret () s1) :
    s1.last_p_rtp = some st.p_rtp := by
  by_cases hd : st.last_p_rtp = some st.p_rtp
  · rw [nlua_enter_rtp_same h st hd] at he
    simp only [Outcome.ret.injEq, true_and] at he
    rw [← he]
    exact hd
  · obtain ⟨sp, _, hint, _, heq⟩ := nlua_enter_rtp_shape h st hd
    have hk := lua_pcall_interp sp 0 0 (update_package_paths h st)
    rw [hint] at hk
    rw [heq] at he
    cases hres : lua_pcall sp 0 0 (update_package_paths h st) with
    | ret status s2 =>
      rw [hres] at hk he
      simp only [Outcome.state] at hk
      simp only [Outcome.bind, Outcome.ret.injEq, true_and] at he
      have hp : s2.p_rtp = st.p_rtp := congrArg (fun t => t.2.2.1) hk
      rw [← he]
      exact congrArg some hp
    | raise e1 s2 => rw [hres] at he; simp [Outcome.bind] at he
    | exit s2 => rw [hres] at he; simp [Outcome.bind] at he
    | undefined s2 => rw [hres] at he; simp [Outcome.bind] at he

/-- The effects that the second half of nlua_enter can add to the log after the
call of the routine: effects of guest code, and the report of a failure. -/
theorem nlua_enter_rtp_log (h : Host) (st : State) (hd : st.last_p_rtp ≠ some st.p_rtp) :
    ∃ new, (nlua_enter_rtp h st).state.log
        = st.log ++ [.guest_call (if st.vim_loaded then LuaValue.function 2 else LuaValue.nil) 0]
            ++ new
      ∧ ∀ e ∈ new, Effect.of_guest_run e = true ∨ e = .msg_ext_set_kind "lua_error"
          ∨ ∃ t, e = .emsgf_multiline "E5117: Error while updating package paths: %.*s" t := by
  obtain ⟨sp, hlogsp, _, htop, heq⟩ := nlua_enter_rtp_shape h st hd
  obtain ⟨new, hlog, hnew⟩ := lua_pcall_log sp 0 0 (update_package_paths h st)
  rw [hlogsp, htop] at hlog
  rw [heq]
  have hg : ∀ e ∈ new, Effect.of_guest_run e = true ∨ e = .msg_ext_set_kind "lua_error"
      ∨ ∃ t, e = .emsgf_multiline "E5117: Error while updating package paths: %.*s" t :=
    fun e he => Or.inl (hnew e he)
  cases hres : lua_pcall sp 0 0 (update_package_paths h st) with
  | ret status s1 =>
    rw [hres] at hlog
    simp only [Outcome.state] at hlog
    simp only [Outcome.bind, Outcome.state]
    by_cases hs : status ≠ 0
    · simp only [if_pos hs]
      refine ⟨new ++ [.msg_ext_set_kind "lua_error",
        .emsgf_multiline "E5117: Error while updating package paths: %.*s"
          (lua_tolstring (s1.stack.headD .nil))], ?_, ?_⟩
      · show (nlua_error s1 "E5117: Error while updating package paths: %.*s").log = _
        rw [nlua_error_log, hlog, List.append_assoc]
      · intro e he
        rcases List.mem_append.mp he with he | he
        · exact hg e he
        · simp only [List.mem_cons, List.mem_singleton, List.not_mem_nil, or_false] at he
          rcases he with he | he
          · exact Or.inr (Or.inl he)
          · exact Or.inr (Or.inr ⟨_, he⟩)
    · simp only [if_neg hs]
      exact ⟨new, hlog, hg⟩
  | raise e1 s1 => rw [hres] at hlog; exact ⟨new, hlog, hg⟩
  | exit s1 => rw [hres] at hlog; exact ⟨new, hlog, hg⟩
  | undefined s1 => rw [hres] at hlog; exact ⟨new, hlog, hg⟩

theorem nlua_enter_of_interpreter (h : Host) (st : State) (hl : st.global_lstate = true) :
    nlua_enter h st = nlua_enter_rtp h st := by
  unfold nlua_enter
  rw [if_pos hl]
  rfl

/-! ### The creation of the interpreter and its bootstrap scripts -/

theorem kept_fields (a b : State) (hk : a.kept = b.kept) :
    a.registry = b.registry ∧ a.global_lstate = b.global_lstate ∧ a.p_rtp = b.p_rtp
    ∧ a.shared_loaded = b.shared_loaded ∧ a.vim_loaded = b.vim_loaded
    ∧ a.last_p_rtp = b.last_p_rtp := by
  simp only [State.kept, State.interp, Prod.mk.injEq] at hk
  obtain ⟨⟨h1, h2, h3, h4, h5⟩, h6⟩ := hk
  exact ⟨h1, h2, h3, h4, h5, h6⟩

theorem nlua_bootstrap_kept (s : State) (chunk : Except LuaValue Guest) (id : Nat)
    (msg : String) : (nlua_bootstrap s chunk id msg).state.kept = s.kept := by
  unfold nlua_bootstrap
  cases chunk with
  | error e => rfl
  | ok body =>
    dsimp only
    have hk := lua_pcall_keeps (s.push (.function id)) 0 0 body
    have e1 : (s.push (.function id)).kept = s.kept := rfl
    rw [e1] at hk
    cases hres : lua_pcall (s.push (.function id)) 0 0 body with
    | ret status s1 =>
      rw [hres] at hk
      simp only [Outcome.state] at hk
      simp only [Outcome.bind]
      by_cases hs : status ≠ 0
      · rw [if_pos hs]
        exact hk
      · rw [if_neg hs]
        exact hk
    | raise e1 s1 => rw [hres] at hk; exact hk
    | exit s1 => rw [hres] at hk; exact hk
    | undefined s1 => rw [hres] at hk; exact hk

theorem nlua_bootstrap_no_raise (s : State) (chunk : Except LuaValue Guest) (id : Nat)
    (msg : String) (e : LuaErr) (s1 : State) : nlua_bootstrap s chunk id msg ≠ .raise e s1 := by
  unfold nlua_bootstrap
  cases chunk with
  | error e0 => exact Outcome.noConfusion
  | ok body =>
    dsimp only
    cases hres : lua_pcall (s.push (.function id)) 0 0 body with
    | ret status s2 =>
      simp only [Outcome.bind]
      by_cases hs : status ≠ 0
      · rw [if_pos hs]; exact Outcome.noConfusion
      · rw [if_neg hs]; exact Outcome.noConfusion
    | raise e1 s2 => exact absurd hres (lua_pcall_no_raise _ _ _ _ _ _)
    | exit s2 => simp [Outcome.bind]
    | undefined s2 => simp [Outcome.bind]

theorem nlua_bootstrap_false_log (s : State) (chunk : Except LuaValue Guest) (id : Nat)
    (msg : String) (s1 : State) (he : nlua_bootstrap s chunk id msg = .ret false s1) :
    ∃ pre text, s1.log = pre ++ [.msg_ext_set_kind "lua_error", .emsgf_multiline msg text] := by
  unfold nlua_bootstrap at he
  cases chunk with
  | error e0 =>
    simp only [Outcome.ret.injEq, true_and] at he
    rw [← he, nlua_error_log]
    exact ⟨_, _, rfl⟩
  | ok body =>
    dsimp only at he
    cases hres : lua_pcall (s.push (.function id)) 0 0 body with
    | ret status s2 =>
      rw [hres] at he
      simp only [Outcome.bind] at he
      by_cases hs : status ≠ 0
      · rw [if_pos hs] at he
        simp only [Outcome.ret.injEq, true_and] at he
        rw [← he, nlua_error_log]
        exact ⟨_, _, rfl⟩
      · rw [if_neg hs] at he
        simp at he
    | raise e1 s2 => rw [hres] at he; simp [Outcome.bind] at he
    | exit s2 => rw [hres] at he; simp [Outcome.bind] at he
    | undefined s2 => rw [hres] at he; simp [Outcome.bind] at he

theorem nlua_state_init_first_fails (h : Host) (s s1 : State)
    (hb : nlua_bootstrap (nlua_ref h (nlua_ref h s nil_userdata).2 empty_dict_mt).2
      h.shared_module 0 "E5106: Error while creating shared module: %.*s" = .ret false s1) :
    nlua_state_init h s = .ret 1 s1 := by
  unfold nlua_state_init
  dsimp only
  rw [hb]
  rfl

theorem nlua_state_init_second_fails (h : Host) (s s1 s2 : State)
    (hb : nlua_bootstrap (nlua_ref h (nlua_ref h s nil_userdata).2 empty_dict_mt).2
      h.shared_module 0 "E5106: Error while creating shared module: %.*s" = .ret true s1)
    (hb2 : nlua_bootstrap { s1 with shared_loaded := true } h.vim_module 1
      "E5106: Error while creating vim module: %.*s" = .ret false s2) :
    nlua_state_init h s = .ret 1 s2 := by
  unfold nlua_state_init
  dsimp only
  rw [hb]
  simp only [Outcome.bind, Bool.not_true, Bool.false_eq_true, if_false]
  rw [hb2]
  rfl

theorem nlua_state_init_ret (h : Host) (s : State) (n : Int) (s1 : State)
    (he : nlua_state_init h s = .ret n s1) :
    s1.global_lstate = s.global_lstate ∧ s1.p_rtp = s.p_rtp ∧ s1.last_p_rtp = s.last_p_rtp
    ∧ (n = 1 → s1.vim_loaded = s.vim_loaded
        ∧ ∃ pre msg text, s1.log
            = pre ++ [.msg_ext_set_kind "lua_error", .emsgf_multiline msg text]) := by
  obtain ⟨sr, hsr⟩ : ∃ sr : State,
      sr = (nlua_ref h (nlua_ref h s nil_userdata).2 empty_dict_mt).2 := ⟨_, rfl⟩
  have hsrk : sr.global_lstate = s.global_lstate ∧ sr.p_rtp = s.p_rtp
      ∧ sr.last_p_rtp = s.last_p_rtp ∧ sr.vim_loaded = s.vim_loaded := by
    rw [hsr]
    exact ⟨rfl, rfl, rfl, rfl⟩
  unfold nlua_state_init at he
  dsimp only at he
  rw [← hsr] at he
  have hk1 := nlua_bootstrap_kept sr h.shared_module 0
    "E5106: Error while creating shared module: %.*s"
  cases hb : nlua_bootstrap sr h.shared_module 0
      "E5106: Error while creating shared module: %.*s" with
  | ret ok sa =>
    rw [hb] at he hk1
    simp only [Outcome.state] at hk1
    obtain ⟨_, g1, g2, _, g4, g5⟩ := kept_fields _ _ hk1
    cases ok with
    | false =>
      simp only [Outcome.bind, Bool.not_false, if_true, Outcome.ret.injEq] at he
      obtain ⟨hn, hs⟩ := he
      rw [← hs]
      refine ⟨g1.trans hsrk.1, g2.trans hsrk.2.1, g5.trans hsrk.2.2.1, fun _ => ?_⟩
      obtain ⟨pre, text, hlog⟩ := nlua_bootstrap_false_log _ _ _ _ _ hb
      exact ⟨g4.trans hsrk.2.2.2, pre, _, text, hlog⟩
    | true =>
      simp only [Outcome.bind, Bool.not_true, Bool.false_eq_true, if_false] at he
      have hk2 := nlua_bootstrap_kept { sa with shared_loaded := true } h.vim_module 1
        "E5106: Error while creating vim module: %.*s"
      cases hb2 : nlua_bootstrap { sa with shared_loaded := true } h.vim_module 1
          "E5106: Error while creating vim module: %.*s" with
      | ret ok2 sb =>
        rw [hb2] at he hk2
        simp only [Outcome.state] at hk2
        obtain ⟨_, k1, k2, _, k4, k5⟩ := kept_fields _ _ hk2
        cases ok2 with
        | false =>
          simp only [Bool.not_false, if_true, Outcome.ret.injEq] at he
          obtain ⟨hn, hs⟩ := he
          rw [← hs]
          refine ⟨(k1.trans g1).trans hsrk.1, (k2.trans g2).trans hsrk.2.1,
            (k5.trans g5).trans hsrk.2.2.1, fun _ => ?_⟩
          obtain ⟨pre, text, hlog⟩ := nlua_bootstrap_false_log _ _ _ _ _ hb2
          exact ⟨(k4.trans g4).trans hsrk.2.2.2, pre, _, text, hlog⟩
        | true =>
          simp only [Bool.not_true, Bool.false_eq_true, if_false, Outcome.ret.injEq] at he
          obtain ⟨hn, hs⟩ := he
          rw [← hs]
          refine ⟨(k1.trans g1).trans hsrk.1, (k2.trans g2).trans hsrk.2.1,
            (k5.trans g5).trans hsrk.2.2.1, fun h1 => ?_⟩
          rw [← hn] at h1
          exact absurd h1 (by decide)
      | raise e1 sb => rw [hb2] at he; simp at he
      | exit sb => rw [hb2] at he; simp at he
      | undefined sb => rw [hb2] at he; simp at he
  | raise e1 sa => rw [hb] at he; simp [Outcome.bind] at he
  | exit sa => rw [hb] at he; simp [Outcome.bind] at he
  | undefined sa => rw [hb] at he; simp [Outcome.bind] at he

theorem nlua_init_ret (h : Host) (st s0 : State) (he : nlua_init h st = .ret () s0) :
    h.luaL_newstate = true
    ∧ ∃ n, nlua_state_init h
        { st with stack := [], registry := ⟨[]⟩, log := st.log ++ [.luaL_newstate] }
        = .ret n s0 := by
  unfold nlua_init at he
  cases hL : h.luaL_newstate with
  | false => rw [hL] at he; simp at he
  | true =>
    rw [hL] at he
    simp only [Bool.not_true, Bool.false_eq_true, if_false] at he
    refine ⟨rfl, ?_⟩
    cases hres : nlua_state_init h
        { st with stack := [], registry := ⟨[]⟩, log := st.log ++ [.luaL_newstate] } with
    | ret n s1 =>
      rw [hres] at he
      simp only [Outcome.bind, Outcome.ret.injEq, true_and] at he
      exact ⟨n, by rw [he]⟩
    | raise e1 s1 => rw [hres] at he; simp [Outcome.bind] at he
    | exit s1 => rw [hres] at he; simp [Outcome.bind] at he
    | undefined s1 => rw [hres] at he; simp [Outcome.bind] at he

theorem nlua_enter_of_init (h : Host) (st s0 : State) (hl : st.global_lstate = false)
    (he : nlua_init h st = .ret () s0) :
    nlua_enter h st = nlua_enter_rtp h { s0 with global_lstate := true } := by
  unfold nlua_enter
  rw [hl, he]
  rfl

theorem interp_fields (a b : State) (hk : a.interp = b.interp) :
    a.registry = b.registry ∧ a.global_lstate = b.global_lstate ∧ a.p_rtp = b.p_rtp
    ∧ a.shared_loaded = b.shared_loaded ∧ a.vim_loaded = b.vim_loaded := by
  simp only [State.interp, Prod.mk.injEq] at hk
  exact hk

theorem nlua_state_init_no_raise (h : Host) (s : State) (e : LuaErr) (s1 : State) :
    nlua_state_init h s ≠ .raise e s1 := by
  intro he
  unfold nlua_state_init at he
  dsimp only at he
  cases hb : nlua_bootstrap (nlua_ref h (nlua_ref h s nil_userdata).2 empty_dict_mt).2
      h.shared_module 0 "E5106: Error while creating shared module: %.*s" with
  | ret ok sa =>
    rw [hb] at he
    cases ok with
    | false => simp [Outcome.bind] at he
    | true =>
      simp only [Outcome.bind, Bool.not_true, Bool.false_eq_true, if_false] at he
      cases hb2 : nlua_bootstrap { sa with shared_loaded := true } h.vim_module 1
          "E5106: Error while creating vim module: %.*s" with
      | ret ok2 sb =>
        rw [hb2] at he
        cases ok2 <;> simp at he
      | raise e1 sb => exact absurd hb2 (nlua_bootstrap_no_raise _ _ _ _ _ _)
      | exit sb => rw [hb2] at he; simp at he
      | undefined sb => rw [hb2] at he; simp at he
  | raise e1 sa => exact absurd hb (nlua_bootstrap_no_raise _ _ _ _ _ _)
  | exit sa => rw [hb] at he; simp [Outcome.bind] at he
  | undefined sa => rw [hb] at he; simp [Outcome.bind] at he

theorem nlua_init_no_raise (h : Host) (st : State) (e : LuaErr) (s1 : State) :
    nlua_init h st ≠ .raise e s1 := by
  intro he
  unfold nlua_init at he
  cases hL : h.luaL_newstate with
  | false => rw [hL] at he; simp at he
  | true =>
    rw [hL] at he
    simp only [Bool.not_true, Bool.false_eq_true, if_false] at he
    cases hres : nlua_state_init h
        { st with stack := [], registry := ⟨[]⟩, log := st.log ++ [.luaL_newstate] } with
    | ret n s2 => rw [hres] at he; simp [Outcome.bind] at he
    | raise e1 s2 => exact absurd hres (nlua_state_init_no_raise _ _ _ _)
    | exit s2 => rw [hres] at he; simp [Outcome.bind] at he
    | undefined s2 => rw [hres] at he; simp [Outcome.bind] at he

theorem nlua_enter_no_raise (h : Host) (st : State) (e : LuaErr) (s1 : State) :
    nlua_enter h st ≠ .raise e s1 := by
  cases hl : st.global_lstate with
  | true =>
    rw [nlua_enter_of_interpreter h st hl]
    exact nlua_enter_rtp_no_raise h st e s1
  | false =>
    cases hi : nlua_init h st with
    | ret u s0 =>
      rw [nlua_enter_of_init h st s0 hl hi]
      exact nlua_enter_rtp_no_raise h _ e s1
    | raise e1 s0 => exact absurd hi (nlua_init_no_raise _ _ _ _)
    | exit s0 =>
      unfold nlua_enter
      rw [hl, hi]
      simp [Outcome.bind]
    | undefined s0 =>
      unfold nlua_enter
      rw [hl, hi]
      simp [Outcome.bind]

theorem nlua_enter_ret_of_interpreter (h : Host) (st s1 : State) (hl : st.global_lstate = true)
    (he : nlua_enter h st = .ret () s1) :
    s1.last_p_rtp = some st.p_rtp ∧ s1.p_rtp = st.p_rtp ∧ s1.global_lstate = true
    ∧ s1.registry = st.registry ∧ nlua_enter h s1 = .ret () s1 := by
  rw [nlua_enter_of_interpreter h st hl] at he
  have hrec := nlua_enter_rtp_ret h st s1 he
  have hk := nlua_enter_rtp_keeps h st
  rw [he] at hk
  simp only [Outcome.state] at hk
  obtain ⟨k1, k2, k3, _, _⟩ := interp_fields _ _ hk
  have hl1 : s1.global_lstate = true := k2.trans hl
  refine ⟨hrec, k3, hl1, k1, ?_⟩
  rw [nlua_enter_of_interpreter h s1 hl1]
  exact nlua_enter_rtp_same h s1 (by rw [hrec, k3])

/-! ### Releasing what is not a reference -/

/-- C15: for every handle r that is zero or negative and every state, nlua_unref
returns the state as it was: the registry is unchanged and luaL_unref is not
called; nlua_unref returns a state, so it cannot raise.  Through the host-side
executor_free_luaref the release adds nothing to what nlua_enter does: the
outcome is that of nlua_enter alone, it never raises, and once the interpreter
exists the registry at the end is the registry at the start. -/
theorem nlua_unref_nonpositive (h : Host) (st : State) (r : Int) (hr : r ≤ 0) :
    nlua_unref st r = st
    ∧ executor_free_luaref h st r = nlua_enter h st
    ∧ (∀ e s, executor_free_luaref h st r ≠ .raise e s)
    ∧ (st.global_lstate = true →
        (executor_free_luaref h st r).state.registry = st.registry) := by
  have hn : ¬ r > 0 := by omega
  have hun : ∀ s : State, nlua_unref s r = s := by
    intro s
    unfold nlua_unref
    rw [if_neg hn]
  have heq : executor_free_luaref h st r = nlua_enter h st := by
    unfold executor_free_luaref
    cases nlua_enter h st with
    | ret u s1 => simp only [Outcome.bind, hun]
    | raise e s1 => rfl
    | exit s1 => rfl
    | undefined s1 => rfl
  refine ⟨hun st, heq, fun e s => ?_, fun hl => ?_⟩
  · rw [heq]
    exact nlua_enter_no_raise h st e s
  · rw [heq, nlua_enter_of_interpreter h st hl]
    exact (interp_fields _ _ (nlua_enter_rtp_keeps h st)).1

theorem nlua_unref_nonpositive_witness :
    nlua_unref State.ready 0 = State.ready
    ∧ executor_free_luaref Host.demo State.ready (-1) = .ret () State.ready :=
  ⟨(nlua_unref_nonpositive Host.demo State.ready 0 (by decide)).1,
   ((nlua_unref_nonpositive Host.demo State.ready (-1) (by decide)).2.1).trans (by decide)⟩

/-! ### The path-sync routine runs when the identity of the search path changes -/

/-- C16: nlua_enter compares the search path p_rtp with the one recorded by the
last call (none before the first call; the creation of the interpreter on the
first call touches neither).  When they are the same, the routine
vim._update_package_paths is not invoked and the state is unchanged; when they
differ, the routine is invoked: the log goes on with its call.  Whenever
nlua_enter returns, whether the routine succeeded or failed, the recorded value
is the search path of that call, so a second call that sees the same search
path returns at once with the state unchanged, without invoking the routine. -/
theorem nlua_enter_path_sync (h : Host) (st : State) :
    (st.global_lstate = true →
      (st.last_p_rtp = some st.p_rtp → nlua_enter h st = .ret () st)
      ∧ (st.last_p_rtp ≠ some st.p_rtp →
          ∃ new, (nlua_enter h st).state.log
            = st.log
              ++ [.guest_call (if st.vim_loaded then LuaValue.function 2 else LuaValue.nil) 0]
              ++ new))
    ∧ (st.global_lstate = false → ∀ s0, nlua_init h st = .ret () s0 →
        s0.last_p_rtp = st.last_p_rtp ∧ s0.p_rtp = st.p_rtp
        ∧ (st.last_p_rtp = some st.p_rtp →
            nlua_enter h st = .ret () { s0 with global_lstate := true })
        ∧ (st.last_p_rtp ≠ some st.p_rtp →
            ∃ new, (nlua_enter h st).state.log
              = s0.log
                ++ [.guest_call (if s0.vim_loaded then LuaValue.function 2 else LuaValue.nil) 0]
                ++ new))
    ∧ (∀ s1, nlua_enter h st = .ret () s1 →
        s1.last_p_rtp = some st.p_rtp ∧ s1.p_rtp = st.p_rtp ∧ s1.global_lstate = true
        ∧ nlua_enter h s1 = .ret () s1) := by
  have first : st.global_lstate = false → ∀ s0, nlua_init h st = .ret () s0 →
      s0.last_p_rtp = st.last_p_rtp ∧ s0.p_rtp = st.p_rtp := by
    intro _ s0 hi
    obtain ⟨_, n, hsi⟩ := nlua_init_ret h st s0 hi
    obtain ⟨_, k2, k3, _⟩ := nlua_state_init_ret h _ n s0 hsi
    exact ⟨k3, k2⟩
  refine ⟨fun hl => ⟨fun hs => ?_, fun hd => ?_⟩, fun hl s0 hi => ?_, fun s1 he => ?_⟩
  · rw [nlua_enter_of_interpreter h st hl]
    exact nlua_enter_rtp_same h st hs
  · rw [nlua_enter_of_interpreter h st hl]
    obtain ⟨new, hlog, _⟩ := nlua_enter_rtp_log h st hd
    exact ⟨new, hlog⟩
  · obtain ⟨k3, k2⟩ := first hl s0 hi
    refine ⟨k3, k2, fun hs => ?_, fun hd => ?_⟩
    · rw [nlua_enter_of_init h st s0 hl hi]
      exact nlua_enter_rtp_same h _ (by
        show s0.last_p_rtp = some s0.p_rtp
        rw [k3, k2]; exact hs)
    · rw [nlua_enter_of_init h st s0 hl hi]
      obtain ⟨new, hlog, _⟩ := nlua_enter_rtp_log h { s0 with global_lstate := true } (by
        show s0.last_p_rtp ≠ some s0.p_rtp
        rw [k3, k2]; exact hd)
      exact ⟨new, hlog⟩
  · cases hl : st.global_lstate with
    | true =>
      obtain ⟨a, b, c, _, d⟩ := nlua_enter_ret_of_interpreter h st s1 hl he
      exact ⟨a, b, c, d⟩
    | false =>
      cases hi : nlua_init h st with
      | ret u s0 =>
        obtain ⟨k3, k2⟩ := first hl s0 hi
        have heq := nlua_enter_of_init h st s0 hl hi
        have hl0 : ({ s0 with global_lstate := true } : State).global_lstate = true := rfl
        have he0 : nlua_enter h { s0 with global_lstate := true } = .ret () s1 := by
          rw [nlua_enter_of_interpreter h _ hl0, ← heq]
          exact he
        obtain ⟨a, b, c, _, d⟩ := nlua_enter_ret_of_interpreter h _ s1 hl0 he0
        have a1 : s1.last_p_rtp = some s0.p_rtp := a
        have b1 : s1.p_rtp = s0.p_rtp := b
        exact ⟨by rw [a1, k2], by rw [b1, k2], c, d⟩
      | raise e1 s0 => exact absurd hi (nlua_init_no_raise _ _ _ _)
      | exit s0 =>
        unfold nlua_enter at he
        rw [hl, hi] at he
        simp [Outcome.bind] at he
      | undefined s0 =>
        unfold nlua_enter at he
        rw [hl, hi] at he
        simp [Outcome.bind] at he

theorem nlua_enter_path_sync_witness :
    nlua_enter Host.bad_sync { State.ready with vim_loaded := true, p_rtp := 5 }
      = .ret ()
          { State.ready with
            vim_loaded := true
            p_rtp := 5
            last_p_rtp := some 5
            log := [.guest_call (.function 2) 0, .msg_ext_set_kind "lua_error",
              .emsgf_multiline "E5117: Error while updating package paths: %.*s" (some [101])] }
    ∧ nlua_enter Host.bad_sync
        { State.ready with
          vim_loaded := true
          p_rtp := 5
          last_p_rtp := some 5
          log := [.guest_call (.function 2) 0, .msg_ext_set_kind "lua_error",
            .emsgf_multiline "E5117: Error while updating package paths: %.*s" (some [101])] }
      = .ret ()
          { State.ready with
            vim_loaded := true
            p_rtp := 5
            last_p_rtp := some 5
            log := [.guest_call (.function 2) 0, .msg_ext_set_kind "lua_error",
              .emsgf_multiline "E5117: Error while updating package paths: %.*s"
                (some [101])] } :=
  ⟨by decide,
   ((nlua_enter_path_sync Host.bad_sync
      { State.ready with vim_loaded := true, p_rtp := 5 }).2.2 _ (by decide)).2.2.2⟩

/-! ### A bootstrap script that fails -/

theorem nlua_enter_rtp_unloaded (h : Host) (s : State) (hv : s.vim_loaded = false) :
    ∃ s1, nlua_enter_rtp h s = .ret () s1 := by
  by_cases hd : s.last_p_rtp = some s.p_rtp
  · exact ⟨s, nlua_enter_rtp_same h s hd⟩
  · obtain ⟨sp, _, _, _, heq⟩ := nlua_enter_rtp_shape h s hd
    have hup : update_package_paths h s = .fail .ERRRUN (.string []) := by
      simp [update_package_paths, hv]
    rw [heq, hup]
    exact ⟨_, rfl⟩

theorem nlua_enter_rtp_log_ext (h : Host) (s : State) :
    ∃ new, (nlua_enter_rtp h s).state.log = s.log ++ new ∧ Effect.luaL_newstate ∉ new := by
  by_cases hd : s.last_p_rtp = some s.p_rtp
  · rw [nlua_enter_rtp_same h s hd]
    exact ⟨[], by simp [Outcome.state], by simp⟩
  · obtain ⟨new, hlog, hnew⟩ := nlua_enter_rtp_log h s hd
    refine ⟨[.guest_call (if s.vim_loaded then LuaValue.function 2 else LuaValue.nil) 0] ++ new,
      by rw [hlog, List.append_assoc], ?_⟩
    intro hmem
    rcases List.mem_append.mp hmem with hm | hm
    · simp at hm
    · rcases hnew _ hm with h1 | h1 | ⟨t, h1⟩
      · simp [Effect.of_guest_run] at h1
      · simp at h1
      · simp at h1

theorem nlua_enter_rtp_host (h h2 : Host) (s : State)
    (hu : h2.update_package_paths = h.update_package_paths) :
    nlua_enter_rtp h2 s = nlua_enter_rtp h s := by
  unfold nlua_enter_rtp update_package_paths
  rw [hu]

/-- C17: a bootstrap script that fails to parse or to execute is reported and
is not fatal.  If the first script fails, nlua_state_init reports it with
nlua_error and returns 1 at once, whatever the second script is: the second is
never run.  If the second fails, it is reported in the same way.  On the first
nlua_enter, when nlua_state_init has returned 1, nlua_enter still returns; the
interpreter exists from then on, the report is in the log, and vim.lua has not
been loaded (the namespace is left partially initialised).  Every later
nlua_enter finds the interpreter: it is the path check alone, its result does
not depend on luaL_newstate or on the bootstrap scripts, it keeps the registry,
and it adds no luaL_newstate to the log. -/
theorem nlua_enter_bootstrap_failure (h : Host) (st : State) :
    (∀ s s1,
      nlua_bootstrap (nlua_ref h (nlua_ref h s nil_userdata).2 empty_dict_mt).2
        h.shared_module 0 "E5106: Error while creating shared module: %.*s" = .ret false s1 →
      (∀ m, nlua_state_init { h with vim_module := m } s = .ret 1 s1)
      ∧ ∃ pre text, s1.log
          = pre ++ [.msg_ext_set_kind "lua_error",
              .emsgf_multiline "E5106: Error while creating shared module: %.*s" text])
    ∧ (∀ s s1 s2,
      nlua_bootstrap (nlua_ref h (nlua_ref h s nil_userdata).2 empty_dict_mt).2
        h.shared_module 0 "E5106: Error while creating shared module: %.*s" = .ret true s1 →
      nlua_bootstrap { s1 with shared_loaded := true } h.vim_module 1
        "E5106: Error while creating vim module: %.*s" = .ret false s2 →
      nlua_state_init h s = .ret 1 s2
      ∧ ∃ pre text, s2.log
          = pre ++ [.msg_ext_set_kind "lua_error",
              .emsgf_multiline "E5106: Error while creating vim module: %.*s" text])
    ∧ (st.global_lstate = false → st.vim_loaded = false → h.luaL_newstate = true →
      ∀ s1,
        nlua_state_init h
          { st with stack := [], registry := ⟨[]⟩, log := st.log ++ [.luaL_newstate] }
          = .ret 1 s1 →
        ∃ s2, nlua_enter h st = .ret () s2 ∧ s2.global_lstate = true ∧ s2.vim_loaded = false
          ∧ ∃ pre msg text new, s2.log
              = pre ++ [.msg_ext_set_kind "lua_error", .emsgf_multiline msg text] ++ new
            ∧ Effect.luaL_newstate ∉ new)
    ∧ (∀ s, s.global_lstate = true →
        nlua_enter h s = nlua_enter_rtp h s
        ∧ (∀ h2 : Host, h2.update_package_paths = h.update_package_paths →
            nlua_enter h2 s = nlua_enter h s)
        ∧ (nlua_enter h s).state.global_lstate = true
        ∧ (nlua_enter h s).state.registry = s.registry
        ∧ ∃ new, (nlua_enter h s).state.log = s.log ++ new ∧ Effect.luaL_newstate ∉ new) := by
  refine ⟨fun s s1 hb => ⟨fun m => ?_, nlua_bootstrap_false_log _ _ _ _ _ hb⟩,
    fun s s1 s2 hb hb2 => ⟨nlua_state_init_second_fails h s s1 s2 hb hb2,
      nlua_bootstrap_false_log _ _ _ _ _ hb2⟩,
    fun hl hv hL s1 hsi => ?_, fun s hl => ?_⟩
  · exact nlua_state_init_first_fails { h with vim_module := m } s s1 hb
  · have hi : nlua_init h st = .ret () s1 := by
      unfold nlua_init
      rw [hL]
      simp only [Bool.not_true, Bool.false_eq_true, if_false]
      rw [hsi]
      rfl
    obtain ⟨_, _, _, hone⟩ := nlua_state_init_ret h _ 1 s1 hsi
    obtain ⟨hv1, pre, msg, text, hlog1⟩ := hone rfl
    have hv0 : ({ s1 with global_lstate := true } : State).vim_loaded = false := by
      show s1.vim_loaded = false
      rw [hv1]
      exact hv
    obtain ⟨s2, hs2⟩ := nlua_enter_rtp_unloaded h { s1 with global_lstate := true } hv0
    have hk := nlua_enter_rtp_keeps h { s1 with global_lstate := true }
    obtain ⟨new, hlog, hnew⟩ := nlua_enter_rtp_log_ext h { s1 with global_lstate := true }
    rw [hs2] at hk hlog
    simp only [Outcome.state] at hk hlog
    obtain ⟨_, k2, _, _, k5⟩ := interp_fields _ _ hk
    refine ⟨s2, ?_, k2, k5.trans hv0, pre, msg, text, new, ?_, hnew⟩
    · rw [nlua_enter_of_init h st s1 hl hi]
      exact hs2
    · rw [hlog]
      show s1.log ++ new = _
      rw [hlog1]
  · have heq := nlua_enter_of_interpreter h s hl
    have hk := nlua_enter_rtp_keeps h s
    obtain ⟨k1, k2, _, _, _⟩ := interp_fields _ _ hk
    refine ⟨heq, fun h2 hu => ?_, ?_, ?_, ?_⟩
    · rw [heq, nlua_enter_of_interpreter h2 s hl]
      exact nlua_enter_rtp_host h h2 s hu
    · rw [heq, k2]
      exact hl
    · rw [heq]
      exact k1
    · rw [heq]
      exact nlua_enter_rtp_log_ext h s

theorem nlua_enter_bootstrap_failure_witness :
    nlua_enter Host.bad_shared State.init
      = .ret ()
          { State.init with
            global_lstate := true
            last_p_rtp := some 1
            registry := ⟨[(2, empty_dict_mt), (1, nil_userdata)]⟩
            log := [.luaL_newstate, .luaL_ref 1, .luaL_ref 2, .msg_ext_set_kind "lua_error",
              .emsgf_multiline "E5106: Error while creating shared module: %.*s" (some [101]),
              .guest_call .nil 0, .msg_ext_set_kind "lua_error",
              .emsgf_multiline "E5117: Error while updating package paths: %.*s" (some [])] }
    ∧ ∃ s2, nlua_enter Host.bad_shared State.init = .ret () s2 ∧ s2.global_lstate = true
        ∧ s2.vim_loaded = false
        ∧ ∃ pre msg text new, s2.log
            = pre ++ [.msg_ext_set_kind "lua_error", .emsgf_multiline msg text] ++ new
          ∧ Effect.luaL_newstate ∉ new :=
  ⟨by decide,
   (nlua_enter_bootstrap_failure Host.bad_shared State.init).2.2.1 (by decide) (by decide)
    (by decide)
    { State.init with
      registry := ⟨[(2, empty_dict_mt), (1, nil_userdata)]⟩
      log := [.luaL_newstate, .luaL_ref 1, .luaL_ref 2, .msg_ext_set_kind "lua_error",
        .emsgf_multiline "E5106: Error while creating shared module: %.*s" (some [101])] }
    (by decide)⟩

/-! ### The error message of print and the formatting buffer -/

theorem vim_snprintf_written_le (text : Bytes) :
    (vim_snprintf IOSIZE text).1.length ≤ IOSIZE := by
  have h0 : ¬ IOSIZE = 0 := by decide
  have h1 : IOSIZE - 1 + 1 = IOSIZE := by decide
  simp only [vim_snprintf, if_neg h0, List.length_append, List.length_take,
    List.length_singleton]
  omega

theorem nlua_print_error_overread (st : State) (curargidx : Nat) (errmsg : Option Bytes)
    (hlong : IOSIZE < (nlua_print_fmt curargidx errmsg).length) :
    nlua_print_error st curargidx errmsg = .undefined st := by
  have hw := vim_snprintf_written_le (nlua_print_fmt curargidx errmsg)
  have hr : (vim_snprintf IOSIZE (nlua_print_fmt curargidx errmsg)).2
      = (nlua_print_fmt curargidx errmsg).length := rfl
  unfold nlua_print_error lua_pushlstring_IObuff
  dsimp only
  rw [if_neg (by rw [hr]; omega)]

theorem nlua_print_error_short (st : State) (curargidx : Nat) (errmsg : Option Bytes)
    (hshort : (nlua_print_fmt curargidx errmsg).length < IOSIZE) :
    nlua_print_error st curargidx errmsg
      = .raise (.guest (.string (nlua_print_fmt curargidx errmsg))) st := by
  have h1 : IOSIZE - 1 + 1 = IOSIZE := by decide
  have hw : (vim_snprintf IOSIZE (nlua_print_fmt curargidx errmsg)).1
      = nlua_print_fmt curargidx errmsg ++ [NUL] := by
    have h0 : ¬ IOSIZE = 0 := by decide
    simp only [vim_snprintf, if_neg h0]
    rw [List.take_of_length_le (by omega)]
  have hr : (vim_snprintf IOSIZE (nlua_print_fmt curargidx errmsg)).2
      = (nlua_print_fmt curargidx errmsg).length := rfl
  unfold nlua_print_error lua_pushlstring_IObuff
  dsimp only
  rw [hw, hr, if_pos (by simp), List.take_left']
  rfl

theorem nlua_print_failing_tostring (st : State) (v : LuaValue) (e : PcallError)
    (text : Bytes) :
    nlua_print st [v] (fun _ => .fail e (.string text))
      = nlua_print_error
          { st with
            stack := .string text :: st.stack
            log := st.log ++ [.guest_call tostring_fn 1] }
          1 (some text) := by
  have he : e.code ≠ 0 := PcallError.code_ne_zero e
  simp [nlua_print, nlua_print_args, lua_pcall, lua_pcall_run, run_guest, Outcome.bind,
    State.push, he, lua_tolstring]

/-- C18 (the code at the failing input): print of one argument whose tostring
fails with an error text of 2000 bytes.  vim_snprintf writes at most IOSIZE
bytes to IObuff but returns the length of the whole formatted message, and
nlua_print hands that length to lua_pushlstring (executor.c:630-632): the
length is above IOSIZE, so the string pushed as the error message is read past
what was written and past the end of the buffer. -/
theorem nlua_print_error_message_overread :
    nlua_print State.init [.table 1 none]
        (fun _ => .fail .ERRRUN (.string (List.replicate 2000 97)))
      = .undefined
          { State.init with
            stack := [.string (List.replicate 2000 97)]
            log := [.guest_call tostring_fn 1] }
    ∧ IOSIZE < (vim_snprintf IOSIZE (nlua_print_fmt 1 (some (List.replicate 2000 97)))).2
    ∧ (vim_snprintf IOSIZE (nlua_print_fmt 1 (some (List.replicate 2000 97)))).1.length
        ≤ IOSIZE := by
  have hlong : IOSIZE < (nlua_print_fmt 1 (some (List.replicate 2000 97))).length := by
    simp only [nlua_print_fmt, List.length_append, Option.getD_some, List.length_replicate,
      IOSIZE]
    omega
  refine ⟨?_, hlong, ?_⟩
  · rw [nlua_print_failing_tostring]
    exact nlua_print_error_overread _ 1 _ hlong
  · exact vim_snprintf_written_le _

/-- When the formatted message is shorter than the formatting buffer, the error
raised by print for a failing tostring is the whole message "E5114: Error
while converting print argument #k: text", below IOSIZE bytes and made of bytes
written to the buffer only. -/
theorem nlua_print_error_message_short (st : State) (v : LuaValue) (e : PcallError)
    (text : Bytes) (hshort : (nlua_print_fmt 1 (some text)).length < IOSIZE) :
    nlua_print st [v] (fun _ => .fail e (.string text))
      = .raise (.guest (.string (nlua_print_fmt 1 (some text))))
          { st with
            stack := .string text :: st.stack
            log := st.log ++ [.guest_call tostring_fn 1] } := by
  rw [nlua_print_failing_tostring]
  exact nlua_print_error_short _ 1 _ hshort

theorem nlua_print_error_message_short_witness :
    nlua_print State.init [.table 1 none] (fun _ => .fail .ERRRUN (.string [111]))
      = .raise (.guest (.string (nlua_print_fmt 1 (some [111]))))
          { State.init with
            stack := [.string [111]]
            log := [.guest_call tostring_fn 1] } :=
  nlua_print_error_message_short State.init (.table 1 none) .ERRRUN [111] (by decide)

end Executor
